import Mathlib

/-!
# EvergreenHealth urgent-care wait times: a model of `src/API/evergreen.js`

The file embeds the request handler of `src/API/evergreen.js` and the helpers declared
inside it (`getMinutesEstimate`, `getOpenStatus`, `getRangeString`, `getDriveTimeMiles`, the
mapping loop, the sort) as Lean functions, and proves properties of them.

Modelling conventions.

* JavaScript values that reach the handler come out of `JSON.parse`; they are the
  inductive type `JSVal` (plus `undefined`, the result of reading an absent property).
  The coercions `Number(v)`, `String(v)` and truthiness follow ECMAScript (`ToNumber`,
  `ToString`, `ToBoolean`), the `TypeError` of `OrdinaryToPrimitive` included.
* A JavaScript number is `JSNum`: `NaN`, the two infinities, or a finite value carried as
  the rational it denotes.  Multiplication, division, numeric literals and the reading of a
  numeric string round to IEEE-754 binary64 (round to nearest, ties to even, overflow to an
  infinity), as `binary64` does.  The two zeros are one value; the program never divides
  by a zero and prints both zeros as `0`.
* A string is a sequence of Unicode code points; where the program counts UTF-16 code
  units (`slice`), the string is expanded to them (`toUtf16`).
* Code that can throw returns `Except JSError _`.
* The two network providers and the clock are inputs (`World`); every call that the handler
  makes is appended to a trace so that "no call is made" can be stated.
* Two built-ins are parameters (`Host`): the digit string `Number::toString` yields for a
  finite number that is not an integer of magnitude at most `2^53`, and
  `String.prototype.localeCompare`.
-/

namespace Evergreen

/-! ## Numbers -/

/-- A JavaScript number: `NaN`, `+Infinity`, `-Infinity`, or a finite value. -/
inductive JSNum where
  | nan
  | posInf
  | negInf
  | fin (q : ℚ)
  deriving DecidableEq

namespace JSNum

/-- `Number.isFinite(n)` for a value `n` that is a number. -/
def isFinite : JSNum → Bool
  | fin _ => true
  | _ => false

/-- Sign of a number that is not `NaN` (`0` for zero and, unused, for `NaN`). -/
def sign : JSNum → Int
  | nan => 0
  | posInf => 1
  | negInf => -1
  | fin q => if 0 < q then 1 else if q < 0 then -1 else 0

/-- The power `2^e` for an integer exponent. -/
def pow2 (e : ℤ) : ℚ :=
  if 0 ≤ e then ((2 ^ e.toNat : ℕ) : ℚ) else 1 / ((2 ^ (-e).toNat : ℕ) : ℚ)

/-- Number of halvings that bring `n` below 2, within `fuel` steps. -/
def log2Fuel : Nat → Nat → Nat
  | 0, _ => 0
  | fuel + 1, n => if n < 2 then 0 else log2Fuel fuel (n / 2) + 1

/-- The natural number `k` with `2^k ≤ n < 2^(k+1)`, for `n > 0`. -/
def natLog2 (n : Nat) : Nat := log2Fuel n n

/-- The integer `e` with `2^e ≤ a < 2^(e+1)`, for a rational `a > 0`. -/
def floorLog2 (a : ℚ) : ℤ :=
  let e0 : ℤ := (natLog2 a.num.natAbs : ℤ) - (natLog2 a.den : ℤ)
  if a < pow2 e0 then e0 - 1 else e0

/-- The integer nearest to `x`, a tie going to the even one. -/
def roundHalfEven (x : ℚ) : ℤ :=
  let f := ⌊x⌋
  let r := x - f
  if r < 1 / 2 then f else if 1 / 2 < r then f + 1 else if f % 2 = 0 then f else f + 1

/-- The binary64 value nearest to the rational `q`: round to nearest, ties to even, with 53
significant bits, the least exponent -1022 (subnormals below it), and an infinity when the
rounded magnitude reaches `2^1024`.  It is the value of a numeric literal and the result of
an arithmetic operation whose exact result is `q`. -/
def binary64 (q : ℚ) : JSNum :=
  if q = 0 then fin 0
  else
    let a := if q < 0 then -q else q
    let e := Max.max (floorLog2 a) (-1022)
    let ulp := pow2 (e - 52)
    let r := (roundHalfEven (a / ulp) : ℚ) * ulp
    if pow2 1024 ≤ r then (if q < 0 then negInf else posInf)
    else fin (if q < 0 then -r else r)

/-- The number with the given sign and infinite magnitude; `NaN` for sign `0`. -/
def infOfSign (s : Int) : JSNum :=
  if 0 < s then posInf else if s < 0 then negInf else nan

/-- The operator `a * b` on numbers. -/
def mul : JSNum → JSNum → JSNum
  | nan, _ => nan
  | _, nan => nan
  | fin x, fin y => binary64 (x * y)
  | a, b => infOfSign (a.sign * b.sign)

/-- The operator `a / b` on numbers.  A zero divisor is taken as `+0`. -/
def div : JSNum → JSNum → JSNum
  | nan, _ => nan
  | _, nan => nan
  | fin x, fin y => if y = 0 then infOfSign (fin x).sign else binary64 (x / y)
  | fin _, _ => fin 0
  | a, fin y => infOfSign (a.sign * (if y < 0 then -1 else 1))
  | _, _ => nan

/-- `Math.round(x)`: the nearest integer, a tie going towards `+Infinity`.  The result is
exact: below `2^52` in magnitude it is an integer of at most 53 bits, and from `2^52` on a
binary64 value is an integer already. -/
def round : JSNum → JSNum
  | fin q => fin (⌊q + 1 / 2⌋ : ℤ)
  | x => x

/-- `Math.max(a, b)`. -/
def max : JSNum → JSNum → JSNum
  | nan, _ => nan
  | _, nan => nan
  | posInf, _ => posInf
  | _, posInf => posInf
  | negInf, b => b
  | a, negInf => a
  | fin x, fin y => fin (if x ≤ y then y else x)

/-- Bound `2^53` of the integers every one of which is a binary64 value. -/
def safeBound : Nat := 9007199254740992

/-- `Number::toString(n)` (radix 10).  A finite integer of magnitude at most `2^53` prints as
its decimal digits, with a leading `-` when negative.  For any other finite value the digit
string is the parameter `shortest`. -/
def toJSString (shortest : ℚ → String) : JSNum → String
  | nan => "NaN"
  | posInf => "Infinity"
  | negInf => "-Infinity"
  | fin q =>
    if q.den = 1 ∧ q.num.natAbs ≤ safeBound then
      (if q.num < 0 then "-" else "") ++ toString q.num.natAbs
    else shortest q

end JSNum

/-! ## Strings: trimming and `StringToNumber` -/

/-- `WhiteSpace` and `LineTerminator` code points of ECMAScript: what `trim` strips and what
`StringToNumber` ignores around a numeric literal. -/
def isStrWhiteSpace (c : Char) : Bool :=
  let n := c.toNat
  n = 0x09 || n = 0x0A || n = 0x0B || n = 0x0C || n = 0x0D || n = 0x20 || n = 0xA0 ||
  n = 0x1680 || (0x2000 ≤ n && n ≤ 0x200A) || n = 0x2028 || n = 0x2029 || n = 0x202F ||
  n = 0x205F || n = 0x3000 || n = 0xFEFF

/-- Strip white space from both ends of a list of characters. -/
def trimChars (cs : List Char) : List Char :=
  ((cs.dropWhile isStrWhiteSpace).reverse.dropWhile isStrWhiteSpace).reverse

/-- `String.prototype.trim`. -/
def jsTrim (s : String) : String := ⟨trimChars s.data⟩

/-- Value of a digit character in the given radix (2, 8, 10 or 16). -/
def digitValue (radix : Nat) (c : Char) : Option Nat :=
  let n := c.toNat
  let v : Option Nat :=
    if 48 ≤ n ∧ n ≤ 57 then some (n - 48)
    else if 97 ≤ n ∧ n ≤ 102 then some (n - 87)
    else if 65 ≤ n ∧ n ≤ 70 then some (n - 55)
    else none
  match v with
  | some d => if d < radix then some d else none
  | none => none

/-- Value of a non-empty string of digits of the given radix; `none` when the list is empty
or holds another character. -/
def digitsValue (radix : Nat) (cs : List Char) : Option Nat :=
  if cs.isEmpty then none
  else cs.foldl (fun acc c => match acc, digitValue radix c with
    | some a, some d => some (a * radix + d)
    | _, _ => none) (some 0)

/-- Value of a possibly empty string of decimal digits. -/
def decimalDigitsOrZero (cs : List Char) : Nat :=
  (digitsValue 10 cs).getD 0

/-- `NonDecimalIntegerLiteral`: `0x`, `0o` or `0b` (either case) and at least one digit. -/
def parseNonDecimal : List Char → Option Nat
  | '0' :: 'x' :: ds => digitsValue 16 ds
  | '0' :: 'X' :: ds => digitsValue 16 ds
  | '0' :: 'o' :: ds => digitsValue 8 ds
  | '0' :: 'O' :: ds => digitsValue 8 ds
  | '0' :: 'b' :: ds => digitsValue 2 ds
  | '0' :: 'B' :: ds => digitsValue 2 ds
  | _ => none

/-- `ExponentPart` after the indicator `e`/`E`: an optional sign and at least one digit.
Returns the factor by which the mantissa is multiplied. -/
def parseExponent : List Char → Option ℚ
  | '+' :: ds => (digitsValue 10 ds).map (fun n => (10 : ℚ) ^ n)
  | '-' :: ds => (digitsValue 10 ds).map (fun n => 1 / (10 : ℚ) ^ n)
  | ds => (digitsValue 10 ds).map (fun n => (10 : ℚ) ^ n)

/-- `StrUnsignedDecimalLiteral` other than `Infinity`: `D.D?E?`, `.DE?` or `DE?`. -/
def parseUnsignedDecimal (cs : List Char) : Option ℚ :=
  let intPart := cs.takeWhile Char.isDigit
  let rest := cs.dropWhile Char.isDigit
  let fracPart := match rest with
    | '.' :: t => t.takeWhile Char.isDigit
    | _ => []
  let tail := match rest with
    | '.' :: t => t.dropWhile Char.isDigit
    | _ => rest
  if intPart.isEmpty && fracPart.isEmpty then none
  else
    let mantissa : ℚ :=
      (decimalDigitsOrZero intPart : ℚ) +
        (decimalDigitsOrZero fracPart : ℚ) / (10 : ℚ) ^ fracPart.length
    match tail with
    | [] => some mantissa
    | 'e' :: t => (parseExponent t).map (fun f => mantissa * f)
    | 'E' :: t => (parseExponent t).map (fun f => mantissa * f)
    | _ => none

/-- `StrUnsignedDecimalLiteral`, `Infinity` included: the binary64 value nearest to the
decimal value. -/
def parseUnsigned (cs : List Char) : JSNum :=
  if cs = "Infinity".data then JSNum.posInf
  else match parseUnsignedDecimal cs with
    | some q => JSNum.binary64 q
    | none => JSNum.nan

/-- Negation of a number. -/
def JSNum.neg : JSNum → JSNum
  | JSNum.nan => JSNum.nan
  | JSNum.posInf => JSNum.negInf
  | JSNum.negInf => JSNum.posInf
  | JSNum.fin q => JSNum.fin (-q)

/-- `StringToNumber(s)`: white space is stripped; the empty string is `0`; a string that is
not a `StrNumericLiteral` is `NaN`; the value of a literal is rounded to binary64. -/
def stringToNumber (s : String) : JSNum :=
  let t := trimChars s.data
  if t.isEmpty then JSNum.fin 0
  else match parseNonDecimal t with
    | some n => JSNum.binary64 n
    | none =>
      match t with
      | '+' :: u => parseUnsigned u
      | '-' :: u => (parseUnsigned u).neg
      | u => parseUnsigned u

/-! ## Values, property reads and coercions -/

/-- What the code can throw. -/
inductive JSError where
  | typeError
  | fetchFailed
  | badJson
  deriving DecidableEq

/-- Built-ins of the host that the model takes as parameters. -/
structure Host where
  /-- Digit string of `Number::toString` for a finite number that is not a safe integer. -/
  shortest : ℚ → String
  /-- The method `a.localeCompare(b)`: negative, zero or positive. -/
  localeCompare : String → String → Int

/-- A JavaScript value built by `JSON.parse`, or `undefined`.  The entries of an object are
its own properties in order; a read takes the first entry with the key. -/
inductive JSVal where
  | undefined
  | null
  | bool (b : Bool)
  | num (n : JSNum)
  | str (s : String)
  | arr (xs : List JSVal)
  | obj (fields : List (String × JSVal))

namespace JSVal

/-- `ToBoolean(v)`: what `!v`, `v || w` and `filter(Boolean)` test. -/
def truthy : JSVal → Bool
  | undefined => false
  | null => false
  | bool b => b
  | num n => !(n = JSNum.nan || n = JSNum.fin 0)
  | str s => !s.data.isEmpty
  | arr _ => true
  | obj _ => true

/-- The property read `v.key` for the property names used by the handler (`Name`,
`WaitTime`, `routes`, ...), none of which is defined on a built-in prototype: it throws on
`undefined` and `null`, reads an own property of an object, and is `undefined` otherwise. -/
def get (v : JSVal) (key : String) : Except JSError JSVal :=
  match v with
  | undefined => throw JSError.typeError
  | null => throw JSError.typeError
  | obj fields => pure ((fields.lookup key).getD undefined)
  | _ => pure undefined

/-- The indexed read `v[0]`. -/
def index0 (v : JSVal) : Except JSError JSVal :=
  match v with
  | undefined => throw JSError.typeError
  | null => throw JSError.typeError
  | arr xs => pure (xs.head?.getD undefined)
  | str s =>
    match s.data with
    | [] => pure undefined
    | c :: _ => pure (str (String.singleton c))
  | obj fields => pure ((fields.lookup "0").getD undefined)
  | _ => pure undefined

/-- Whether an object built by `JSON.parse` has the own property `key`. -/
def hasOwn (fields : List (String × JSVal)) (key : String) : Bool :=
  (fields.lookup key).isSome

mutual
/-- `ToString(v)`, which is `String(v)`.  An array is joined with commas (`undefined` and
`null` elements give the empty string).  An object prints as `[object Object]`, unless it
has an own property `toString`: a value made by `JSON.parse` is never callable, the
inherited `valueOf` returns the object itself, and `OrdinaryToPrimitive` throws. -/
def toStr (h : Host) : JSVal → Except JSError String
  | undefined => pure "undefined"
  | null => pure "null"
  | bool b => pure (if b then "true" else "false")
  | num n => pure (n.toJSString h.shortest)
  | str s => pure s
  | arr xs => do
    let parts ← elemStrs h xs
    pure (",".intercalate parts)
  | obj fields =>
    if hasOwn fields "toString" then throw JSError.typeError else pure "[object Object]"
/-- The strings `Array.prototype.join` produces for the elements, in order. -/
def elemStrs (h : Host) : List JSVal → Except JSError (List String)
  | [] => pure []
  | x :: xs => do
    let a ← (match x with
      | undefined => pure ""
      | null => pure ""
      | y => toStr h y)
    let rest ← elemStrs h xs
    pure (a :: rest)
end

/-- `ToNumber(v)`, which is `Number(v)`.  An array or object goes through `ToPrimitive` with
hint number: the inherited `valueOf` returns the object itself, so the result is that of
`toString`, converted by `StringToNumber`. -/
def toNumber (h : Host) : JSVal → Except JSError JSNum
  | undefined => pure JSNum.nan
  | null => pure (JSNum.fin 0)
  | bool b => pure (JSNum.fin (if b then 1 else 0))
  | num n => pure n
  | str s => pure (stringToNumber s)
  | arr xs => do
    let s ← toStr h (arr xs)
    pure (stringToNumber s)
  | obj fields => do
    let s ← toStr h (obj fields)
    pure (stringToNumber s)

end JSVal

/-! ## The static tables of the handler -/

/-- An entry of `CLINIC_COORDS`; `lat` and `lng` are the decimal literals of the source (the
program only prints them into the routing URL). -/
structure ClinicCoord where
  city : String
  lat : ℚ
  lng : ℚ
  deriving DecidableEq

/-- The origin `REDMOND_ORIGIN` (its `lat` and `lng`). -/
def REDMOND_ORIGIN : ClinicCoord :=
  { city := "EvergreenHealth Urgent Care, Redmond", lat := 47.6821696, lng := -122.1238347 }

/-- The object literal `CLINIC_COORDS`: its seven own properties. -/
def CLINIC_COORDS : List (String × ClinicCoord) :=
  [ ("EvergreenHealth Urgent Care, Canyon Park",
      { city := "Bothell, WA", lat := 47.8044871, lng := -122.2068921 }),
    ("EvergreenHealth Urgent Care, Kenmore",
      { city := "Kenmore, WA", lat := 47.760574, lng := -122.2505451 }),
    ("EvergreenHealth Urgent Care, Mill Creek",
      { city := "Mill Creek, WA", lat := 47.877566, lng := -122.1749333 }),
    ("EvergreenHealth Urgent Care, Monroe",
      { city := "Monroe, WA", lat := 47.8628803, lng := -121.990223 }),
    ("EvergreenHealth Urgent Care, Redmond",
      { city := "Redmond, WA", lat := REDMOND_ORIGIN.lat, lng := REDMOND_ORIGIN.lng }),
    ("EvergreenHealth Urgent Care, Totem Lake",
      { city := "Kirkland, WA", lat := 47.71393, lng := -122.1831048 }),
    ("EvergreenHealth Urgent Care, Woodinville",
      { city := "Woodinville, WA", lat := 47.7543, lng := -122.1630 }) ]

/-- Property names that every object literal inherits from `Object.prototype`: reading one
of them on `CLINIC_COORDS` yields a function (or, for `__proto__`, the prototype object),
a truthy value without `city`, `lat` or `lng`. -/
def objectPrototypeKeys : List String :=
  [ "constructor", "__defineGetter__", "__defineSetter__", "hasOwnProperty",
    "__lookupGetter__", "__lookupSetter__", "isPrototypeOf", "propertyIsEnumerable",
    "toString", "valueOf", "__proto__", "toLocaleString" ]

/-- The value of `CLINIC_COORDS[name]`. -/
inductive CoordsValue where
  | entry (c : ClinicCoord)
  | inherited
  | absent
  deriving DecidableEq

/-- The read `CLINIC_COORDS[name]`: an own property, else a property of `Object.prototype`,
else `undefined`. -/
def lookupCoords (name : String) : CoordsValue :=
  match CLINIC_COORDS.lookup name with
  | some c => CoordsValue.entry c
  | none => if objectPrototypeKeys.contains name then CoordsValue.inherited else CoordsValue.absent

/-- Destination of a routing request: `dest.lng` and `dest.lat`, `none` for `undefined`. -/
structure Dest where
  lng : Option ℚ
  lat : Option ℚ
  deriving DecidableEq

/-- The `lng`/`lat` that `getDriveTimeMiles` reads from a truthy `coords`. -/
def CoordsValue.dest : CoordsValue → Dest
  | CoordsValue.entry c => { lng := some c.lng, lat := some c.lat }
  | _ => { lng := none, lat := none }

/-- The expression `coords?.city || ""`. -/
def CoordsValue.cityOrEmpty : CoordsValue → String
  | CoordsValue.entry c => c.city
  | _ => ""

deriving instance DecidableEq for Except

/-! ## The helpers declared inside the handler -/

/-- The loop of `getMinutesEstimate` over its candidates: the first `Number(c)` that is
finite. -/
def firstFinite (h : Host) : List JSVal → Except JSError (Option JSNum)
  | [] => pure none
  | c :: cs => do
    let n ← c.toNumber h
    if n.isFinite then pure (some n) else firstFinite h cs

/-- The five values read by `getMinutesEstimate`, in the order of the array literal. -/
def minuteCandidates (d : JSVal) : Except JSError (List JSVal) := do
  let c1 ← d.get "WaitTime"
  let c2 ← d.get "WaitTimeInMinutes"
  let c3 ← d.get "DisplayWait"
  let c4 ← d.get "EstimatedWaitMinutes"
  let c5 ← d.get "EstWait"
  pure [c1, c2, c3, c4, c5]

/-- The function `getMinutesEstimate(d)`; `none` is `null`. -/
def getMinutesEstimate (h : Host) (d : JSVal) : Except JSError (Option JSNum) := do
  let candidates ← minuteCandidates d
  firstFinite h candidates

/-- The function `getOpenStatus(d)`. -/
def getOpenStatus (h : Host) (d : JSVal) : Except JSError Bool := do
  let isOpen ← d.get "IsOpen"
  match isOpen with
  | JSVal.bool b => pure b
  | _ => do
    let isOpenNow ← d.get "IsOpenNow"
    match isOpenNow with
    | JSVal.bool b => pure b
    | _ => do
      let mins ← getMinutesEstimate h d
      pure mins.isSome

/-- The four values read by `getRangeString`, in the order of the array literal. -/
def rangeCandidates (d : JSVal) : Except JSError (List JSVal) := do
  let c1 ← d.get "WaitTimeString"
  let c2 ← d.get "EstimatedWaitTimeText"
  let c3 ← d.get "DisplayWaitRange"
  let c4 ← d.get "WaitTimeText"
  pure [c1, c2, c3, c4]

/-- The lower bound `min` computed by `getRangeString`. -/
def rangeMin (minutes : JSNum) : JSNum :=
  JSNum.max (JSNum.fin 0)
    (JSNum.mul
      (JSNum.round (JSNum.div (JSNum.mul minutes (JSNum.binary64 0.7)) (JSNum.fin 5)))
      (JSNum.fin 5))

/-- The upper bound `max` computed by `getRangeString`. -/
def rangeMax (minutes : JSNum) : JSNum :=
  JSNum.max (rangeMin minutes)
    (JSNum.mul
      (JSNum.round (JSNum.div (JSNum.mul minutes (JSNum.binary64 1.3)) (JSNum.fin 5)))
      (JSNum.fin 5))

/-- The function `getRangeString(d, minutes)`; `minutes` is `null` (`none`) or a number. -/
def getRangeString (h : Host) (d : JSVal) (minutes : Option JSNum) :
    Except JSError String := do
  let all ← rangeCandidates d
  match all.filter JSVal.truthy with
  | c :: _ => c.toStr h
  | [] =>
    match minutes with
    | none => pure "n/a"
    | some m =>
      if !m.isFinite then pure "n/a"
      else
        pure ((rangeMin m).toJSString h.shortest ++ "–" ++
          (rangeMax m).toJSString h.shortest ++ " min")

/-- What `fetch(url)` of the routing provider does: it throws, or it resolves to a response
with its `ok` flag and the value of `r.json()` (`none` when that promise rejects). -/
inductive RoutingOutcome where
  | threw
  | response (ok : Bool) (json : Option JSVal)

/-- The object `{ minutes, miles }` returned by `getDriveTimeMiles`. -/
structure DriveEstimate where
  minutes : JSNum
  miles : JSNum
  deriving DecidableEq

/-- The `try` block of `getDriveTimeMiles`, given what the fetch did. -/
def driveTry (h : Host) : RoutingOutcome → Except JSError (Option DriveEstimate)
  | RoutingOutcome.threw => throw JSError.fetchFailed
  | RoutingOutcome.response ok json =>
    if !ok then pure none
    else do
      let data ← (match json with
        | some v => pure v
        | none => throw JSError.badJson)
      let routes ← data.get "routes"
      if !routes.truthy then pure none
      else do
        let route ← routes.index0
        if !route.truthy then pure none
        else do
          let duration ← route.get "duration"
          let seconds ← duration.toNumber h
          let minutes := JSNum.round (JSNum.div seconds (JSNum.fin 60))
          let distance ← route.get "distance"
          let metres ← distance.toNumber h
          let miles := JSNum.div
            (JSNum.round
              (JSNum.mul (JSNum.mul metres (JSNum.binary64 0.000621371)) (JSNum.fin 10)))
            (JSNum.fin 10)
          pure (some { minutes := minutes, miles := miles })

/-- The function `getDriveTimeMiles(dest)`, given what its fetch did: the `catch` turns
every throw into `null`. -/
def getDriveTimeMiles (h : Host) (out : RoutingOutcome) : Option DriveEstimate :=
  match driveTry h out with
  | Except.ok r => r
  | Except.error _ => none

/-! ## The handler -/

/-- The object pushed onto `mapped`; `none` is `null`. -/
structure ClinicStatusRecord where
  name : String
  city : String
  isOpen : Bool
  minutes : Option JSNum
  waitText : String
  range : String
  driveMinutes : Option JSNum
  driveMiles : Option JSNum
  deriving DecidableEq

/-- A network call made by the handler. -/
inductive NetCall where
  | scheduling
  | routing (dest : Dest)
  deriving DecidableEq

/-- What the `fetch` of the scheduling provider does: it throws, or it resolves to a response
with `ok`, `status`, the value of `text()` and the value of `json()` (`none` when the
promise rejects). -/
inductive EpicOutcome where
  | threw
  | response (ok : Bool) (status : Nat) (text : Option String) (json : Option JSVal)

/-- The environment variables read by the handler; `none` is `undefined`. -/
structure Env where
  EPIC_CSRF_TOKEN : Option String
  EPIC_COOKIE : Option String
  MAPBOX_TOKEN : Option String

/-- The outside of the handler: the scheduling provider, the routing provider (its answer
may depend on the number of network calls made before and on the destination) and the
value of `new Date().toISOString()`. -/
structure World where
  epic : EpicOutcome
  routing : Nat → Dest → RoutingOutcome
  now : String

/-- Truthiness of an environment variable: set and not empty. -/
def isSet : Option String → Bool
  | some s => !s.data.isEmpty
  | none => false

/-- The expression `String(d.Name || d.DepartmentName || "").trim()`. -/
def extractName (h : Host) (d : JSVal) : Except JSError String := do
  let n1 ← d.get "Name"
  let chosen ← (if n1.truthy then pure n1
    else do
      let n2 ← d.get "DepartmentName"
      if n2.truthy then pure n2 else pure (JSVal.str ""))
  let s ← chosen.toStr h
  pure (jsTrim s)

/-- The expression `minutes != null ? minutes + " min" : "n/a"` (a template literal in the
source). -/
def waitTextOf (h : Host) : Option JSNum → String
  | some m => m.toJSString h.shortest ++ " min"
  | none => "n/a"

/-- The statements `let drive = null; if (coords) drive = await getDriveTimeMiles(coords)`,
`calls` being the network calls made so far. -/
def driveFor (h : Host) (w : World) (calls : List NetCall) :
    CoordsValue → Option DriveEstimate
  | CoordsValue.absent => none
  | c => getDriveTimeMiles h (w.routing calls.length c.dest)

/-- The network calls made once the drive of a record is known: `getDriveTimeMiles` makes
one routing request, and only a truthy `coords` reaches it. -/
def callsAfterDrive (calls : List NetCall) : CoordsValue → List NetCall
  | CoordsValue.absent => calls
  | c => calls ++ [NetCall.routing c.dest]

/-- The object literal passed to `mapped.push`. -/
def makeRecord (h : Host) (name : String) (coords : CoordsValue) (minutes : Option JSNum)
    (range : String) (isOpen : Bool) (drive : Option DriveEstimate) : ClinicStatusRecord :=
  { name := name, city := coords.cityOrEmpty, isOpen := isOpen, minutes := minutes,
    waitText := waitTextOf h minutes, range := range,
    driveMinutes := drive.map DriveEstimate.minutes,
    driveMiles := drive.map DriveEstimate.miles }

/-- One pass through the body of the mapping loop for the element `d`, `calls` being the
network calls made so far.  The result is `none` after `continue`, and otherwise the record
pushed onto `mapped` with the calls made so far.  Every statement that can throw comes before
the call of `getDriveTimeMiles`, which cannot. -/
def loopBody (h : Host) (w : World) (calls : List NetCall) (d : JSVal) :
    Except JSError (Option (ClinicStatusRecord × List NetCall)) := do
  let name ← extractName h d
  if name.data.isEmpty then pure none
  else do
    let coords := lookupCoords name
    let minutes ← getMinutesEstimate h d
    let range ← getRangeString h d minutes
    let isOpen ← getOpenStatus h d
    let drive := driveFor h w calls coords
    pure (some (makeRecord h name coords minutes range isOpen drive,
      callsAfterDrive calls coords))

/-- The mapping loop over the departments still to be visited, from the records pushed so
far and the calls made so far.  It returns the final `mapped`, or the error thrown, and
the calls made. -/
def mapLoop (h : Host) (w : World) :
    List JSVal → List ClinicStatusRecord → List NetCall →
      Except JSError (List ClinicStatusRecord) × List NetCall
  | [], mapped, calls => (Except.ok mapped, calls)
  | d :: ds, mapped, calls =>
    match loopBody h w calls d with
    | Except.error e => (Except.error e, calls)
    | Except.ok none => mapLoop h w ds mapped calls
    | Except.ok (some (r, calls2)) => mapLoop h w ds (mapped ++ [r]) calls2

/-- The expression `epicJson.OnMyWayDepartments || epicJson.Departments ||
epicJson.departmentList || []`. -/
def selectDepartments (epicJson : JSVal) : Except JSError JSVal := do
  let a ← epicJson.get "OnMyWayDepartments"
  if a.truthy then pure a
  else do
    let b ← epicJson.get "Departments"
    if b.truthy then pure b
    else do
      let c ← epicJson.get "departmentList"
      if c.truthy then pure c else pure (JSVal.arr [])

/-- The values `for (const d of departments)` visits: the elements of an array, the code
points of a string; any other value is not iterable. -/
def iterate : JSVal → Except JSError (List JSVal)
  | JSVal.arr xs => pure xs
  | JSVal.str s => pure (s.data.map (fun c => JSVal.str (String.singleton c)))
  | _ => throw JSError.typeError

/-- The comparator of `mapped.sort`, as "a is not after b". -/
def nameLe (h : Host) (a b : ClinicStatusRecord) : Bool :=
  decide (h.localeCompare a.name b.name ≤ 0)

/-- The statement `mapped.sort((a, b) => a.name.localeCompare(b.name))`: a stable sort. -/
def sortByName (h : Host) (mapped : List ClinicStatusRecord) : List ClinicStatusRecord :=
  mapped.mergeSort (nameLe h)

/-- The JSON body passed to `res.json`.  The `body` excerpt of the 502 answer is kept as
JavaScript holds it, a sequence of UTF-16 code units, since `slice` can cut a surrogate pair
in two. -/
inductive ResponseBody where
  | error (error : String)
  | epicError (error : String) (status : Nat) (body : List Nat)
  | serverError (error : String) (detail : JSError)
  | locations (updatedAt : String) (locations : List ClinicStatusRecord)
  deriving DecidableEq

/-- The response sent: status, headers set, body. -/
structure Response where
  status : Nat
  headers : List (String × String)
  body : ResponseBody
  deriving DecidableEq

/-- The response of the `catch` block. -/
def serverError (e : JSError) : Response :=
  { status := 500, headers := [], body := ResponseBody.serverError "Server error" e }

/-- The UTF-16 code units of a code point: the code point itself below `0x10000`, and a
surrogate pair from there on. -/
def utf16Units (c : Char) : List Nat :=
  if c.toNat < 0x10000 then [c.toNat]
  else [0xD800 + (c.toNat - 0x10000) / 0x400, 0xDC00 + (c.toNat - 0x10000) % 0x400]

/-- A string as JavaScript holds it: the sequence of its UTF-16 code units. -/
def toUtf16 (s : String) : List Nat := s.data.flatMap utf16Units

/-- The method `text.slice(0, 500)`: the first 500 UTF-16 code units of the text. -/
def slice500 (text : String) : List Nat := (toUtf16 text).take 500

/-- The function `handler(req, res)`: the response sent and the network calls made, in
order. -/
def handler (h : Host) (env : Env) (w : World) : Response × List NetCall :=
  if !isSet env.EPIC_CSRF_TOKEN || !isSet env.EPIC_COOKIE then
    ({ status := 500, headers := [],
       body := ResponseBody.error "EPIC_CSRF_TOKEN or EPIC_COOKIE not set" }, [])
  else if !isSet env.MAPBOX_TOKEN then
    ({ status := 500, headers := [], body := ResponseBody.error "MAPBOX_TOKEN not set" }, [])
  else
    match w.epic with
    | EpicOutcome.threw => (serverError JSError.fetchFailed, [NetCall.scheduling])
    | EpicOutcome.response ok status text json =>
      if !ok then
        ({ status := 502, headers := [],
           body := ResponseBody.epicError "Epic API error" status (slice500 (text.getD "")) },
         [NetCall.scheduling])
      else
        match json with
        | none => (serverError JSError.badJson, [NetCall.scheduling])
        | some epicJson =>
          match selectDepartments epicJson >>= iterate with
          | Except.error e => (serverError e, [NetCall.scheduling])
          | Except.ok departments =>
            match mapLoop h w departments [] [NetCall.scheduling] with
            | (Except.error e, calls) => (serverError e, calls)
            | (Except.ok mapped, calls) =>
              ({ status := 200, headers := [("Cache-Control", "no-store")],
                 body := ResponseBody.locations w.now (sortByName h mapped) }, calls)

/-! ## Definitions that follow the words of the specification, and example inputs -/

/-- The value of `d.key` for a department record `d` that is a JSON object. -/
def JSVal.field (d : JSVal) (key : String) : JSVal :=
  match d with
  | JSVal.obj fields => (fields.lookup key).getD JSVal.undefined
  | _ => JSVal.undefined

/-- The five candidate values of minutes extraction, in priority order. -/
def minuteFields (d : JSVal) : List JSVal :=
  [d.field "WaitTime", d.field "WaitTimeInMinutes", d.field "DisplayWait",
   d.field "EstimatedWaitMinutes", d.field "EstWait"]

/-- Specification, minutes extraction: "coerce to a number"; the coercion of `v` when it is
a finite number. -/
def finiteCoercion (h : Host) (v : JSVal) : Option JSNum :=
  match v.toNumber h with
  | Except.ok n => if n.isFinite then some n else none
  | Except.error _ => none

/-- Specification, minutes extraction: "the first value that is a finite number is the
result; if none qualify, minutes is null". -/
def specMinutes (h : Host) (d : JSVal) : Option JSNum :=
  ((minuteFields d).filterMap (finiteCoercion h)).head?

/-- A host for the examples: code points compared in order, and no digits for the numbers
that are not safe integers. -/
def exampleHost : Host :=
  { shortest := fun _ => "",
    localeCompare := fun a b => if a < b then -1 else if a = b then 0 else 1 }

/-- The record `{ WaitTime: "bad", WaitTimeInMinutes: 12 }` of the specification. -/
def recordBadThenTwelve : JSVal :=
  JSVal.obj [("WaitTime", JSVal.str "bad"), ("WaitTimeInMinutes", JSVal.num (JSNum.fin 12))]

/-- The record `{ Name: "A", WaitTime: { toString: 0 }, WaitTimeInMinutes: 12 }`: its
`WaitTime` is an object with an own property `toString`. -/
def recordUnprintableWait : JSVal :=
  JSVal.obj [("Name", JSVal.str "A"),
    ("WaitTime", JSVal.obj [("toString", JSVal.num (JSNum.fin 0))]),
    ("WaitTimeInMinutes", JSVal.num (JSNum.fin 12))]

/-- The four candidate values of range-string extraction, in priority order. -/
def rangeFields (d : JSVal) : List JSVal :=
  [d.field "WaitTimeString", d.field "EstimatedWaitTimeText", d.field "DisplayWaitRange",
   d.field "WaitTimeText"]

/-- Specification, range synthesis: "round-to-nearest-integer", a tie going up as
`Math.round` takes it. -/
def specRound (x : ℚ) : ℤ := ⌊x + 1 / 2⌋

/-- Specification, range synthesis: lower = max(0, 5·round(0.7·m / 5)), in exact
arithmetic. -/
def specLower (m : ℚ) : ℤ :=
  Max.max 0 (5 * specRound (0.7 * m / 5))

/-- Specification, range synthesis: upper = max(lower, 5·round(1.3·m / 5)), in exact
arithmetic. -/
def specUpper (m : ℚ) : ℤ :=
  Max.max (specLower m) (5 * specRound (1.3 * m / 5))

/-- Whether neither `0.7·m / 5` nor `1.3·m / 5` is within a thousandth of a rounding tie
(a value half-way between two integers). -/
def farFromTie (m : ℚ) : Bool :=
  decide (|0.7 * m / 5 - (specRound (0.7 * m / 5) : ℚ)| ≤ 499 / 1000 ∧
    |1.3 * m / 5 - (specRound (1.3 * m / 5) : ℚ)| ≤ 499 / 1000)

/-- Specification, drive estimate: minutes = round(s / 60), in the arithmetic of JavaScript
numbers. -/
def specDriveMinutes (s : JSNum) : JSNum :=
  JSNum.round (JSNum.div s (JSNum.fin 60))

/-- Specification, drive estimate: miles = round(d × 0.000621371 × 10) / 10, in the
arithmetic of JavaScript numbers. -/
def specDriveMiles (d : JSNum) : JSNum :=
  JSNum.div
    (JSNum.round (JSNum.mul (JSNum.mul d (JSNum.binary64 0.000621371)) (JSNum.fin 10)))
    (JSNum.fin 10)

/-- The record `{ Name: "A", WaitTimeString: { toString: 0 } }`: its `WaitTimeString` is a
truthy value that `String` cannot convert. -/
def recordUnprintableRange : JSVal :=
  JSVal.obj [("Name", JSVal.str "A"),
    ("WaitTimeString", JSVal.obj [("toString", JSVal.num (JSNum.fin 0))])]

/-- The non-empty name of a department element: the value of
`String(d.Name || d.DepartmentName || "").trim()` when it is not empty. -/
def nonEmptyName (h : Host) (d : JSVal) : Option String :=
  match extractName h d with
  | Except.ok name => if name.data.isEmpty then none else some name
  | Except.error _ => none

/-- A name field that is "missing, empty or whitespace-only" (or another falsy value). -/
def blankNameField (v : JSVal) : Prop :=
  v.truthy = false ∨ ∃ s, v = JSVal.str s ∧ (jsTrim s).data.isEmpty = true

/-- The routing requests made for a record with the given name. -/
def routingCallsFor (name : String) : List NetCall :=
  callsAfterDrive [] (lookupCoords name)

/-- Specification, waitText invariant: the rendering of `minutes` followed by `" min"`, or
`"n/a"` when `minutes` is `null`. -/
def specWaitText (h : Host) (minutes : Option JSNum) : String :=
  match minutes with
  | some m => m.toJSString h.shortest ++ " min"
  | none => "n/a"

/-- An environment with the three credentials set. -/
def exampleEnv : Env :=
  { EPIC_CSRF_TOKEN := some "token", EPIC_COOKIE := some "cookie", MAPBOX_TOKEN := some "pk" }

/-- The record `{ Name: "EvergreenHealth Urgent Care, Redmond", WaitTime: 10 }`. -/
def recordRedmond : JSVal :=
  JSVal.obj [("Name", JSVal.str "EvergreenHealth Urgent Care, Redmond"),
    ("WaitTime", JSVal.num (JSNum.fin 10))]

/-- A routing body with one route of 900 seconds and 4000 metres. -/
def routeBody : JSVal :=
  JSVal.obj [("routes", JSVal.arr
    [JSVal.obj [("duration", JSVal.num (JSNum.fin 900)),
      ("distance", JSVal.num (JSNum.fin 4000))]])]

/-- A world whose scheduling provider answers with the given department list under
`OnMyWayDepartments` and whose routing provider always answers with `routeBody`. -/
def worldWith (departments : List JSVal) : World :=
  { epic := EpicOutcome.response true 200 none
      (some (JSVal.obj [("OnMyWayDepartments", JSVal.arr departments)])),
    routing := fun _ _ => RoutingOutcome.response true (some routeBody),
    now := "2024-01-01T00:00:00.000Z" }

/-- The department list the handler iterates over, when the scheduling provider answers
with a success status and a JSON body in which a list is found. -/
def departmentsOf (w : World) : Option (List JSVal) :=
  match w.epic with
  | EpicOutcome.response true _ _ (some epicJson) =>
    match selectDepartments epicJson >>= iterate with
    | Except.ok departments => some departments
    | Except.error _ => none
  | _ => none

/-- An environment variable that is "missing or empty". -/
def missingOrEmpty (v : Option String) : Prop := v = none ∨ v = some ""

/-- A world whose scheduling provider answers with the given department list and whose
routing provider answers every request with a failure status. -/
def worldRoutingDown (departments : List JSVal) : World :=
  { epic := EpicOutcome.response true 200 none
      (some (JSVal.obj [("OnMyWayDepartments", JSVal.arr departments)])),
    routing := fun _ _ => RoutingOutcome.response false none,
    now := "2024-01-01T00:00:00.000Z" }

/-- The record emitted for `recordRedmond` when the route is `routeBody`. -/
def redmondStatus : ClinicStatusRecord :=
  { name := "EvergreenHealth Urgent Care, Redmond", city := "Redmond, WA", isOpen := true,
    minutes := some (JSNum.fin 10), waitText := "10 min", range := "5–15 min",
    driveMinutes := some (JSNum.fin 15), driveMiles := some (JSNum.fin 2.5) }

/-! ## Inputs on which the coercions return -/

mutual
/-- Whether `String(v)` throws: `v` is an object with an own property `toString`, or an array
with such an element, at any depth of arrays. -/
def JSVal.unprintable : JSVal → Bool
  | JSVal.arr xs => anyUnprintable xs
  | JSVal.obj fields => JSVal.hasOwn fields "toString"
  | _ => false
/-- Whether some element of the list is unprintable. -/
def anyUnprintable : List JSVal → Bool
  | [] => false
  | x :: xs => x.unprintable || anyUnprintable xs
end

/-- The string `Array.prototype.join` uses for one element. -/
def elemStr (h : Host) (x : JSVal) : Except JSError String :=
  match x with
  | JSVal.undefined => pure ""
  | JSVal.null => pure ""
  | y => JSVal.toStr h y

/-- The fields of a department element that the loop body converts. -/
def recordFields (d : JSVal) : List JSVal :=
  [d.field "Name", d.field "DepartmentName"] ++ minuteFields d ++ rangeFields d

/-- A department element that the loop body can process: it is not `null` (nor `undefined`)
and none of its name, wait-time and range fields is a value on which `String` and `Number`
throw. -/
def JSVal.convertible (d : JSVal) : Bool :=
  match d with
  | JSVal.undefined => false
  | JSVal.null => false
  | _ => (recordFields d).all (fun v => !v.unprintable)

/-- A world whose scheduling provider answers with the given failure status and body text. -/
def worldEpicDown (status : Nat) (text : String) : World :=
  { epic := EpicOutcome.response false status (some text) none,
    routing := fun _ _ => RoutingOutcome.response true (some routeBody),
    now := "2024-01-01T00:00:00.000Z" }

/-- Whether a routing body holds a first route: `data.routes` is truthy and `data.routes[0]`
is truthy. -/
def hasRoute (data : JSVal) : Bool :=
  (data.field "routes").truthy &&
    (match (data.field "routes").index0 with
      | Except.ok route => route.truthy
      | Except.error _ => false)

/-- Specification, drive estimate: the routing call "throws, the status is non-success, or the
response lacks a usable route" (its body cannot be read as JSON or holds no first route). -/
def routingFailed : RoutingOutcome → Bool
  | RoutingOutcome.threw => true
  | RoutingOutcome.response ok json =>
    !ok ||
      (match json with
        | none => true
        | some data => !hasRoute data)

/-- A record with its two drive fields set to `null`, the other fields kept. -/
def dropDrive (r : ClinicStatusRecord) : ClinicStatusRecord :=
  { r with driveMinutes := none, driveMiles := none }

/-- The record emitted for `recordRedmond` when the routing call fails. -/
def redmondStatusNoDrive : ClinicStatusRecord :=
  { name := "EvergreenHealth Urgent Care, Redmond", city := "Redmond, WA", isOpen := true,
    minutes := some (JSNum.fin 10), waitText := "10 min", range := "5–15 min",
    driveMinutes := none, driveMiles := none }

/-- Specification, department selection: "the first key present is used; if none is present,
an empty sequence": the value under the first of the three keys that the body has. -/
def specDepartments (epicJson : JSVal) : JSVal :=
  match epicJson with
  | JSVal.obj fields =>
    match fields.lookup "OnMyWayDepartments" with
    | some v => v
    | none =>
      match fields.lookup "Departments" with
      | some v => v
      | none => (fields.lookup "departmentList").getD (JSVal.arr [])
  | _ => JSVal.arr []

/-- The values under the three keys searched for the department list, in priority order. -/
def departmentFields (epicJson : JSVal) : List JSVal :=
  [epicJson.field "OnMyWayDepartments", epicJson.field "Departments",
   epicJson.field "departmentList"]

/-- The first of the three values that is truthy, and the empty array when none is. -/
def firstTruthyDepartments (epicJson : JSVal) : JSVal :=
  ((departmentFields epicJson).filter JSVal.truthy).head?.getD (JSVal.arr [])

/-- The body `{ OnMyWayDepartments: null, Departments: [recordRedmond] }`: its first key is
present with the value `null`. -/
def bodyNullThenList : JSVal :=
  JSVal.obj [("OnMyWayDepartments", JSVal.null), ("Departments", JSVal.arr [recordRedmond])]

/-- A world whose scheduling provider answers with a success status and the given JSON body
and whose routing provider always answers with `routeBody`. -/
def worldWithBody (epicJson : JSVal) : World :=
  { epic := EpicOutcome.response true 200 none (some epicJson),
    routing := fun _ _ => RoutingOutcome.response true (some routeBody),
    now := "2024-01-01T00:00:00.000Z" }

/-- A department list with elements that are not records: a string, a number, an array, the
Redmond record and a record without a name. -/
def mixedDepartments : List JSVal :=
  [JSVal.str "x", JSVal.num (JSNum.fin 5), JSVal.arr [], recordRedmond,
   JSVal.obj [("WaitTime", JSVal.str "soon")]]

/-- The record `{ Name: "A", WaitTime: null }`: a named record without an open flag whose
only wait-time field is `null`. -/
def recordNullWait : JSVal :=
  JSVal.obj [("Name", JSVal.str "A"), ("WaitTime", JSVal.null)]

/-- The record `{ Name: "A", WaitTime: "" }`: the only wait-time field is the empty string. -/
def recordEmptyWait : JSVal :=
  JSVal.obj [("Name", JSVal.str "A"), ("WaitTime", JSVal.str "")]

/-- The record emitted for `recordNullWait` and for `recordEmptyWait`. -/
def zeroWaitStatus : ClinicStatusRecord :=
  { name := "A", city := "", isOpen := true, minutes := some (JSNum.fin 0),
    waitText := "0 min", range := "0–0 min", driveMinutes := none, driveMiles := none }

/-- A wait-time value from which the code extracts no estimate: `Number` converts it to `NaN`
or to an infinity (an absent field, a string that is not a numeric literal, ...). -/
def noEstimate (h : Host) (v : JSVal) : Prop :=
  ∃ n, v.toNumber h = Except.ok n ∧ n.isFinite = false

/-- The record `{ Name: "A", WaitTime: "soon", EstWait: "n/a" }`: its wait-time fields are
absent or hold text that is not a number. -/
def recordTextWait : JSVal :=
  JSVal.obj [("Name", JSVal.str "A"), ("WaitTime", JSVal.str "soon"),
    ("EstWait", JSVal.str "n/a")]

/-- The record emitted for `recordTextWait`. -/
def noWaitStatus : ClinicStatusRecord :=
  { name := "A", city := "", isOpen := false, minutes := none, waitText := "n/a",
    range := "n/a", driveMinutes := none, driveMiles := none }

/-- A value `getMinutesEstimate` may return: `null` or a finite number. -/
def nullOrFinite : Option JSNum → Bool
  | none => true
  | some m => m.isFinite

/-- The operator `a <= b` on numbers. -/
def JSNum.le : JSNum → JSNum → Bool
  | JSNum.nan, _ => false
  | _, JSNum.nan => false
  | JSNum.negInf, _ => true
  | _, JSNum.posInf => true
  | JSNum.fin x, JSNum.fin y => decide (x ≤ y)
  | _, _ => false

/-- The magnitude that `binary64` rounds a positive rational to, before the overflow test. -/
def JSNum.nearest (a : ℚ) : ℚ :=
  (JSNum.roundHalfEven (a / JSNum.pow2 (Max.max (JSNum.floorLog2 a) (-1022) - 52)) : ℚ) *
    JSNum.pow2 (Max.max (JSNum.floorLog2 a) (-1022) - 52)

/-- The expression `Math.round((minutes * c) / 5) * 5` of `getRangeString`, for the
constant `c`. -/
def roundToFive (c : JSNum) (minutes : JSNum) : JSNum :=
  JSNum.mul (JSNum.round (JSNum.div (JSNum.mul minutes c) (JSNum.fin 5))) (JSNum.fin 5)

/-- The binary64 value of the literal `0.7`. -/
def literal07 : ℚ := 3152519739159347 / 4503599627370496

/-- The binary64 value of the literal `1.3`. -/
def literal13 : ℚ := 5854679515581645 / 4503599627370496

/-- Whether a number is an integer multiple of 5. -/
def JSNum.isMultipleOf5 : JSNum → Bool
  | JSNum.fin q => decide (q.den = 1 ∧ q.num % 5 = 0)
  | _ => false

/-! ## Lemmas on the coercions: when `String` and `Number` throw -/

theorem elemStrs_cons (h : Host) (x : JSVal) (xs : List JSVal) :
    JSVal.elemStrs h (x :: xs) =
      match elemStr h x with
      | Except.error e => Except.error e
      | Except.ok a =>
        match JSVal.elemStrs h xs with
        | Except.error e => Except.error e
        | Except.ok rest => Except.ok (a :: rest) := by
  cases x with
  | undefined =>
    simp only [JSVal.elemStrs, elemStr, bind, Except.bind, pure, Except.pure]
    cases JSVal.elemStrs h xs <;> rfl
  | null =>
    simp only [JSVal.elemStrs, elemStr, bind, Except.bind, pure, Except.pure]
    cases JSVal.elemStrs h xs <;> rfl
  | bool b =>
    simp only [JSVal.elemStrs, elemStr, bind, Except.bind, pure, Except.pure]
    generalize JSVal.toStr h (JSVal.bool b) = t
    cases t with
    | error e => rfl
    | ok a => cases JSVal.elemStrs h xs <;> rfl
  | num n =>
    simp only [JSVal.elemStrs, elemStr, bind, Except.bind, pure, Except.pure]
    generalize JSVal.toStr h (JSVal.num n) = t
    cases t with
    | error e => rfl
    | ok a => cases JSVal.elemStrs h xs <;> rfl
  | str s =>
    simp only [JSVal.elemStrs, elemStr, bind, Except.bind, pure, Except.pure]
    generalize JSVal.toStr h (JSVal.str s) = t
    cases t with
    | error e => rfl
    | ok a => cases JSVal.elemStrs h xs <;> rfl
  | arr ys =>
    simp only [JSVal.elemStrs, elemStr, bind, Except.bind, pure, Except.pure]
    generalize JSVal.toStr h (JSVal.arr ys) = t
    cases t with
    | error e => rfl
    | ok a => cases JSVal.elemStrs h xs <;> rfl
  | obj fields =>
    simp only [JSVal.elemStrs, elemStr, bind, Except.bind, pure, Except.pure]
    generalize JSVal.toStr h (JSVal.obj fields) = t
    cases t with
    | error e => rfl
    | ok a => cases JSVal.elemStrs h xs <;> rfl

theorem toStr_arr (h : Host) (xs : List JSVal) :
    JSVal.toStr h (JSVal.arr xs) =
      match JSVal.elemStrs h xs with
      | Except.error e => Except.error e
      | Except.ok parts => Except.ok (",".intercalate parts) := by
  rw [JSVal.toStr]
  cases JSVal.elemStrs h xs <;> rfl

theorem elemStr_of_toStr (h : Host) (x : JSVal)
    (ihx : (x.unprintable = false → ∃ s, x.toStr h = Except.ok s) ∧
      (x.unprintable = true → x.toStr h = Except.error JSError.typeError)) :
    (x.unprintable = false → ∃ a, elemStr h x = Except.ok a) ∧
    (x.unprintable = true → elemStr h x = Except.error JSError.typeError) := by
  cases x with
  | undefined => exact ⟨fun _ => ⟨"", rfl⟩, fun hu => by cases hu⟩
  | null => exact ⟨fun _ => ⟨"", rfl⟩, fun hu => by cases hu⟩
  | bool b => exact ihx
  | num n => exact ihx
  | str s => exact ihx
  | arr ys => exact ihx
  | obj fields => exact ihx

mutual
theorem toStr_total (h : Host) : ∀ v : JSVal,
    (v.unprintable = false → ∃ s, v.toStr h = Except.ok s) ∧
    (v.unprintable = true → v.toStr h = Except.error JSError.typeError)
  | JSVal.undefined => ⟨fun _ => ⟨_, rfl⟩, fun hu => by cases hu⟩
  | JSVal.null => ⟨fun _ => ⟨_, rfl⟩, fun hu => by cases hu⟩
  | JSVal.bool b => ⟨fun _ => ⟨_, rfl⟩, fun hu => by cases hu⟩
  | JSVal.num n => ⟨fun _ => ⟨_, rfl⟩, fun hu => by cases hu⟩
  | JSVal.str s => ⟨fun _ => ⟨_, rfl⟩, fun hu => by cases hu⟩
  | JSVal.arr xs => by
    have ih := elemStrs_total h xs
    constructor
    · intro hu
      rw [JSVal.unprintable] at hu
      obtain ⟨parts, hp⟩ := ih.1 hu
      exact ⟨",".intercalate parts, by rw [toStr_arr, hp]⟩
    · intro hu
      rw [JSVal.unprintable] at hu
      rw [toStr_arr, ih.2 hu]
  | JSVal.obj fields => by
    constructor
    · intro hu
      rw [JSVal.unprintable] at hu
      exact ⟨"[object Object]", by rw [JSVal.toStr, hu]; rfl⟩
    · intro hu
      rw [JSVal.unprintable] at hu
      rw [JSVal.toStr, hu]
      rfl
theorem elemStrs_total (h : Host) : ∀ xs : List JSVal,
    (anyUnprintable xs = false → ∃ parts, JSVal.elemStrs h xs = Except.ok parts) ∧
    (anyUnprintable xs = true → JSVal.elemStrs h xs = Except.error JSError.typeError)
  | [] => ⟨fun _ => ⟨[], rfl⟩, fun hu => by cases hu⟩
  | x :: xs => by
    have hhead := elemStr_of_toStr h x (toStr_total h x)
    have ihxs := elemStrs_total h xs
    constructor
    · intro hu
      rw [anyUnprintable, Bool.or_eq_false_iff] at hu
      obtain ⟨a, ha⟩ := hhead.1 hu.1
      obtain ⟨parts, hp⟩ := ihxs.1 hu.2
      exact ⟨a :: parts, by rw [elemStrs_cons, ha, hp]⟩
    · intro hu
      rw [anyUnprintable, Bool.or_eq_true] at hu
      cases hx : x.unprintable with
      | true => rw [elemStrs_cons, hhead.2 hx]
      | false =>
        obtain ⟨a, ha⟩ := hhead.1 hx
        rw [hx] at hu
        have hxs : anyUnprintable xs = true := by simpa using hu
        rw [elemStrs_cons, ha, ihxs.2 hxs]
end

theorem toNumber_total (h : Host) (v : JSVal) :
    (v.unprintable = false → ∃ n, v.toNumber h = Except.ok n) ∧
    (v.unprintable = true → v.toNumber h = Except.error JSError.typeError) := by
  have hs := toStr_total h v
  cases v with
  | undefined => exact ⟨fun _ => ⟨_, rfl⟩, fun hu => by cases hu⟩
  | null => exact ⟨fun _ => ⟨_, rfl⟩, fun hu => by cases hu⟩
  | bool b => exact ⟨fun _ => ⟨_, rfl⟩, fun hu => by cases hu⟩
  | num n => exact ⟨fun _ => ⟨_, rfl⟩, fun hu => by cases hu⟩
  | str s => exact ⟨fun _ => ⟨_, rfl⟩, fun hu => by cases hu⟩
  | arr xs =>
    constructor
    · intro hu
      obtain ⟨s, hs1⟩ := hs.1 hu
      exact ⟨stringToNumber s, by
        simp only [JSVal.toNumber, hs1, bind, Except.bind, pure, Except.pure]⟩
    · intro hu
      simp only [JSVal.toNumber, hs.2 hu, bind, Except.bind]
  | obj fields =>
    constructor
    · intro hu
      obtain ⟨s, hs1⟩ := hs.1 hu
      exact ⟨stringToNumber s, by
        simp only [JSVal.toNumber, hs1, bind, Except.bind, pure, Except.pure]⟩
    · intro hu
      simp only [JSVal.toNumber, hs.2 hu, bind, Except.bind]

/-! ## Lemmas on reads and on the scan of `getMinutesEstimate` -/

theorem get_obj (fields : List (String × JSVal)) (key : String) :
    (JSVal.obj fields).get key = Except.ok ((JSVal.obj fields).field key) := rfl

theorem minuteCandidates_obj (fields : List (String × JSVal)) :
    minuteCandidates (JSVal.obj fields) = Except.ok (minuteFields (JSVal.obj fields)) := rfl

theorem getMinutesEstimate_obj (h : Host) (fields : List (String × JSVal)) :
    getMinutesEstimate h (JSVal.obj fields) = firstFinite h (minuteFields (JSVal.obj fields)) :=
  rfl

theorem firstFinite_cons_ok (h : Host) (c : JSVal) (cs : List JSVal) (n : JSNum)
    (hc : c.toNumber h = Except.ok n) :
    firstFinite h (c :: cs) = if n.isFinite then Except.ok (some n) else firstFinite h cs := by
  simp only [firstFinite, hc, bind, Except.bind, pure, Except.pure]

theorem firstFinite_cons_error (h : Host) (c : JSVal) (cs : List JSVal) (e : JSError)
    (hc : c.toNumber h = Except.error e) :
    firstFinite h (c :: cs) = Except.error e := by
  simp only [firstFinite, hc, bind, Except.bind]

theorem firstFinite_skip (h : Host) (pre rest : List JSVal)
    (hpre : ∀ p ∈ pre, ∃ x, p.toNumber h = Except.ok x ∧ x.isFinite = false) :
    firstFinite h (pre ++ rest) = firstFinite h rest := by
  induction pre with
  | nil => rfl
  | cons p ps ih =>
    obtain ⟨x, hx, hfin⟩ := hpre p (List.mem_cons_self p ps)
    have hps : ∀ q ∈ ps, ∃ x, q.toNumber h = Except.ok x ∧ x.isFinite = false :=
      fun q hq => hpre q (List.mem_cons_of_mem p hq)
    rw [List.cons_append, firstFinite_cons_ok h p (ps ++ rest) x hx, hfin]
    simpa using ih hps

theorem firstFinite_nil (h : Host) : firstFinite h [] = Except.ok none := rfl

theorem firstFinite_ok_eq (h : Host) (cs : List JSVal) (r : Option JSNum)
    (hr : firstFinite h cs = Except.ok r) :
    r = (cs.filterMap (finiteCoercion h)).head? := by
  induction cs with
  | nil =>
    rw [firstFinite_nil] at hr
    cases hr
    rfl
  | cons c cs ih =>
    cases hc : c.toNumber h with
    | error e =>
      rw [firstFinite_cons_error h c cs e hc] at hr
      cases hr
    | ok n =>
      rw [firstFinite_cons_ok h c cs n hc] at hr
      cases hfin : n.isFinite with
      | true =>
        rw [hfin] at hr
        simp only [if_true] at hr
        cases hr
        simp [List.filterMap_cons, finiteCoercion, hc, hfin]
      | false =>
        rw [hfin] at hr
        simp only [Bool.false_eq_true, if_false] at hr
        simp [List.filterMap_cons, finiteCoercion, hc, hfin, ih hr]

theorem firstFinite_returns (h : Host) (cs : List JSVal)
    (hcs : ∀ c ∈ cs, ∃ x, c.toNumber h = Except.ok x) :
    ∃ r, firstFinite h cs = Except.ok r := by
  induction cs with
  | nil => exact ⟨none, rfl⟩
  | cons c cs ih =>
    obtain ⟨x, hx⟩ := hcs c (List.mem_cons_self c cs)
    rw [firstFinite_cons_ok h c cs x hx]
    cases hfin : x.isFinite with
    | true => exact ⟨some x, by simp⟩
    | false =>
      simpa using ih (fun q hq => hcs q (List.mem_cons_of_mem c hq))

/-! ## Claim C1 -/

/-- C1, as stated, fails on the record `{ Name: "A", WaitTime: { toString: 0 },
WaitTimeInMinutes: 12 }`: the first candidate whose coercion is a finite number is
`WaitTimeInMinutes`, with coercion 12, but `Number(d.WaitTime)` throws a `TypeError` and
`getMinutesEstimate` returns nothing. -/
theorem C1_counterexample :
    specMinutes exampleHost recordUnprintableWait = some (JSNum.fin 12) ∧
    getMinutesEstimate exampleHost recordUnprintableWait = Except.error JSError.typeError := by
  decide!

/-- C1 (amended): for every raw department record `d` (a JSON object), `getMinutesEstimate`
returns whenever the coercion of each of `d.WaitTime`, `d.WaitTimeInMinutes`,
`d.DisplayWait`, `d.EstimatedWaitMinutes`, `d.EstWait` returns rather than throws, which it
does when none of the five is an object with an own property `toString` or an array holding
such an object; and whenever it returns, the result is the numeric coercion of the first of
the five, in that order, whose coercion is a finite number, and `null` when none of the five
coerces to a finite number.  In particular `{ WaitTime: "bad", WaitTimeInMinutes: 12 }`
yields 12. -/
theorem C1_getMinutesEstimate_first_finite (h : Host) (fields : List (String × JSVal)) :
    ((∀ c ∈ minuteFields (JSVal.obj fields), ∃ x, c.toNumber h = Except.ok x) →
      getMinutesEstimate h (JSVal.obj fields) =
        Except.ok (specMinutes h (JSVal.obj fields))) ∧
    ((∀ c ∈ minuteFields (JSVal.obj fields), c.unprintable = false) →
      getMinutesEstimate h (JSVal.obj fields) =
        Except.ok (specMinutes h (JSVal.obj fields))) ∧
    (∀ r, getMinutesEstimate h (JSVal.obj fields) = Except.ok r →
      r = specMinutes h (JSVal.obj fields)) ∧
    getMinutesEstimate h recordBadThenTwelve = Except.ok (some (JSNum.fin 12)) := by
  have hreturns : (∀ c ∈ minuteFields (JSVal.obj fields), ∃ x, c.toNumber h = Except.ok x) →
      getMinutesEstimate h (JSVal.obj fields) =
        Except.ok (specMinutes h (JSVal.obj fields)) := by
    intro hall
    obtain ⟨r, hr⟩ := firstFinite_returns h _ hall
    rw [getMinutesEstimate_obj, hr]
    exact congrArg Except.ok (firstFinite_ok_eq h _ r hr)
  refine ⟨hreturns, fun hall => hreturns (fun c hc => (toNumber_total h c).1 (hall c hc)),
    fun r hr => ?_, ?_⟩
  · rw [getMinutesEstimate_obj] at hr
    exact firstFinite_ok_eq h _ r hr
  · with_unfolding_all rfl

/-- C1, at the record of the specification: no coercion throws, and the result is the
coercion 12 of the second candidate. -/
theorem C1_getMinutesEstimate_first_finite_witness :
    getMinutesEstimate exampleHost recordBadThenTwelve =
        Except.ok (specMinutes exampleHost recordBadThenTwelve) ∧
    specMinutes exampleHost recordBadThenTwelve = some (JSNum.fin 12) :=
  ⟨(C1_getMinutesEstimate_first_finite exampleHost
      [("WaitTime", JSVal.str "bad"), ("WaitTimeInMinutes", JSVal.num (JSNum.fin 12))]).1
      (by
        intro c hc
        simp only [minuteFields, JSVal.field, List.lookup, List.mem_cons, List.mem_nil_iff,
          or_false] at hc
        rcases hc with rfl | rfl | rfl | rfl | rfl <;> exact ⟨_, rfl⟩),
    by decide!⟩

/-! ## Claim C2 -/

theorem getOpenStatus_obj (h : Host) (fields : List (String × JSVal)) :
    getOpenStatus h (JSVal.obj fields) =
      match (JSVal.obj fields).field "IsOpen" with
      | JSVal.bool b => Except.ok b
      | _ =>
        match (JSVal.obj fields).field "IsOpenNow" with
        | JSVal.bool b => Except.ok b
        | _ => (getMinutesEstimate h (JSVal.obj fields)).map Option.isSome := by
  simp only [getOpenStatus, get_obj, bind, Except.bind, pure, Except.pure, Except.map]

theorem getOpenStatus_fallback (h : Host) (fields : List (String × JSVal))
    (h1 : ∀ b, (JSVal.obj fields).field "IsOpen" ≠ JSVal.bool b)
    (h2 : ∀ b, (JSVal.obj fields).field "IsOpenNow" ≠ JSVal.bool b) :
    getOpenStatus h (JSVal.obj fields) =
      (getMinutesEstimate h (JSVal.obj fields)).map Option.isSome := by
  rw [getOpenStatus_obj]
  split
  · next b hb => exact absurd hb (h1 b)
  · split
    · next b hb => exact absurd hb (h2 b)
    · rfl

/-- C2: for every raw department record `d` (a JSON object), `getOpenStatus` returns
`d.IsOpen` when that is a boolean; otherwise `d.IsOpenNow` when that is a boolean; and
otherwise it returns `true` if and only if `getMinutesEstimate(d)` yields a number rather than
`null`: when minutes extraction returns `m`, it returns `m !== null`.  With no boolean open
field, minutes `null` gives `false` and minutes 15 gives `true`. -/
theorem C2_getOpenStatus (h : Host) (fields : List (String × JSVal)) :
    (∀ b, (JSVal.obj fields).field "IsOpen" = JSVal.bool b →
      getOpenStatus h (JSVal.obj fields) = Except.ok b) ∧
    (∀ b, (∀ b1, (JSVal.obj fields).field "IsOpen" ≠ JSVal.bool b1) →
      (JSVal.obj fields).field "IsOpenNow" = JSVal.bool b →
      getOpenStatus h (JSVal.obj fields) = Except.ok b) ∧
    ((∀ b, (JSVal.obj fields).field "IsOpen" ≠ JSVal.bool b) →
      (∀ b, (JSVal.obj fields).field "IsOpenNow" ≠ JSVal.bool b) →
      (getOpenStatus h (JSVal.obj fields) = Except.ok true ↔
        ∃ n, getMinutesEstimate h (JSVal.obj fields) = Except.ok (some n)) ∧
      (∀ m, getMinutesEstimate h (JSVal.obj fields) = Except.ok m →
        getOpenStatus h (JSVal.obj fields) = Except.ok m.isSome) ∧
      (getMinutesEstimate h (JSVal.obj fields) = Except.ok none →
        getOpenStatus h (JSVal.obj fields) = Except.ok false) ∧
      (getMinutesEstimate h (JSVal.obj fields) = Except.ok (some (JSNum.fin 15)) →
        getOpenStatus h (JSVal.obj fields) = Except.ok true)) := by
  refine ⟨fun b hb => ?_, fun b h1 hb => ?_, fun h1 h2 => ?_⟩
  · rw [getOpenStatus_obj, hb]
  · rw [getOpenStatus_obj]
    split
    · next b1 hb1 => exact absurd hb1 (h1 b1)
    · rw [hb]
  · have hfb := getOpenStatus_fallback h fields h1 h2
    refine ⟨?_, fun m hm => ?_, fun hm => ?_, fun hm => ?_⟩
    · rw [hfb]
      constructor
      · intro hok
        cases hm : getMinutesEstimate h (JSVal.obj fields) with
        | error e => rw [hm] at hok; cases hok
        | ok m =>
          rw [hm] at hok
          cases m with
          | none => cases hok
          | some n => exact ⟨n, rfl⟩
      · rintro ⟨n, hn⟩
        rw [hn]
        rfl
    · rw [hfb, hm]; rfl
    · rw [hfb, hm]; rfl
    · rw [hfb, hm]; rfl

/-- C2, on `{ WaitTime: 15 }`: no boolean open field, minutes extraction yields 15, and the
status is open. -/
theorem C2_getOpenStatus_witness :
    getMinutesEstimate exampleHost (JSVal.obj [("WaitTime", JSVal.num (JSNum.fin 15))]) =
        Except.ok (some (JSNum.fin 15)) ∧
    getOpenStatus exampleHost (JSVal.obj [("WaitTime", JSVal.num (JSNum.fin 15))]) =
        Except.ok true :=
  ⟨by decide!,
   ((C2_getOpenStatus exampleHost [("WaitTime", JSVal.num (JSNum.fin 15))]).2.2
      (by intro b; simp [JSVal.field, List.lookup])
      (by intro b; simp [JSVal.field, List.lookup])).2.2.2 (by decide!)⟩

/-! ## Claims C3 and C4: `getRangeString` -/

theorem getRangeString_obj (h : Host) (fields : List (String × JSVal))
    (minutes : Option JSNum) :
    getRangeString h (JSVal.obj fields) minutes =
      match (rangeFields (JSVal.obj fields)).filter JSVal.truthy with
      | c :: _ => c.toStr h
      | [] =>
        match minutes with
        | none => Except.ok "n/a"
        | some m =>
          if !m.isFinite then Except.ok "n/a"
          else Except.ok ((rangeMin m).toJSString h.shortest ++ "–" ++
            (rangeMax m).toJSString h.shortest ++ " min") := by
  rfl

theorem filter_truthy_nil (cs : List JSVal) (hcs : ∀ c ∈ cs, c.truthy = false) :
    cs.filter JSVal.truthy = [] := by
  rw [List.filter_eq_nil_iff]
  intro c hc
  rw [hcs c hc]
  exact Bool.false_ne_true

theorem filter_truthy_first (pre post : List JSVal) (c : JSVal)
    (hpre : ∀ p ∈ pre, p.truthy = false) (hc : c.truthy = true) :
    (pre ++ c :: post).filter JSVal.truthy = c :: post.filter JSVal.truthy := by
  rw [List.filter_append, filter_truthy_nil pre hpre, List.nil_append, List.filter_cons, hc]
  rfl

theorem getRangeString_synth (h : Host) (fields : List (String × JSVal)) (m : ℚ)
    (hnone : ∀ c ∈ rangeFields (JSVal.obj fields), c.truthy = false) :
    getRangeString h (JSVal.obj fields) (some (JSNum.fin m)) =
      Except.ok ((rangeMin (JSNum.fin m)).toJSString h.shortest ++ "–" ++
        (rangeMax (JSNum.fin m)).toJSString h.shortest ++ " min") := by
  rw [getRangeString_obj, filter_truthy_nil _ hnone]
  simp only [JSNum.isFinite, Bool.not_true, Bool.false_eq_true, if_false]

/-- The arithmetic is binary64: for 175 minutes the product `175 * 0.7` is
`122.49999999999999`, not `122.5`, and the lower bound is 120. -/
theorem range_at_175 :
    JSNum.mul (JSNum.fin 175) (JSNum.binary64 0.7) =
      JSNum.fin (8620171161763839 / 70368744177664) ∧
    getRangeString exampleHost (JSVal.obj []) (some (JSNum.fin 175)) =
      Except.ok "120–230 min" := by
  decide!

/-- C4, as stated, fails on the record `{ Name: "A", WaitTimeString: { toString: 0 } }`:
the first candidate is truthy, so the claim has `getRangeString` return it as a string, but
`String(candidates[0])` throws a `TypeError` and nothing is returned. -/
theorem C4_counterexample :
    (rangeFields recordUnprintableRange).map JSVal.truthy = [true, false, false, false] ∧
    getRangeString exampleHost recordUnprintableRange none =
      Except.error JSError.typeError := by
  decide!

/-- C4 (amended): for every record `d` (a JSON object) and every minutes value, if at least
one of `d.WaitTimeString`, `d.EstimatedWaitTimeText`, `d.DisplayWaitRange`, `d.WaitTimeText`
is truthy, `getRangeString` does what `String(v)` does for the first truthy one `v` in that
order, regardless of minutes: it returns `v` itself when `v` is a string, it returns the
string `String(v)` when `v` is neither an object with an own property `toString` nor an array
holding such an object, and it throws a `TypeError` otherwise.  If none is truthy and minutes
is not a finite number, it returns exactly `"n/a"`. -/
theorem C4_getRangeString_preformatted (h : Host) (fields : List (String × JSVal))
    (minutes : Option JSNum) :
    (∀ (pre post : List JSVal) (c : JSVal),
      rangeFields (JSVal.obj fields) = pre ++ c :: post →
      (∀ p ∈ pre, p.truthy = false) → c.truthy = true →
      getRangeString h (JSVal.obj fields) minutes = c.toStr h ∧
      (∀ s, c = JSVal.str s →
        getRangeString h (JSVal.obj fields) minutes = Except.ok s) ∧
      (c.unprintable = false →
        ∃ s, c.toStr h = Except.ok s ∧
          getRangeString h (JSVal.obj fields) minutes = Except.ok s) ∧
      (c.unprintable = true →
        getRangeString h (JSVal.obj fields) minutes = Except.error JSError.typeError)) ∧
    ((∀ c ∈ rangeFields (JSVal.obj fields), c.truthy = false) →
      (minutes = none ∨ ∃ n, minutes = some n ∧ n.isFinite = false) →
      getRangeString h (JSVal.obj fields) minutes = Except.ok "n/a") := by
  refine ⟨fun pre post c hsplit hpre hc => ?_, fun hnone hmin => ?_⟩
  · have hrange : getRangeString h (JSVal.obj fields) minutes = c.toStr h := by
      rw [getRangeString_obj, hsplit, filter_truthy_first pre post c hpre hc]
    refine ⟨hrange, fun s hs => ?_, fun hu => ?_, fun hu => ?_⟩
    · rw [hrange, hs]
      rfl
    · obtain ⟨s, hs⟩ := (toStr_total h c).1 hu
      exact ⟨s, hs, hrange.trans hs⟩
    · exact hrange.trans ((toStr_total h c).2 hu)
  · rw [getRangeString_obj, filter_truthy_nil _ hnone]
    rcases hmin with hm | ⟨n, hm, hfin⟩
    · rw [hm]
    · rw [hm]
      simp only [hfin, Bool.not_false, if_true]

/-- C4, on `{ WaitTimeString: "about 10 min" }` with minutes 99: the string is returned
unchanged. -/
theorem C4_getRangeString_preformatted_witness :
    getRangeString exampleHost (JSVal.obj [("WaitTimeString", JSVal.str "about 10 min")])
      (some (JSNum.fin 99)) = Except.ok "about 10 min" :=
  ((C4_getRangeString_preformatted exampleHost
      [("WaitTimeString", JSVal.str "about 10 min")] (some (JSNum.fin 99))).1
    [] [JSVal.undefined, JSVal.undefined, JSVal.undefined] (JSVal.str "about 10 min")
    rfl (by simp) rfl).2.1 "about 10 min" rfl

/-! ## The mapping loop -/

theorem loopBody_name_error (h : Host) (w : World) (calls : List NetCall) (d : JSVal)
    (e : JSError) (hn : extractName h d = Except.error e) :
    loopBody h w calls d = Except.error e := by
  simp only [loopBody, hn, bind, Except.bind]

theorem loopBody_name_ok (h : Host) (w : World) (calls : List NetCall) (d : JSVal)
    (name : String) (hn : extractName h d = Except.ok name) :
    loopBody h w calls d =
      if name.data.isEmpty = true then Except.ok none
      else
        match getMinutesEstimate h d with
        | Except.error e => Except.error e
        | Except.ok minutes =>
          match getRangeString h d minutes with
          | Except.error e => Except.error e
          | Except.ok range =>
            match getOpenStatus h d with
            | Except.error e => Except.error e
            | Except.ok isOpen =>
              Except.ok (some (makeRecord h name (lookupCoords name) minutes range isOpen
                (driveFor h w calls (lookupCoords name)),
                callsAfterDrive calls (lookupCoords name))) := by
  simp only [loopBody, hn, bind, Except.bind, pure, Except.pure]
  by_cases hemp : name.data.isEmpty = true
  · simp only [hemp, if_true]
  · simp only [hemp, if_false]
    cases getMinutesEstimate h d with
    | error e => rfl
    | ok minutes =>
      simp only
      cases getRangeString h d minutes with
      | error e => rfl
      | ok range =>
        simp only
        cases getOpenStatus h d <;> rfl

theorem loopBody_some_iff (h : Host) (w : World) (calls : List NetCall) (d : JSVal)
    (r : ClinicStatusRecord) (calls2 : List NetCall) :
    loopBody h w calls d = Except.ok (some (r, calls2)) ↔
      ∃ name minutes range isOpen,
        extractName h d = Except.ok name ∧ name.data.isEmpty = false ∧
        getMinutesEstimate h d = Except.ok minutes ∧
        getRangeString h d minutes = Except.ok range ∧
        getOpenStatus h d = Except.ok isOpen ∧
        r = makeRecord h name (lookupCoords name) minutes range isOpen
              (driveFor h w calls (lookupCoords name)) ∧
        calls2 = callsAfterDrive calls (lookupCoords name) := by
  constructor
  · intro hb
    cases hn : extractName h d with
    | error e =>
      rw [loopBody_name_error h w calls d e hn] at hb
      cases hb
    | ok name =>
      rw [loopBody_name_ok h w calls d name hn] at hb
      cases hemp : name.data.isEmpty with
      | true =>
        rw [hemp] at hb
        simp only [if_true] at hb
        cases hb
      | false =>
        rw [hemp] at hb
        simp only [Bool.false_eq_true, if_false] at hb
        cases hm : getMinutesEstimate h d with
        | error e => rw [hm] at hb; cases hb
        | ok minutes =>
          rw [hm] at hb
          simp only at hb
          cases hr : getRangeString h d minutes with
          | error e => rw [hr] at hb; cases hb
          | ok range =>
            rw [hr] at hb
            simp only at hb
            cases ho : getOpenStatus h d with
            | error e => rw [ho] at hb; cases hb
            | ok isOpen =>
              rw [ho] at hb
              simp only [Except.ok.injEq, Option.some.injEq, Prod.mk.injEq] at hb
              exact ⟨name, minutes, range, isOpen, rfl, hemp, rfl, hr, rfl, hb.1.symm,
                hb.2.symm⟩
  · rintro ⟨name, minutes, range, isOpen, hn, hemp, hm, hr, ho, hrec, hcalls⟩
    rw [loopBody_name_ok h w calls d name hn, hemp, hm]
    simp only [Bool.false_eq_true, if_false]
    rw [hr]
    simp only
    rw [ho, hrec, hcalls]

theorem loopBody_none_iff (h : Host) (w : World) (calls : List NetCall) (d : JSVal) :
    loopBody h w calls d = Except.ok none ↔
      ∃ name, extractName h d = Except.ok name ∧ name.data.isEmpty = true := by
  constructor
  · intro hb
    cases hn : extractName h d with
    | error e =>
      rw [loopBody_name_error h w calls d e hn] at hb
      cases hb
    | ok name =>
      rw [loopBody_name_ok h w calls d name hn] at hb
      cases hemp : name.data.isEmpty with
      | true => exact ⟨name, rfl, hemp⟩
      | false =>
        rw [hemp] at hb
        simp only [Bool.false_eq_true, if_false] at hb
        cases hm : getMinutesEstimate h d with
        | error e => rw [hm] at hb; cases hb
        | ok minutes =>
          rw [hm] at hb
          simp only at hb
          cases hr : getRangeString h d minutes with
          | error e => rw [hr] at hb; cases hb
          | ok range =>
            rw [hr] at hb
            simp only at hb
            cases ho : getOpenStatus h d with
            | error e => rw [ho] at hb; cases hb
            | ok isOpen => rw [ho] at hb; cases hb
  · rintro ⟨name, hn, hemp⟩
    rw [loopBody_name_ok h w calls d name hn, hemp]
    rfl

theorem callsAfterDrive_eq (calls : List NetCall) (c : CoordsValue) :
    callsAfterDrive calls c = calls ++ callsAfterDrive [] c := by
  cases c <;> simp [callsAfterDrive]

theorem makeRecord_name (h : Host) (name : String) (coords : CoordsValue)
    (minutes : Option JSNum) (range : String) (isOpen : Bool) (drive : Option DriveEstimate) :
    (makeRecord h name coords minutes range isOpen drive).name = name := rfl

theorem nonEmptyName_of_some (h : Host) (w : World) (calls : List NetCall) (d : JSVal)
    (r : ClinicStatusRecord) (calls2 : List NetCall)
    (hb : loopBody h w calls d = Except.ok (some (r, calls2))) :
    nonEmptyName h d = some r.name ∧ calls2 = calls ++ routingCallsFor r.name := by
  obtain ⟨name, minutes, range, isOpen, hn, hemp, _, _, _, hrec, hcalls⟩ :=
    (loopBody_some_iff h w calls d r calls2).mp hb
  rw [hrec, makeRecord_name, hcalls, routingCallsFor]
  refine ⟨?_, callsAfterDrive_eq calls _⟩
  simp only [nonEmptyName, hn, hemp, Bool.false_eq_true, if_false]

theorem nonEmptyName_of_none (h : Host) (w : World) (calls : List NetCall) (d : JSVal)
    (hb : loopBody h w calls d = Except.ok none) : nonEmptyName h d = none := by
  obtain ⟨name, hn, hemp⟩ := (loopBody_none_iff h w calls d).mp hb
  simp only [nonEmptyName, hn, hemp, if_true]

theorem mapLoop_cons (h : Host) (w : World) (d : JSVal) (ds : List JSVal)
    (mapped : List ClinicStatusRecord) (calls : List NetCall) :
    mapLoop h w (d :: ds) mapped calls =
      match loopBody h w calls d with
      | Except.error e => (Except.error e, calls)
      | Except.ok none => mapLoop h w ds mapped calls
      | Except.ok (some (r, calls2)) => mapLoop h w ds (mapped ++ [r]) calls2 := by
  rw [mapLoop]

theorem mapLoop_ok (h : Host) (w : World) :
    ∀ (ds : List JSVal) (mapped : List ClinicStatusRecord) (calls : List NetCall)
      (out : List ClinicStatusRecord) (calls1 : List NetCall),
      mapLoop h w ds mapped calls = (Except.ok out, calls1) →
      ∃ new, out = mapped ++ new ∧
        List.Forall₂
          (fun d r => nonEmptyName h d = some r.name ∧
            ∃ c1 c2, loopBody h w c1 d = Except.ok (some (r, c2)))
          (ds.filter (fun d => (nonEmptyName h d).isSome)) new ∧
        calls1 = calls ++ new.flatMap (fun r => routingCallsFor r.name) := by
  intro ds
  induction ds with
  | nil =>
    intro mapped calls out calls1 hrun
    simp only [mapLoop, Prod.mk.injEq, Except.ok.injEq] at hrun
    exact ⟨[], by simp [hrun.1], by simp, by simp [hrun.2]⟩
  | cons d ds ih =>
    intro mapped calls out calls1 hrun
    rw [mapLoop_cons] at hrun
    cases hb : loopBody h w calls d with
    | error e =>
      rw [hb] at hrun
      simp at hrun
    | ok res =>
      cases res with
      | none =>
        rw [hb] at hrun
        obtain ⟨new, hout, hrel, hcalls⟩ := ih mapped calls out calls1 hrun
        refine ⟨new, hout, ?_, hcalls⟩
        rw [List.filter_cons, nonEmptyName_of_none h w calls d hb]
        exact hrel
      | some p =>
        obtain ⟨r, calls2⟩ := p
        rw [hb] at hrun
        obtain ⟨new, hout, hrel, hcalls⟩ := ih (mapped ++ [r]) calls2 out calls1 hrun
        obtain ⟨hname, hc2⟩ := nonEmptyName_of_some h w calls d r calls2 hb
        refine ⟨r :: new, by simp [hout], ?_, ?_⟩
        · rw [List.filter_cons, hname]
          exact List.Forall₂.cons ⟨hname, calls, calls2, hb⟩ hrel
        · rw [hcalls, hc2]
          simp

/-! ## The handler: when it answers 200 -/

theorem handler_success (h : Host) (env : Env) (w : World) (status : Nat)
    (text : Option String) (epicJson : JSVal) (departments : List JSVal)
    (mapped : List ClinicStatusRecord) (calls : List NetCall)
    (h1 : isSet env.EPIC_CSRF_TOKEN = true) (h2 : isSet env.EPIC_COOKIE = true)
    (h3 : isSet env.MAPBOX_TOKEN = true)
    (hepic : w.epic = EpicOutcome.response true status text (some epicJson))
    (hdep : (selectDepartments epicJson >>= iterate) = Except.ok departments)
    (hloop : mapLoop h w departments [] [NetCall.scheduling] = (Except.ok mapped, calls)) :
    handler h env w =
      ({ status := 200, headers := [("Cache-Control", "no-store")],
         body := ResponseBody.locations w.now (sortByName h mapped) }, calls) := by
  simp only [handler, h1, h2, h3, hepic, hdep, hloop, Bool.not_true, Bool.or_self,
    Bool.false_eq_true, if_false]

theorem handler_locations_inv (h : Host) (env : Env) (w : World) (t : String)
    (locs : List ClinicStatusRecord)
    (hb : (handler h env w).1.body = ResponseBody.locations t locs) :
    ∃ status text epicJson departments mapped,
      isSet env.EPIC_CSRF_TOKEN = true ∧ isSet env.EPIC_COOKIE = true ∧
      isSet env.MAPBOX_TOKEN = true ∧
      w.epic = EpicOutcome.response true status text (some epicJson) ∧
      (selectDepartments epicJson >>= iterate) = Except.ok departments ∧
      mapLoop h w departments [] [NetCall.scheduling] =
        (Except.ok mapped, (handler h env w).2) ∧
      t = w.now ∧ locs = sortByName h mapped ∧ (handler h env w).1.status = 200 := by
  cases h1 : isSet env.EPIC_CSRF_TOKEN with
  | false => simp [handler, h1] at hb
  | true =>
    cases h2 : isSet env.EPIC_COOKIE with
    | false => simp [handler, h1, h2] at hb
    | true =>
      cases h3 : isSet env.MAPBOX_TOKEN with
      | false => simp [handler, h1, h2, h3] at hb
      | true =>
        cases hepic : w.epic with
        | threw => simp [handler, h1, h2, h3, hepic, serverError] at hb
        | response ok status text json =>
          cases ok with
          | false => simp [handler, h1, h2, h3, hepic] at hb
          | true =>
            cases json with
            | none => simp [handler, h1, h2, h3, hepic, serverError] at hb
            | some epicJson =>
              cases hdep : (selectDepartments epicJson >>= iterate) with
              | error e => simp [handler, h1, h2, h3, hepic, hdep, serverError] at hb
              | ok departments =>
                cases hloop : mapLoop h w departments [] [NetCall.scheduling] with
                | mk res calls =>
                  cases res with
                  | error e =>
                    simp [handler, h1, h2, h3, hepic, hdep, hloop, serverError] at hb
                  | ok mapped =>
                    have hs := handler_success h env w status text epicJson departments
                      mapped calls h1 h2 h3 hepic hdep hloop
                    rw [hs] at hb ⊢
                    simp only [ResponseBody.locations.injEq] at hb
                    exact ⟨status, text, epicJson, departments, mapped, rfl, rfl, rfl,
                      rfl, hdep, hloop, hb.1.symm, hb.2.symm, rfl⟩

theorem forall₂_mem_right {α β : Type} (R : α → β → Prop) :
    ∀ (l1 : List α) (l2 : List β), List.Forall₂ R l1 l2 → ∀ b ∈ l2, ∃ a ∈ l1, R a b := by
  intro l1 l2 hrel
  induction hrel with
  | nil => intro b hb; cases hb
  | cons hab _ ih =>
    intro b hb
    rcases List.mem_cons.mp hb with rfl | hb
    · exact ⟨_, List.mem_cons_self _ _, hab⟩
    · obtain ⟨a, ha, hr⟩ := ih b hb
      exact ⟨a, List.mem_cons_of_mem _ ha, hr⟩

theorem forall₂_map_eq {α β γ : Type} (f : α → Option γ) (g : β → γ) :
    ∀ (l1 : List α) (l2 : List β),
      List.Forall₂ (fun a b => f a = some (g b)) (l1.filter (fun a => (f a).isSome)) l2 →
      l2.map g = l1.filterMap f := by
  intro l1
  induction l1 with
  | nil =>
    intro l2 hrel
    cases hrel
    rfl
  | cons a l1 ih =>
    intro l2 hrel
    rw [List.filter_cons] at hrel
    cases hfa : f a with
    | none =>
      rw [hfa] at hrel
      simp only [Option.isSome_none, Bool.false_eq_true, if_false] at hrel
      rw [List.filterMap_cons, hfa]
      exact ih l2 hrel
    | some c =>
      rw [hfa] at hrel
      simp only [Option.isSome_some, if_true] at hrel
      cases hrel with
      | cons hab htl =>
        rw [List.filterMap_cons, hfa, List.map_cons, ih _ htl]
        rw [hfa] at hab
        cases hab
        rfl

/-- Every record of a 200 response was pushed by one pass of the loop body over an element of
the department list. -/
theorem emitted_record (h : Host) (env : Env) (w : World) (t : String)
    (locs : List ClinicStatusRecord)
    (hb : (handler h env w).1.body = ResponseBody.locations t locs)
    (r : ClinicStatusRecord) (hr : r ∈ locs) :
    ∃ departments d calls1 name minutes range isOpen,
      departmentsOf w = some departments ∧ d ∈ departments ∧
      extractName h d = Except.ok name ∧ name.data.isEmpty = false ∧
      getMinutesEstimate h d = Except.ok minutes ∧
      getRangeString h d minutes = Except.ok range ∧
      getOpenStatus h d = Except.ok isOpen ∧
      r = makeRecord h name (lookupCoords name) minutes range isOpen
            (driveFor h w calls1 (lookupCoords name)) := by
  obtain ⟨status, text, epicJson, departments, mapped, _, _, _, hepic, hdep, hloop, _,
    hlocs, _⟩ := handler_locations_inv h env w t locs hb
  obtain ⟨new, hout, hrel, _⟩ := mapLoop_ok h w departments [] _ mapped _ hloop
  rw [List.nil_append] at hout
  have hmem : r ∈ new := by
    rw [← hout]
    rw [hlocs, sortByName] at hr
    exact List.mem_mergeSort.mp hr
  obtain ⟨d, hd, _, c1, c2, hbody⟩ := forall₂_mem_right _ _ _ hrel r hmem
  obtain ⟨name, minutes, range, isOpen, hn, hemp, hm, hrg, ho, hrec, _⟩ :=
    (loopBody_some_iff h w c1 d r c2).mp hbody
  refine ⟨departments, d, c1, name, minutes, range, isOpen, ?_, (List.mem_filter.mp hd).1,
    hn, hemp, hm, hrg, ho, hrec⟩
  simp only [departmentsOf, hepic, hdep]

theorem toJSString_int (shortest : ℚ → String) (z : ℤ)
    (hz : z.natAbs ≤ JSNum.safeBound) :
    (JSNum.fin (z : ℚ)).toJSString shortest = toString z := by
  have hden : ((z : ℚ)).den = 1 := Rat.intCast_den z
  have hnum : ((z : ℚ)).num = z := Rat.intCast_num z
  simp only [JSNum.toJSString, hden, hnum, hz, and_self, if_true]
  cases z with
  | ofNat n => simp; rfl
  | negSucc n => simp [Int.negSucc_lt_zero]; rfl

/-- C5: for every ClinicStatusRecord the handler emits, `waitText` is determined by
`minutes` alone: when `minutes` is not `null`, `waitText` is the rendering of `minutes` (its
decimal digits when it is an integer of magnitude at most `2^53`) followed by `" min"`; when
`minutes` is `null`, `waitText` is `"n/a"`. -/
theorem C5_waitText_determined_by_minutes (h : Host) (env : Env) (w : World) (t : String)
    (locs : List ClinicStatusRecord)
    (hb : (handler h env w).1.body = ResponseBody.locations t locs) :
    ∀ r ∈ locs,
      r.waitText = specWaitText h r.minutes ∧
      (∀ m, r.minutes = some m → r.waitText = m.toJSString h.shortest ++ " min") ∧
      (∀ z : ℤ, r.minutes = some (JSNum.fin z) → z.natAbs ≤ JSNum.safeBound →
        r.waitText = toString z ++ " min") ∧
      (r.minutes = none → r.waitText = "n/a") := by
  intro r hr
  obtain ⟨_, _, _, name, minutes, range, isOpen, _, _, _, _, _, _, _, hrec⟩ :=
    emitted_record h env w t locs hb r hr
  have hw : r.waitText = specWaitText h r.minutes := by
    rw [hrec]
    cases minutes <;> rfl
  refine ⟨hw, fun m hm => ?_, fun z hm hz => ?_, fun hm => ?_⟩
  · rw [hw, hm]; rfl
  · rw [hw, hm, specWaitText, toJSString_int h.shortest z hz]
  · rw [hw, hm]; rfl

/-- C5, on the response to the single Redmond record with minutes 10: its `waitText` is
`"10 min"`. -/
theorem C5_waitText_determined_by_minutes_witness :
    redmondStatus.waitText = specWaitText exampleHost redmondStatus.minutes ∧
    redmondStatus.waitText = "10 min" :=
  ⟨(C5_waitText_determined_by_minutes exampleHost exampleEnv (worldWith [recordRedmond])
      "2024-01-01T00:00:00.000Z" [redmondStatus] (by decide!) redmondStatus
      (List.mem_singleton.mpr rfl)).1, rfl⟩

/-! ## Claim C6 -/

theorem extractName_obj (h : Host) (fields : List (String × JSVal)) :
    extractName h (JSVal.obj fields) =
      (if ((JSVal.obj fields).field "Name").truthy then
          ((JSVal.obj fields).field "Name").toStr h
        else if ((JSVal.obj fields).field "DepartmentName").truthy then
          ((JSVal.obj fields).field "DepartmentName").toStr h
        else Except.ok "").map jsTrim := by
  simp only [extractName, get_obj, bind, Except.bind, pure, Except.pure]
  generalize (JSVal.obj fields).field "Name" = v1
  generalize (JSVal.obj fields).field "DepartmentName" = v2
  cases ht1 : v1.truthy with
  | true =>
    simp only [if_true]
    cases JSVal.toStr h v1 <;> rfl
  | false =>
    simp only [Bool.false_eq_true, if_false]
    cases ht2 : v2.truthy with
    | true =>
      simp only [if_true]
      cases JSVal.toStr h v2 <;> rfl
    | false =>
      simp only [Bool.false_eq_true, if_false]
      rfl

theorem blank_truthy_str (v : JSVal) (hv : blankNameField v) (ht : v.truthy = true) :
    ∃ s, v = JSVal.str s ∧ (jsTrim s).data.isEmpty = true := by
  rcases hv with hf | hs
  · rw [hf] at ht
    cases ht
  · exact hs

theorem nonEmptyName_blank (h : Host) (fields : List (String × JSVal))
    (h1 : blankNameField ((JSVal.obj fields).field "Name"))
    (h2 : blankNameField ((JSVal.obj fields).field "DepartmentName")) :
    nonEmptyName h (JSVal.obj fields) = none := by
  rw [nonEmptyName, extractName_obj]
  by_cases ht1 : ((JSVal.obj fields).field "Name").truthy = true
  · obtain ⟨s, hs, hemp⟩ := blank_truthy_str _ h1 ht1
    rw [if_pos ht1, hs]
    simp only [JSVal.toStr, pure, Except.pure, Except.map, hemp, if_true]
  · rw [if_neg ht1]
    by_cases ht2 : ((JSVal.obj fields).field "DepartmentName").truthy = true
    · obtain ⟨s, hs, hemp⟩ := blank_truthy_str _ h2 ht2
      rw [if_pos ht2, hs]
      simp only [JSVal.toStr, pure, Except.pure, Except.map, hemp, if_true]
    · rw [if_neg ht2]
      rfl

theorem getRangeString_returns (h : Host) (fields : List (String × JSVal))
    (minutes : Option JSNum)
    (hp : ∀ c ∈ rangeFields (JSVal.obj fields), c.unprintable = false) :
    ∃ s, getRangeString h (JSVal.obj fields) minutes = Except.ok s := by
  rw [getRangeString_obj]
  cases hf : (rangeFields (JSVal.obj fields)).filter JSVal.truthy with
  | nil =>
    cases minutes with
    | none => exact ⟨_, rfl⟩
    | some m =>
      cases hfin : m.isFinite with
      | true =>
        exact ⟨(rangeMin m).toJSString h.shortest ++ "–" ++
          (rangeMax m).toJSString h.shortest ++ " min",
          by simp only [hfin, Bool.not_true, Bool.false_eq_true, if_false]⟩
      | false => exact ⟨"n/a", by simp only [hfin, Bool.not_false, if_true]⟩
  | cons c rest =>
    have hc : c ∈ rangeFields (JSVal.obj fields) :=
      (List.mem_filter.mp (hf ▸ List.mem_cons_self c rest)).1
    exact (toStr_total h c).1 (hp c hc)

theorem getOpenStatus_returns (h : Host) (fields : List (String × JSVal))
    (m : Option JSNum) (hm : getMinutesEstimate h (JSVal.obj fields) = Except.ok m) :
    ∃ b, getOpenStatus h (JSVal.obj fields) = Except.ok b := by
  rw [getOpenStatus_obj]
  split
  · exact ⟨_, rfl⟩
  · split
    · exact ⟨_, rfl⟩
    · rw [hm]
      exact ⟨_, rfl⟩

theorem extractName_returns (h : Host) (fields : List (String × JSVal))
    (h1 : ((JSVal.obj fields).field "Name").unprintable = false)
    (h2 : ((JSVal.obj fields).field "DepartmentName").unprintable = false) :
    ∃ name, extractName h (JSVal.obj fields) = Except.ok name := by
  rw [extractName_obj]
  split
  · obtain ⟨s, hs⟩ := (toStr_total h _).1 h1
    rw [hs]
    exact ⟨_, rfl⟩
  · split
    · obtain ⟨s, hs⟩ := (toStr_total h _).1 h2
      rw [hs]
      exact ⟨_, rfl⟩
    · exact ⟨_, rfl⟩

theorem getMinutesEstimate_returns (h : Host) (fields : List (String × JSVal))
    (hp : ∀ c ∈ minuteFields (JSVal.obj fields), c.unprintable = false) :
    ∃ m, getMinutesEstimate h (JSVal.obj fields) = Except.ok m := by
  rw [getMinutesEstimate_obj]
  exact firstFinite_returns h _ (fun c hc => (toNumber_total h c).1 (hp c hc))

theorem loopBody_returns (h : Host) (w : World) (calls : List NetCall) (d : JSVal)
    (hc : d.convertible = true) : ∃ res, loopBody h w calls d = Except.ok res := by
  cases d with
  | undefined => cases hc
  | null => cases hc
  | bool b => exact ⟨none, rfl⟩
  | num n => exact ⟨none, rfl⟩
  | str s => exact ⟨none, rfl⟩
  | arr xs => exact ⟨none, rfl⟩
  | obj fields =>
    simp only [JSVal.convertible, recordFields, List.all_eq_true, List.mem_append,
      List.mem_cons, List.mem_nil_iff, or_false, Bool.not_eq_true'] at hc
    obtain ⟨name, hn⟩ := extractName_returns h fields
      (hc _ (Or.inl (Or.inl (Or.inl rfl)))) (hc _ (Or.inl (Or.inl (Or.inr rfl))))
    rw [loopBody_name_ok h w calls _ name hn]
    cases hemp : name.data.isEmpty with
    | true => exact ⟨none, rfl⟩
    | false =>
      obtain ⟨m, hm⟩ := getMinutesEstimate_returns h fields
        (fun c hcm => hc c (Or.inl (Or.inr hcm)))
      obtain ⟨range, hr⟩ := getRangeString_returns h fields m
        (fun c hcr => hc c (Or.inr hcr))
      obtain ⟨b, hb⟩ := getOpenStatus_returns h fields m hm
      simp only [Bool.false_eq_true, if_false, hm, hr, hb]
      exact ⟨_, rfl⟩

theorem mapLoop_returns (h : Host) (w : World) :
    ∀ (ds : List JSVal) (mapped : List ClinicStatusRecord) (calls : List NetCall),
      (∀ d ∈ ds, d.convertible = true) →
      ∃ out calls1, mapLoop h w ds mapped calls = (Except.ok out, calls1) := by
  intro ds
  induction ds with
  | nil => intro mapped calls _; exact ⟨mapped, calls, rfl⟩
  | cons d ds ih =>
    intro mapped calls hall
    obtain ⟨res, hres⟩ := loopBody_returns h w calls d (hall d (List.mem_cons_self d ds))
    have hrest : ∀ x ∈ ds, x.convertible = true :=
      fun x hx => hall x (List.mem_cons_of_mem d hx)
    rw [mapLoop_cons, hres]
    cases res with
    | none => exact ih mapped calls hrest
    | some p =>
      obtain ⟨r, calls2⟩ := p
      exact ih (mapped ++ [r]) calls2 hrest

/-- C6, as stated, fails on the department list `[{ Name: "A" }, null]`: the first element
is a record with the non-empty name `A`, yet reading `Name` on the second element throws, the
handler answers 500 "Server error" and no output record is produced. -/
theorem C6_counterexample :
    nonEmptyName exampleHost (JSVal.obj [("Name", JSVal.str "A")]) = some "A" ∧
    handler exampleHost exampleEnv
        (worldWith [JSVal.obj [("Name", JSVal.str "A")], JSVal.null]) =
      (serverError JSError.typeError, [NetCall.scheduling]) := by
  decide!

/-- C6 (amended): for every department list on which the mapping loop runs to its end
without throwing - as it does whenever no element is `null` and no name, wait-time or range
field of an element is an object with an own property `toString` or an array holding such an
object - the handler answers 200 and produces exactly one output record for each input
element whose name (`Name`, else `DepartmentName`, converted to a string and trimmed) is
non-empty, carrying that trimmed name: the names of the records pushed are, in order, the
non-empty names of the inputs, and the locations are a permutation of the records pushed.  No
record is produced for an input record whose two name fields are both missing, empty or
whitespace-only.  Hence the number of locations is at most the number of input records. -/
theorem C6_one_record_per_named_input (h : Host) (env : Env) (w : World)
    (departments : List JSVal)
    (h1 : isSet env.EPIC_CSRF_TOKEN = true) (h2 : isSet env.EPIC_COOKIE = true)
    (h3 : isSet env.MAPBOX_TOKEN = true)
    (hdep : departmentsOf w = some departments) :
    ((∀ d ∈ departments, d.convertible = true) →
      ∃ mapped calls,
        mapLoop h w departments [] [NetCall.scheduling] = (Except.ok mapped, calls)) ∧
    (∀ mapped calls,
      mapLoop h w departments [] [NetCall.scheduling] = (Except.ok mapped, calls) →
      ∃ locs,
        handler h env w =
          ({ status := 200, headers := [("Cache-Control", "no-store")],
             body := ResponseBody.locations w.now locs }, calls) ∧
        locs.Perm mapped ∧
        mapped.map ClinicStatusRecord.name = departments.filterMap (nonEmptyName h) ∧
        locs.length ≤ departments.length) ∧
    (∀ fields, JSVal.obj fields ∈ departments →
      blankNameField ((JSVal.obj fields).field "Name") →
      blankNameField ((JSVal.obj fields).field "DepartmentName") →
      nonEmptyName h (JSVal.obj fields) = none) := by
  refine ⟨fun hall => mapLoop_returns h w departments [] _ hall, fun mapped calls hloop => ?_,
    fun fields _ hb1 hb2 => nonEmptyName_blank h fields hb1 hb2⟩
  obtain ⟨new, hout, hrel, _⟩ := mapLoop_ok h w departments [] _ mapped _ hloop
  rw [List.nil_append] at hout
  have hnames : mapped.map ClinicStatusRecord.name = departments.filterMap (nonEmptyName h) := by
    rw [hout]
    exact forall₂_map_eq (nonEmptyName h) ClinicStatusRecord.name departments new
      (List.Forall₂.imp (fun _ _ hp => hp.1) hrel)
  have hperm : (sortByName h mapped).Perm mapped := List.mergeSort_perm mapped _
  refine ⟨sortByName h mapped, ?_, hperm, hnames, ?_⟩
  · cases hepic : w.epic with
    | threw => simp [departmentsOf, hepic] at hdep
    | response ok status text json =>
      cases ok with
      | false => simp [departmentsOf, hepic] at hdep
      | true =>
        cases json with
        | none => simp [departmentsOf, hepic] at hdep
        | some epicJson =>
          cases hsel : (selectDepartments epicJson >>= iterate) with
          | error e => simp [departmentsOf, hepic, hsel] at hdep
          | ok ds =>
            simp only [departmentsOf, hepic, hsel, Option.some.injEq] at hdep
            rw [hdep] at hsel
            exact handler_success h env w status text epicJson departments mapped calls
              h1 h2 h3 hepic hsel hloop
  · rw [hperm.length_eq, ← List.length_map mapped ClinicStatusRecord.name, hnames]
    exact List.length_filterMap_le _ _

/-- C6, on the list `[{ Name: "  " }, { Name: " Redmond clinic " }]`: one record is
produced, named `Redmond clinic`. -/
theorem C6_one_record_per_named_input_witness :
    ∃ locs,
      handler exampleHost exampleEnv
          (worldWith [JSVal.obj [("Name", JSVal.str "  ")],
            JSVal.obj [("Name", JSVal.str " Redmond clinic ")]]) =
        ({ status := 200, headers := [("Cache-Control", "no-store")],
           body := ResponseBody.locations "2024-01-01T00:00:00.000Z" locs },
         [NetCall.scheduling]) ∧
      locs.Perm [makeRecord exampleHost "Redmond clinic" CoordsValue.absent none "n/a" false
        none] ∧
      [makeRecord exampleHost "Redmond clinic" CoordsValue.absent none "n/a" false
        none].map ClinicStatusRecord.name =
        [JSVal.obj [("Name", JSVal.str "  ")],
          JSVal.obj [("Name", JSVal.str " Redmond clinic ")]].filterMap
            (nonEmptyName exampleHost) ∧
      locs.length ≤ [JSVal.obj [("Name", JSVal.str "  ")],
          JSVal.obj [("Name", JSVal.str " Redmond clinic ")]].length :=
  (C6_one_record_per_named_input exampleHost exampleEnv
    (worldWith [JSVal.obj [("Name", JSVal.str "  ")],
      JSVal.obj [("Name", JSVal.str " Redmond clinic ")]])
    [JSVal.obj [("Name", JSVal.str "  ")], JSVal.obj [("Name", JSVal.str " Redmond clinic ")]]
    rfl rfl rfl rfl).2.1
    [makeRecord exampleHost "Redmond clinic" CoordsValue.absent none "n/a" false none]
    [NetCall.scheduling] (by decide!)

/-! ## Claim C7 -/

theorem sortByName_pairwise (h : Host)
    (htotal : ∀ a b : String, h.localeCompare a b ≤ 0 ∨ h.localeCompare b a ≤ 0)
    (htrans : ∀ a b c : String, h.localeCompare a b ≤ 0 → h.localeCompare b c ≤ 0 →
      h.localeCompare a c ≤ 0)
    (mapped : List ClinicStatusRecord) :
    (sortByName h mapped).Pairwise (fun a b => h.localeCompare a.name b.name ≤ 0) := by
  have hs : (sortByName h mapped).Pairwise (fun a b => nameLe h a b = true) := by
    apply List.sorted_mergeSort
    · intro a b c hab hbc
      simp only [nameLe, decide_eq_true_eq] at hab hbc ⊢
      exact htrans _ _ _ hab hbc
    · intro a b
      simp only [nameLe, Bool.or_eq_true, decide_eq_true_eq]
      exact htotal _ _
  exact hs.imp (fun hab => by simpa [nameLe] using hab)

/-- C7: for every successful request, the emitted `locations` sequence is a permutation of
the records produced by the mapping loop and is sorted ascending by name: for every valid
`i`, `locations[i].name` compares less than or equal to `locations[i+1].name` under the
comparison used for sorting, `localeCompare`, taken to be a total preorder on strings. -/
theorem C7_locations_sorted_permutation (h : Host) (env : Env) (w : World) (t : String)
    (locs : List ClinicStatusRecord)
    (htotal : ∀ a b : String, h.localeCompare a b ≤ 0 ∨ h.localeCompare b a ≤ 0)
    (htrans : ∀ a b c : String, h.localeCompare a b ≤ 0 → h.localeCompare b c ≤ 0 →
      h.localeCompare a c ≤ 0)
    (hb : (handler h env w).1.body = ResponseBody.locations t locs) :
    ∃ departments mapped,
      departmentsOf w = some departments ∧
      mapLoop h w departments [] [NetCall.scheduling] =
        (Except.ok mapped, (handler h env w).2) ∧
      locs.Perm mapped ∧
      ∀ i (hi : i + 1 < locs.length),
        h.localeCompare (locs.get ⟨i, Nat.lt_of_succ_lt hi⟩).name
          (locs.get ⟨i + 1, hi⟩).name ≤ 0 := by
  obtain ⟨status, text, epicJson, departments, mapped, _, _, _, hepic, hdep, hloop, _,
    hlocs, _⟩ := handler_locations_inv h env w t locs hb
  refine ⟨departments, mapped, ?_, hloop, ?_, ?_⟩
  · simp only [departmentsOf, hepic, hdep]
  · rw [hlocs]
    exact List.mergeSort_perm mapped _
  · intro i hi
    have hp := sortByName_pairwise h htotal htrans mapped
    rw [← hlocs] at hp
    exact (List.pairwise_iff_getElem.mp hp) i (i + 1) (Nat.lt_of_succ_lt hi) hi
      (Nat.lt_succ_self i)

theorem exampleHost_le (a b : String) : exampleHost.localeCompare a b ≤ 0 ↔ a ≤ b := by
  simp only [exampleHost]
  split_ifs with h1 h2
  · simp [le_of_lt h1]
  · simp [h2]
  · have : ¬ a ≤ b := fun hle => (lt_or_eq_of_le hle).elim h1 h2
    simp [this]

/-- C7, on the department list `[{ Name: "B" }, { Name: "A" }]` with names compared by code
points: the two locations come out as `A`, `B`. -/
theorem C7_locations_sorted_permutation_witness :
    ∃ departments mapped,
      departmentsOf (worldWith [JSVal.obj [("Name", JSVal.str "B")],
        JSVal.obj [("Name", JSVal.str "A")]]) = some departments ∧
      mapLoop exampleHost (worldWith [JSVal.obj [("Name", JSVal.str "B")],
          JSVal.obj [("Name", JSVal.str "A")]]) departments [] [NetCall.scheduling] =
        (Except.ok mapped, (handler exampleHost exampleEnv
          (worldWith [JSVal.obj [("Name", JSVal.str "B")],
            JSVal.obj [("Name", JSVal.str "A")]])).2) ∧
      [makeRecord exampleHost "A" CoordsValue.absent none "n/a" false none,
        makeRecord exampleHost "B" CoordsValue.absent none "n/a" false none].Perm mapped ∧
      ∀ i (hi : i + 1 < [makeRecord exampleHost "A" CoordsValue.absent none "n/a" false none,
          makeRecord exampleHost "B" CoordsValue.absent none "n/a" false none].length),
        exampleHost.localeCompare
          ([makeRecord exampleHost "A" CoordsValue.absent none "n/a" false none,
            makeRecord exampleHost "B" CoordsValue.absent none "n/a" false none].get
              ⟨i, Nat.lt_of_succ_lt hi⟩).name
          ([makeRecord exampleHost "A" CoordsValue.absent none "n/a" false none,
            makeRecord exampleHost "B" CoordsValue.absent none "n/a" false none].get
              ⟨i + 1, hi⟩).name ≤ 0 :=
  C7_locations_sorted_permutation exampleHost exampleEnv
    (worldWith [JSVal.obj [("Name", JSVal.str "B")], JSVal.obj [("Name", JSVal.str "A")]])
    "2024-01-01T00:00:00.000Z"
    [makeRecord exampleHost "A" CoordsValue.absent none "n/a" false none,
      makeRecord exampleHost "B" CoordsValue.absent none "n/a" false none]
    (fun a b => by
      rw [exampleHost_le, exampleHost_le]
      exact le_total a b)
    (fun a b c hab hbc => by
      rw [exampleHost_le] at hab hbc ⊢
      exact le_trans hab hbc)
    (by decide!)

/-! ## Claim C8 -/

/-- A record whose name has no value in `CLINIC_COORDS`, own or inherited, carries no drive
and no city, and no routing request is made for it. -/
theorem absent_coords_no_drive (h : Host) (w : World) (calls : List NetCall) (name : String)
    (minutes : Option JSNum) (range : String) (isOpen : Bool)
    (habs : lookupCoords name = CoordsValue.absent) :
    (makeRecord h name (lookupCoords name) minutes range isOpen
        (driveFor h w calls (lookupCoords name))).driveMinutes = none ∧
    (makeRecord h name (lookupCoords name) minutes range isOpen
        (driveFor h w calls (lookupCoords name))).driveMiles = none ∧
    (makeRecord h name (lookupCoords name) minutes range isOpen
        (driveFor h w calls (lookupCoords name))).city = "" ∧
    callsAfterDrive calls (lookupCoords name) = calls := by
  rw [habs]
  exact ⟨rfl, rfl, rfl, rfl⟩

/-- C8, at the department record `{ Name: "constructor" }`: the name is not one of the seven
keys of `CLINIC_COORDS`, yet `CLINIC_COORDS[name]` is the inherited `Object.prototype.constructor`,
a truthy value, so `getDriveTimeMiles` is called and a routing request is made, to the
coordinates `undefined,undefined`; when the routing provider answers it with a route, the
record carries `driveMinutes = 15` and `driveMiles = 2.5`. -/
theorem C8_inherited_name_makes_routing_call :
    (CLINIC_COORDS.map Prod.fst).contains "constructor" = false ∧
    handler exampleHost exampleEnv
        (worldRoutingDown [JSVal.obj [("Name", JSVal.str "constructor")]]) =
      ({ status := 200, headers := [("Cache-Control", "no-store")],
         body := ResponseBody.locations "2024-01-01T00:00:00.000Z"
           [{ name := "constructor", city := "", isOpen := false, minutes := none,
              waitText := "n/a", range := "n/a", driveMinutes := none,
              driveMiles := none }] },
       [NetCall.scheduling, NetCall.routing { lng := none, lat := none }]) ∧
    handler exampleHost exampleEnv
        (worldWith [JSVal.obj [("Name", JSVal.str "constructor")]]) =
      ({ status := 200, headers := [("Cache-Control", "no-store")],
         body := ResponseBody.locations "2024-01-01T00:00:00.000Z"
           [{ name := "constructor", city := "", isOpen := false, minutes := none,
              waitText := "n/a", range := "n/a", driveMinutes := some (JSNum.fin 15),
              driveMiles := some (JSNum.fin 2.5) }] },
       [NetCall.scheduling, NetCall.routing { lng := none, lat := none }]) := by
  decide!

/-! ## Claim C9 -/

theorem getDriveTimeMiles_route (h : Host) (dfields rfields : List (String × JSVal))
    (rest : List JSVal) (s d : JSNum)
    (hroutes : (JSVal.obj dfields).field "routes" = JSVal.arr (JSVal.obj rfields :: rest))
    (hdur : (JSVal.obj rfields).field "duration" = JSVal.num s)
    (hdist : (JSVal.obj rfields).field "distance" = JSVal.num d) :
    getDriveTimeMiles h (RoutingOutcome.response true (some (JSVal.obj dfields))) =
      some { minutes := specDriveMinutes s, miles := specDriveMiles d } := by
  simp only [getDriveTimeMiles, driveTry, get_obj, hroutes, hdur, hdist, bind, Except.bind,
    pure, Except.pure, JSVal.truthy, JSVal.index0, List.head?_cons, Option.getD_some,
    JSVal.toNumber, specDriveMinutes, specDriveMiles, Bool.not_true, Bool.false_eq_true,
    if_false]

theorem redmond_loopBody (h : Host) :
    loopBody h (worldWith [recordRedmond]) [NetCall.scheduling] recordRedmond =
      Except.ok (some (redmondStatus,
        [NetCall.scheduling,
          NetCall.routing
            { lng := some REDMOND_ORIGIN.lng, lat := some REDMOND_ORIGIN.lat }])) := by
  have hcoords : lookupCoords "EvergreenHealth Urgent Care, Redmond" =
      CoordsValue.entry
        { city := "Redmond, WA", lat := REDMOND_ORIGIN.lat, lng := REDMOND_ORIGIN.lng } := by
    decide!
  have hrange : getRangeString h recordRedmond (some (JSNum.fin 10)) =
      Except.ok "5–15 min" := by
    have hl : rangeMin (JSNum.fin 10) = JSNum.fin 5 := by decide!
    have hu : rangeMax (JSNum.fin 10) = JSNum.fin 15 := by decide!
    rw [recordRedmond, getRangeString_synth h _ 10 (by
      intro c hc
      simp only [rangeFields, JSVal.field, List.lookup, List.mem_cons, List.mem_nil_iff,
        or_false] at hc
      rcases hc with rfl | rfl | rfl | rfl <;> rfl), hl, hu]
    with_unfolding_all rfl
  have hdrive : getDriveTimeMiles h (RoutingOutcome.response true (some routeBody)) =
      some { minutes := JSNum.fin 15, miles := JSNum.fin 2.5 } := by
    have hm : specDriveMinutes (JSNum.fin 900) = JSNum.fin 15 := by decide!
    have hd : specDriveMiles (JSNum.fin 4000) = JSNum.fin 2.5 := by decide!
    rw [routeBody, getDriveTimeMiles_route h
      [("routes", JSVal.arr [JSVal.obj [("duration", JSVal.num (JSNum.fin 900)),
        ("distance", JSVal.num (JSNum.fin 4000))]])]
      [("duration", JSVal.num (JSNum.fin 900)), ("distance", JSVal.num (JSNum.fin 4000))]
      [] (JSNum.fin 900) (JSNum.fin 4000) rfl rfl rfl, hm, hd]
  refine (loopBody_some_iff h _ _ _ _ _).mpr
    ⟨"EvergreenHealth Urgent Care, Redmond", some (JSNum.fin 10), "5–15 min", true,
      by with_unfolding_all rfl, rfl, by with_unfolding_all rfl, hrange,
      by with_unfolding_all rfl, ?_, ?_⟩
  · rw [hcoords]
    simp only [driveFor, worldWith, CoordsValue.dest, hdrive, makeRecord, redmondStatus,
      CoordsValue.cityOrEmpty, Option.map_some']
    with_unfolding_all rfl
  · rw [hcoords]
    rfl

/-- C9: for every successful routing response whose first route has duration `s` seconds and
distance `d` metres, `getDriveTimeMiles` returns `minutes = round(s / 60)` and
`miles = round(d × 0.000621371 × 10) / 10`, `round` being `Math.round` and the arithmetic
that of JavaScript numbers.  In particular, for the single record
`{ Name: "EvergreenHealth Urgent Care, Redmond", WaitTime: 10 }` and a route of 900 s and
4000 m, the handler answers 200 with one location that has `minutes = 10`,
`waitText = "10 min"`, `driveMinutes = 15` and `driveMiles = 2.5`. -/
theorem C9_drive_time_and_miles (h : Host) (dfields rfields : List (String × JSVal))
    (rest : List JSVal) (s d : JSNum)
    (hroutes : (JSVal.obj dfields).field "routes" = JSVal.arr (JSVal.obj rfields :: rest))
    (hdur : (JSVal.obj rfields).field "duration" = JSVal.num s)
    (hdist : (JSVal.obj rfields).field "distance" = JSVal.num d) :
    getDriveTimeMiles h (RoutingOutcome.response true (some (JSVal.obj dfields))) =
      some { minutes := specDriveMinutes s, miles := specDriveMiles d } ∧
    specDriveMinutes (JSNum.fin 900) = JSNum.fin 15 ∧
    specDriveMiles (JSNum.fin 4000) = JSNum.fin 2.5 ∧
    handler h exampleEnv (worldWith [recordRedmond]) =
      ({ status := 200, headers := [("Cache-Control", "no-store")],
         body := ResponseBody.locations "2024-01-01T00:00:00.000Z" [redmondStatus] },
       [NetCall.scheduling,
        NetCall.routing { lng := some REDMOND_ORIGIN.lng, lat := some REDMOND_ORIGIN.lat }]) ∧
    redmondStatus.minutes = some (JSNum.fin 10) ∧ redmondStatus.waitText = "10 min" ∧
    redmondStatus.driveMinutes = some (JSNum.fin 15) ∧
    redmondStatus.driveMiles = some (JSNum.fin 2.5) := by
  refine ⟨getDriveTimeMiles_route h dfields rfields rest s d hroutes hdur hdist,
    by decide!, by decide!, ?_, rfl, rfl, rfl, rfl⟩
  have hloop : mapLoop h (worldWith [recordRedmond]) [recordRedmond] [] [NetCall.scheduling] =
      (Except.ok [redmondStatus],
        [NetCall.scheduling,
          NetCall.routing
            { lng := some REDMOND_ORIGIN.lng, lat := some REDMOND_ORIGIN.lat }]) := by
    rw [mapLoop_cons, redmond_loopBody h]
    rfl
  rw [handler_success h exampleEnv (worldWith [recordRedmond]) 200 none
    (JSVal.obj [("OnMyWayDepartments", JSVal.arr [recordRedmond])]) [recordRedmond]
    [redmondStatus] _ rfl rfl rfl rfl rfl hloop, sortByName, List.mergeSort_singleton]
  rfl

/-- C9, on the route body of the specification: 900 s and 4000 m give 15 minutes and 2.5
miles. -/
theorem C9_drive_time_and_miles_witness :
    getDriveTimeMiles exampleHost (RoutingOutcome.response true (some routeBody)) =
      some { minutes := specDriveMinutes (JSNum.fin 900),
             miles := specDriveMiles (JSNum.fin 4000) } ∧
    specDriveMinutes (JSNum.fin 900) = JSNum.fin 15 ∧
    specDriveMiles (JSNum.fin 4000) = JSNum.fin 2.5 :=
  ⟨(C9_drive_time_and_miles exampleHost
      [("routes", JSVal.arr [JSVal.obj [("duration", JSVal.num (JSNum.fin 900)),
        ("distance", JSVal.num (JSNum.fin 4000))]])]
      [("duration", JSVal.num (JSNum.fin 900)), ("distance", JSVal.num (JSNum.fin 4000))]
      [] (JSNum.fin 900) (JSNum.fin 4000) rfl rfl rfl).1,
    by decide!, by decide!⟩

/-! ## Claim C10 -/

theorem isSet_false_of_missingOrEmpty (v : Option String) (hv : missingOrEmpty v) :
    isSet v = false := by
  rcases hv with rfl | rfl <;> rfl

theorem isSet_true_iff (v : Option String) : isSet v = true ↔ ¬ missingOrEmpty v := by
  cases v with
  | none => simp [isSet, missingOrEmpty]
  | some s =>
    obtain ⟨cs⟩ := s
    cases cs with
    | nil => simp [isSet, missingOrEmpty]
    | cons c cs =>
      simp only [isSet, missingOrEmpty, List.isEmpty_cons, Bool.not_false, true_iff]
      rintro (hn | hs)
      · cases hn
      · exact List.cons_ne_nil c cs (congrArg String.data (Option.some.inj hs))

/-- C10: for every request in which `EPIC_CSRF_TOKEN` or `EPIC_COOKIE` is missing or empty,
the handler responds with status 500 and body `error: "EPIC_CSRF_TOKEN or EPIC_COOKIE not
set"`; if both are set but `MAPBOX_TOKEN` is missing or empty, it responds with status 500 and
body `error: "MAPBOX_TOKEN not set"`; in both cases no network call, scheduling or routing, is
made. -/
theorem C10_missing_credentials (h : Host) (env : Env) (w : World) :
    (missingOrEmpty env.EPIC_CSRF_TOKEN ∨ missingOrEmpty env.EPIC_COOKIE →
      handler h env w =
        ({ status := 500, headers := [],
           body := ResponseBody.error "EPIC_CSRF_TOKEN or EPIC_COOKIE not set" }, [])) ∧
    (¬ missingOrEmpty env.EPIC_CSRF_TOKEN → ¬ missingOrEmpty env.EPIC_COOKIE →
      missingOrEmpty env.MAPBOX_TOKEN →
      handler h env w =
        ({ status := 500, headers := [],
           body := ResponseBody.error "MAPBOX_TOKEN not set" }, [])) := by
  constructor
  · rintro (hm | hm)
    · simp only [handler, isSet_false_of_missingOrEmpty _ hm, Bool.not_false, Bool.true_or,
        if_true]
    · simp only [handler, isSet_false_of_missingOrEmpty _ hm, Bool.not_false, Bool.or_true,
        if_true]
  · intro h1 h2 h3
    simp only [handler, (isSet_true_iff _).mpr h1, (isSet_true_iff _).mpr h2,
      isSet_false_of_missingOrEmpty _ h3, Bool.not_true, Bool.not_false, Bool.or_self,
      Bool.false_eq_true, if_false, if_true]

/-- C10, on an environment whose cookie is the empty string and on one without
`MAPBOX_TOKEN`: the two 500 responses, with no network call. -/
theorem C10_missing_credentials_witness :
    handler exampleHost
        { EPIC_CSRF_TOKEN := some "token", EPIC_COOKIE := some "", MAPBOX_TOKEN := some "pk" }
        (worldWith [recordRedmond]) =
      ({ status := 500, headers := [],
         body := ResponseBody.error "EPIC_CSRF_TOKEN or EPIC_COOKIE not set" }, []) ∧
    handler exampleHost
        { EPIC_CSRF_TOKEN := some "token", EPIC_COOKIE := some "cookie", MAPBOX_TOKEN := none }
        (worldWith [recordRedmond]) =
      ({ status := 500, headers := [],
         body := ResponseBody.error "MAPBOX_TOKEN not set" }, []) :=
  ⟨(C10_missing_credentials exampleHost
      { EPIC_CSRF_TOKEN := some "token", EPIC_COOKIE := some "", MAPBOX_TOKEN := some "pk" }
      (worldWith [recordRedmond])).1 (Or.inr (Or.inr rfl)),
   (C10_missing_credentials exampleHost
      { EPIC_CSRF_TOKEN := some "token", EPIC_COOKIE := some "cookie", MAPBOX_TOKEN := none }
      (worldWith [recordRedmond])).2
      (by rintro (hn | hs) <;> simp at *)
      (by rintro (hn | hs) <;> simp at *)
      (Or.inl rfl)⟩
/-! ## Claim C11 -/

/-- C11: for every request with all credentials set in which the scheduling provider answers
with a non-success status `c` and body text `t`, the handler responds with status 502 and
body `error: "Epic API error", status: c, body:` the first 500 characters (UTF-16 code
units, as `slice` counts them) of `t`, the whole of `t` when it has at most 500, and the
empty string when the body cannot be read; the only network call made is the scheduling
one.  In particular status 503 with body `"boom"` yields `error: "Epic API error",
status: 503, body: "boom"`. -/
theorem C11_scheduling_failure_is_502 (h : Host) (env : Env) (w : World) (c : Nat)
    (text : Option String) (json : Option JSVal)
    (h1 : ¬ missingOrEmpty env.EPIC_CSRF_TOKEN) (h2 : ¬ missingOrEmpty env.EPIC_COOKIE)
    (h3 : ¬ missingOrEmpty env.MAPBOX_TOKEN)
    (hepic : w.epic = EpicOutcome.response false c text json) :
    handler h env w =
      ({ status := 502, headers := [],
         body := ResponseBody.epicError "Epic API error" c
           ((toUtf16 (text.getD "")).take 500) }, [NetCall.scheduling]) ∧
    (text = none →
      handler h env w =
        ({ status := 502, headers := [],
           body := ResponseBody.epicError "Epic API error" c [] }, [NetCall.scheduling])) ∧
    (∀ t, text = some t → (toUtf16 t).length ≤ 500 →
      handler h env w =
        ({ status := 502, headers := [],
           body := ResponseBody.epicError "Epic API error" c (toUtf16 t) },
         [NetCall.scheduling])) ∧
    (c = 503 → text = some "boom" →
      handler h env w =
        ({ status := 502, headers := [],
           body := ResponseBody.epicError "Epic API error" 503 (toUtf16 "boom") },
         [NetCall.scheduling])) := by
  have hmain : handler h env w =
      ({ status := 502, headers := [],
         body := ResponseBody.epicError "Epic API error" c
           ((toUtf16 (text.getD "")).take 500) }, [NetCall.scheduling]) := by
    simp only [handler, (isSet_true_iff _).mpr h1, (isSet_true_iff _).mpr h2,
      (isSet_true_iff _).mpr h3, hepic, slice500, Bool.not_true, Bool.not_false,
      Bool.or_self, Bool.false_eq_true, if_false, if_true]
  refine ⟨hmain, fun hnone => ?_, fun t ht hlen => ?_, fun hc ht => ?_⟩
  · rw [hmain, hnone]
    rfl
  · rw [hmain, ht, Option.getD_some, List.take_of_length_le hlen]
  · subst hc
    rw [hmain, ht]
    rfl

/-- C11, on the scheduling answer 503 with body `"boom"`. -/
theorem C11_scheduling_failure_is_502_witness :
    handler exampleHost exampleEnv (worldEpicDown 503 "boom") =
      ({ status := 502, headers := [],
         body := ResponseBody.epicError "Epic API error" 503 (toUtf16 "boom") },
       [NetCall.scheduling]) ∧
    toUtf16 "boom" = [98, 111, 111, 109] :=
  ⟨(C11_scheduling_failure_is_502 exampleHost exampleEnv (worldEpicDown 503 "boom") 503
      (some "boom") none
      (by rintro (hn | hs) <;> simp [exampleEnv] at *)
      (by rintro (hn | hs) <;> simp [exampleEnv] at *)
      (by rintro (hn | hs) <;> simp [exampleEnv] at *)
      rfl).2.2.2 rfl rfl, by decide⟩

/-! ## Claim C12 -/

theorem getDriveTimeMiles_failed (h : Host) (out : RoutingOutcome)
    (hf : routingFailed out = true) : getDriveTimeMiles h out = none := by
  cases out with
  | threw => rfl
  | response ok json =>
    cases ok with
    | false => rfl
    | true =>
      cases json with
      | none => rfl
      | some data =>
        simp only [routingFailed, Bool.not_true, Bool.false_or, Bool.not_eq_true'] at hf
        cases data with
        | undefined => rfl
        | null => rfl
        | bool b => rfl
        | num n => rfl
        | str s => rfl
        | arr xs => rfl
        | obj fields =>
          simp only [hasRoute, Bool.and_eq_false_iff] at hf
          simp only [getDriveTimeMiles, driveTry, Bool.not_true, Bool.false_eq_true, if_false,
            get_obj, bind, Except.bind, pure, Except.pure]
          generalize (JSVal.obj fields).field "routes" = routes at hf
          cases ht : routes.truthy with
          | false => rfl
          | true =>
            rw [ht] at hf
            simp only [Bool.true_eq_false, false_or] at hf
            simp only [Bool.not_true, Bool.false_eq_true, if_false]
            cases hi : routes.index0 with
            | error e => rfl
            | ok route =>
              rw [hi] at hf
              simp only at hf
              simp only [hf, Bool.not_false, if_true]

theorem dropDrive_makeRecord (h : Host) (name : String) (coords : CoordsValue)
    (minutes : Option JSNum) (range : String) (isOpen : Bool) (drive : Option DriveEstimate) :
    dropDrive (makeRecord h name coords minutes range isOpen drive) =
      makeRecord h name coords minutes range isOpen none := rfl

theorem driveFor_failed (h : Host) (w : World) (calls : List NetCall) (c : CoordsValue)
    (hf : routingFailed (w.routing calls.length c.dest) = true) :
    driveFor h w calls c = none := by
  cases c with
  | absent => rfl
  | entry e => exact getDriveTimeMiles_failed h _ hf
  | inherited => exact getDriveTimeMiles_failed h _ hf

/-- The loop body reads the world only through the routing answer: in another world it
throws the same error, skips the same elements, and pushes a record that differs in its
drive fields at most, with the same calls made. -/
theorem loopBody_other_world (h : Host) (w w2 : World) (calls : List NetCall) (d : JSVal) :
    (∀ e, loopBody h w calls d = Except.error e → loopBody h w2 calls d = Except.error e) ∧
    (loopBody h w calls d = Except.ok none → loopBody h w2 calls d = Except.ok none) ∧
    (∀ r c2, loopBody h w calls d = Except.ok (some (r, c2)) →
      ∃ r2, loopBody h w2 calls d = Except.ok (some (r2, c2)) ∧
        dropDrive r2 = dropDrive r ∧
        (routingFailed (w2.routing calls.length (lookupCoords r.name).dest) = true →
          r2 = dropDrive r)) := by
  refine ⟨fun e he => ?_, fun hn => ?_, fun r c2 hs => ?_⟩
  · cases hn : extractName h d with
    | error e2 =>
      rw [loopBody_name_error h w calls d e2 hn] at he
      rw [loopBody_name_error h w2 calls d e2 hn, ← he]
    | ok name =>
      rw [loopBody_name_ok h w calls d name hn] at he
      rw [loopBody_name_ok h w2 calls d name hn]
      cases hemp : name.data.isEmpty with
      | true => rw [hemp] at he; simp only [if_true] at he; cases he
      | false =>
        rw [hemp] at he
        simp only [Bool.false_eq_true, if_false] at he ⊢
        cases hm : getMinutesEstimate h d with
        | error e3 => rw [hm] at he; exact he
        | ok minutes =>
          rw [hm] at he
          simp only at he ⊢
          cases hr : getRangeString h d minutes with
          | error e3 => rw [hr] at he; exact he
          | ok range =>
            rw [hr] at he
            simp only at he ⊢
            cases ho : getOpenStatus h d with
            | error e3 => rw [ho] at he; exact he
            | ok isOpen => rw [ho] at he; cases he
  · exact (loopBody_none_iff h w2 calls d).mpr ((loopBody_none_iff h w calls d).mp hn)
  · obtain ⟨name, minutes, range, isOpen, hn, hemp, hm, hr, ho, hrec, hcalls⟩ :=
      (loopBody_some_iff h w calls d r c2).mp hs
    refine ⟨makeRecord h name (lookupCoords name) minutes range isOpen
      (driveFor h w2 calls (lookupCoords name)), ?_, ?_, ?_⟩
    · exact (loopBody_some_iff h w2 calls d _ c2).mpr
        ⟨name, minutes, range, isOpen, hn, hemp, hm, hr, ho, rfl, hcalls⟩
    · rw [hrec, dropDrive_makeRecord, dropDrive_makeRecord]
    · intro hf
      rw [hrec, makeRecord_name] at hf
      rw [driveFor_failed h w2 calls _ hf, hrec, dropDrive_makeRecord]

theorem mapLoop_other_world (h : Host) (w w2 : World) :
    ∀ (ds : List JSVal) (mapped mapped2 : List ClinicStatusRecord) (calls : List NetCall),
      mapped2.map dropDrive = mapped.map dropDrive →
      (∀ e c1, mapLoop h w ds mapped calls = (Except.error e, c1) →
        mapLoop h w2 ds mapped2 calls = (Except.error e, c1)) ∧
      (∀ out c1, mapLoop h w ds mapped calls = (Except.ok out, c1) →
        ∃ out2, mapLoop h w2 ds mapped2 calls = (Except.ok out2, c1) ∧
          out2.map dropDrive = out.map dropDrive) := by
  intro ds
  induction ds with
  | nil =>
    intro mapped mapped2 calls hm
    refine ⟨fun e c1 he => ?_, fun out c1 ho => ?_⟩
    · simp [mapLoop] at he
    · simp only [mapLoop, Prod.mk.injEq, Except.ok.injEq] at ho
      exact ⟨mapped2, by simp [mapLoop, ho.2], by rw [hm, ho.1]⟩
  | cons d ds ih =>
    intro mapped mapped2 calls hm
    obtain ⟨herr, hnone, hsome⟩ := loopBody_other_world h w w2 calls d
    rw [mapLoop_cons, mapLoop_cons]
    cases hb : loopBody h w calls d with
    | error e =>
      rw [herr e hb]
      refine ⟨fun e2 c1 he => he, fun out c1 ho => ?_⟩
      simp at ho
    | ok res =>
      cases res with
      | none =>
        rw [hnone hb]
        exact ih mapped mapped2 calls hm
      | some p =>
        obtain ⟨r, c2⟩ := p
        obtain ⟨r2, hb2, hdrop, _⟩ := hsome r c2 hb
        rw [hb2]
        exact ih (mapped ++ [r]) (mapped2 ++ [r2]) c2 (by simp [hm, hdrop])

theorem sortByName_dropDrive (h : Host) (l : List ClinicStatusRecord) :
    (sortByName h l).map dropDrive = sortByName h (l.map dropDrive) :=
  List.map_mergeSort (fun _ _ _ _ => rfl)

theorem mapLoop_all_failed (h : Host) (w : World)
    (hall : ∀ n dest, routingFailed (w.routing n dest) = true)
    (ds : List JSVal) (out : List ClinicStatusRecord) (c1 : List NetCall)
    (hrun : mapLoop h w ds [] [NetCall.scheduling] = (Except.ok out, c1)) :
    out.map dropDrive = out := by
  obtain ⟨new, hout, hrel, _⟩ := mapLoop_ok h w ds [] _ out c1 hrun
  rw [List.nil_append] at hout
  have hall2 : ∀ r ∈ out, dropDrive r = r := by
    intro r hr
    rw [hout] at hr
    obtain ⟨d, _, _, ca, cb, hbody⟩ := forall₂_mem_right _ _ _ hrel r hr
    obtain ⟨name, minutes, range, isOpen, _, _, _, _, _, hrec, _⟩ :=
      (loopBody_some_iff h w ca d r cb).mp hbody
    rw [hrec, driveFor_failed h w ca _ (hall _ _)]
    rfl
  calc out.map dropDrive = out.map id := List.map_congr_left hall2
    _ = out := List.map_id out

/-- C12: when the routing call of a record throws, answers with a non-success status, or
answers with a body that cannot be read or holds no first route, `getDriveTimeMiles` returns
`null`; the record pushed has `driveMinutes = null` and `driveMiles = null` and its other
fields are those pushed under any other routing answer; and a handler run that differs from
another only in the routing answers sends the same status and makes the same calls, a 200
answer staying a 200 answer whose records differ in the drive fields at most, which are all
`null` when every routing call fails. -/
theorem C12_routing_failure_degrades (h : Host) (env : Env) (w w2 : World)
    (hepic : w2.epic = w.epic) (hnow : w2.now = w.now) :
    (∀ out, routingFailed out = true → getDriveTimeMiles h out = none) ∧
    (∀ calls d r c2, loopBody h w calls d = Except.ok (some (r, c2)) →
      routingFailed (w2.routing calls.length (lookupCoords r.name).dest) = true →
      ∃ r2, loopBody h w2 calls d = Except.ok (some (r2, c2)) ∧
        r2.driveMinutes = none ∧ r2.driveMiles = none ∧ r2 = dropDrive r) ∧
    (handler h env w2).1.status = (handler h env w).1.status ∧
    (handler h env w2).2 = (handler h env w).2 ∧
    (∀ t locs, (handler h env w).1.body = ResponseBody.locations t locs →
      ∃ locs2,
        (handler h env w2).1 =
          { status := 200, headers := [("Cache-Control", "no-store")],
            body := ResponseBody.locations t locs2 } ∧
        locs2.map dropDrive = locs.map dropDrive ∧
        ((∀ n dest, routingFailed (w2.routing n dest) = true) →
          locs2 = locs.map dropDrive)) := by
  refine ⟨getDriveTimeMiles_failed h, ?_, ?_⟩
  · intro calls d r c2 hb hf
    obtain ⟨r2, hb2, _, hfail⟩ := (loopBody_other_world h w w2 calls d).2.2 r c2 hb
    exact ⟨r2, hb2, by rw [hfail hf]; rfl, by rw [hfail hf]; rfl, hfail hf⟩
  · cases h1 : isSet env.EPIC_CSRF_TOKEN with
    | false => simp [handler, h1]
    | true =>
      cases h2 : isSet env.EPIC_COOKIE with
      | false => simp [handler, h1, h2]
      | true =>
        cases h3 : isSet env.MAPBOX_TOKEN with
        | false => simp [handler, h1, h2, h3]
        | true =>
          cases hw : w.epic with
          | threw => simp [handler, h1, h2, h3, hepic, hw, serverError]
          | response ok status text json =>
            cases ok with
            | false => simp [handler, h1, h2, h3, hepic, hw]
            | true =>
              cases json with
              | none => simp [handler, h1, h2, h3, hepic, hw, serverError]
              | some epicJson =>
                cases hdep : (selectDepartments epicJson >>= iterate) with
                | error e => simp [handler, h1, h2, h3, hepic, hw, hdep, serverError]
                | ok departments =>
                  have hrel := mapLoop_other_world h w w2 departments [] []
                    [NetCall.scheduling] rfl
                  cases hloop : mapLoop h w departments [] [NetCall.scheduling] with
                  | mk res calls =>
                    cases res with
                    | error e =>
                      have hloop2 := hrel.1 e calls hloop
                      simp [handler, h1, h2, h3, hepic, hw, hdep, hloop, hloop2, serverError]
                    | ok mapped =>
                      obtain ⟨out2, hloop2, hmap⟩ := hrel.2 mapped calls hloop
                      have hs := handler_success h env w status text epicJson departments
                        mapped calls h1 h2 h3 hw hdep hloop
                      have hs2 := handler_success h env w2 status text epicJson departments
                        out2 calls h1 h2 h3 (hepic.trans hw) hdep hloop2
                      rw [hs, hs2]
                      refine ⟨rfl, rfl, fun t locs hb => ?_⟩
                      simp only [ResponseBody.locations.injEq] at hb
                      obtain ⟨ht, hlocs⟩ := hb
                      have hsorted : (sortByName h out2).map dropDrive =
                          locs.map dropDrive := by
                        rw [← hlocs, sortByName_dropDrive, sortByName_dropDrive, hmap]
                      refine ⟨sortByName h out2, by rw [hnow, ht], hsorted, fun hall => ?_⟩
                      rw [← hsorted, sortByName_dropDrive,
                        mapLoop_all_failed h w2 hall departments out2 calls hloop2]

/-- C12, on the single Redmond record: with the routing provider down the handler still
answers 200, with the record of the successful run and both drive fields `null`. -/
theorem C12_routing_failure_degrades_witness :
    (handler exampleHost exampleEnv (worldWith [recordRedmond])).1.body =
      ResponseBody.locations "2024-01-01T00:00:00.000Z" [redmondStatus] ∧
    (handler exampleHost exampleEnv (worldRoutingDown [recordRedmond])).1 =
      { status := 200, headers := [("Cache-Control", "no-store")],
        body := ResponseBody.locations "2024-01-01T00:00:00.000Z" [redmondStatusNoDrive] } ∧
    (handler exampleHost exampleEnv (worldRoutingDown [recordRedmond])).2 =
      (handler exampleHost exampleEnv (worldWith [recordRedmond])).2 := by
  have hbody : (handler exampleHost exampleEnv (worldWith [recordRedmond])).1.body =
      ResponseBody.locations "2024-01-01T00:00:00.000Z" [redmondStatus] := by decide!
  obtain ⟨_, _, _, hcalls, hloc⟩ := C12_routing_failure_degrades exampleHost exampleEnv
    (worldWith [recordRedmond]) (worldRoutingDown [recordRedmond]) rfl rfl
  obtain ⟨locs2, hresp, _, hall⟩ := hloc _ _ hbody
  refine ⟨hbody, ?_, hcalls⟩
  rw [hresp, hall (fun _ _ => rfl)]
  rfl

/-- A first route without `duration` and `distance` is still a route for the code: the
estimate returned is not `null`, its two numbers are `NaN`. -/
theorem getDriveTimeMiles_route_without_numbers (h : Host) :
    getDriveTimeMiles h (RoutingOutcome.response true
      (some (JSVal.obj [("routes", JSVal.arr [JSVal.obj []])]))) =
      some { minutes := JSNum.nan, miles := JSNum.nan } := by
  have hroutes : (JSVal.obj [("routes", JSVal.arr [JSVal.obj []])]).field "routes" =
      JSVal.arr [JSVal.obj []] := by with_unfolding_all rfl
  have hdur : (JSVal.obj []).field "duration" = JSVal.undefined := rfl
  have hdist : (JSVal.obj []).field "distance" = JSVal.undefined := rfl
  simp only [getDriveTimeMiles, driveTry, get_obj, hroutes, hdur, hdist, bind, Except.bind,
    pure, Except.pure, JSVal.truthy, JSVal.index0, List.head?_cons, Option.getD_some,
    JSVal.toNumber, Bool.not_true, Bool.false_eq_true, if_false, JSNum.mul, JSNum.div,
    JSNum.round]

/-! ## Claim C13 -/

theorem get_of_ne_null (v : JSVal) (key : String) (hn : v ≠ JSVal.null)
    (hu : v ≠ JSVal.undefined) : v.get key = Except.ok (v.field key) := by
  cases v with
  | undefined => exact absurd rfl hu
  | null => exact absurd rfl hn
  | bool b => rfl
  | num n => rfl
  | str s => rfl
  | arr xs => rfl
  | obj fields => rfl

theorem selectDepartments_eq (epicJson : JSVal) (hn : epicJson ≠ JSVal.null)
    (hu : epicJson ≠ JSVal.undefined) :
    selectDepartments epicJson = Except.ok (firstTruthyDepartments epicJson) := by
  simp only [selectDepartments, get_of_ne_null epicJson _ hn hu, bind, Except.bind, pure,
    Except.pure, firstTruthyDepartments, departmentFields, List.filter_cons, List.filter_nil]
  cases epicJson.field "OnMyWayDepartments" |>.truthy <;>
  cases epicJson.field "Departments" |>.truthy <;>
  cases epicJson.field "departmentList" |>.truthy <;> rfl

/-- C13, counterexample: in the body `{ OnMyWayDepartments: null, Departments: [d] }` the
first key present is `OnMyWayDepartments`, whose value is `null`; the handler processes the
list under `Departments` and emits the record of `d`. -/
theorem C13_counterexample :
    specDepartments bodyNullThenList = JSVal.null ∧
    selectDepartments bodyNullThenList = Except.ok (JSVal.arr [recordRedmond]) ∧
    departmentsOf (worldWithBody bodyNullThenList) = some [recordRedmond] ∧
    (handler exampleHost exampleEnv (worldWithBody bodyNullThenList)).1 =
      { status := 200, headers := [("Cache-Control", "no-store")],
        body := ResponseBody.locations "2024-01-01T00:00:00.000Z" [redmondStatus] } := by
  refine ⟨rfl, rfl, rfl, ?_⟩
  decide!

theorem firstTruthy_of_spec_truthy (epicJson : JSVal)
    (ht : (specDepartments epicJson).truthy = true) :
    firstTruthyDepartments epicJson = specDepartments epicJson := by
  cases epicJson with
  | undefined => rfl
  | null => rfl
  | bool b => rfl
  | num n => rfl
  | str s => rfl
  | arr xs => rfl
  | obj fields =>
    have hund : JSVal.undefined.truthy = false := rfl
    simp only [specDepartments] at ht ⊢
    simp only [firstTruthyDepartments, departmentFields, JSVal.field, List.filter_cons,
      List.filter_nil]
    generalize fields.lookup "OnMyWayDepartments" = a at ht ⊢
    generalize fields.lookup "Departments" = b at ht ⊢
    generalize fields.lookup "departmentList" = c at ht ⊢
    cases a with
    | some v =>
      simp only at ht ⊢
      simp only [Option.getD_some, ht, if_true, List.head?_cons]
    | none =>
      simp only at ht ⊢
      simp only [Option.getD_none, hund, Bool.false_eq_true, if_false]
      cases b with
      | some v =>
        simp only at ht ⊢
        simp only [Option.getD_some, ht, if_true, List.head?_cons]
      | none =>
        simp only at ht ⊢
        simp only [Option.getD_none, hund, Bool.false_eq_true, if_false]
        cases c with
        | some v =>
          simp only [Option.getD_some] at ht ⊢
          simp only [ht, if_true, List.head?_cons, Option.getD_some]
        | none => rfl

/-- C13 (amended): for every request with the credentials set and a successful scheduling
response whose JSON body is not `null`, the department list processed is the value under the
first of `OnMyWayDepartments`, `Departments`, `departmentList` (in that order) whose value is
truthy, and the empty array when none of the three values is truthy; an array is processed
element by element, and a value that cannot be iterated is answered with the 500 of the catch
block; when the value under the first key present is truthy, it is the value
under the first key present; and when none of the three values is truthy (as when none of
the keys is present) the handler answers 200 with `locations = []` after the scheduling call
alone.  A `null` body is answered with the 500 of the catch block. -/
theorem C13_departments_first_truthy (h : Host) (env : Env) (w : World) (status : Nat)
    (text : Option String) (epicJson : JSVal)
    (h1 : ¬ missingOrEmpty env.EPIC_CSRF_TOKEN) (h2 : ¬ missingOrEmpty env.EPIC_COOKIE)
    (h3 : ¬ missingOrEmpty env.MAPBOX_TOKEN)
    (hepic : w.epic = EpicOutcome.response true status text (some epicJson)) :
    (epicJson ≠ JSVal.null → epicJson ≠ JSVal.undefined →
      selectDepartments epicJson = Except.ok (firstTruthyDepartments epicJson) ∧
      (∀ xs, firstTruthyDepartments epicJson = JSVal.arr xs → departmentsOf w = some xs) ∧
      ((specDepartments epicJson).truthy = true →
        firstTruthyDepartments epicJson = specDepartments epicJson) ∧
      ((∀ v ∈ departmentFields epicJson, v.truthy = false) →
        departmentsOf w = some [] ∧
        handler h env w =
          ({ status := 200, headers := [("Cache-Control", "no-store")],
             body := ResponseBody.locations w.now [] }, [NetCall.scheduling])) ∧
      (∀ e, iterate (firstTruthyDepartments epicJson) = Except.error e →
        handler h env w = (serverError e, [NetCall.scheduling]))) ∧
    (epicJson = JSVal.null →
      handler h env w = (serverError JSError.typeError, [NetCall.scheduling])) := by
  constructor
  · intro hn hu
    have hsel := selectDepartments_eq epicJson hn hu
    have hdeps : ∀ xs, firstTruthyDepartments epicJson = JSVal.arr xs →
        (selectDepartments epicJson >>= iterate) = Except.ok xs := by
      intro xs hxs
      rw [hsel, hxs]
      rfl
    have hof : ∀ xs, firstTruthyDepartments epicJson = JSVal.arr xs →
        departmentsOf w = some xs := by
      intro xs hxs
      simp only [departmentsOf, hepic, hdeps xs hxs]
    refine ⟨hsel, hof, firstTruthy_of_spec_truthy epicJson, fun hall => ?_, fun e he => ?_⟩
    swap
    · have hdep : (selectDepartments epicJson >>= iterate) = Except.error e := by
        rw [hsel]
        exact he
      simp only [handler, (isSet_true_iff _).mpr h1, (isSet_true_iff _).mpr h2,
        (isSet_true_iff _).mpr h3, hepic, hdep, Bool.not_true, Bool.or_self,
        Bool.false_eq_true, if_false]
    have hempty : firstTruthyDepartments epicJson = JSVal.arr [] := by
      rw [firstTruthyDepartments, filter_truthy_nil _ hall]
      rfl
    refine ⟨hof [] hempty, ?_⟩
    have hsort : sortByName h [] = [] := by simp [sortByName]
    rw [handler_success h env w status text epicJson [] [] [NetCall.scheduling]
      ((isSet_true_iff _).mpr h1) ((isSet_true_iff _).mpr h2) ((isSet_true_iff _).mpr h3)
      hepic (hdeps [] hempty) rfl, hsort]
  · intro hnull
    subst hnull
    simp only [handler, (isSet_true_iff _).mpr h1, (isSet_true_iff _).mpr h2,
      (isSet_true_iff _).mpr h3, hepic, Bool.not_true, Bool.or_self, Bool.false_eq_true,
      if_false]
    rfl

/-- C13 (amended), on the body `{ OnMyWayDepartments: null, Departments: [d] }`, whose first
truthy value is the list under `Departments`, and on the body `{}`, answered with 200 and no
location. -/
theorem C13_departments_first_truthy_witness :
    departmentsOf (worldWithBody bodyNullThenList) = some [recordRedmond] ∧
    handler exampleHost exampleEnv (worldWithBody (JSVal.obj [])) =
      ({ status := 200, headers := [("Cache-Control", "no-store")],
         body := ResponseBody.locations "2024-01-01T00:00:00.000Z" [] },
       [NetCall.scheduling]) := by
  have hcred : ∀ s : String, s ≠ "" → ¬ missingOrEmpty (some s) := by
    intro s hs hm
    rcases hm with hm | hm
    · cases hm
    · exact hs (Option.some.inj hm)
  constructor
  · exact (C13_departments_first_truthy exampleHost exampleEnv
      (worldWithBody bodyNullThenList) 200 none bodyNullThenList
      (hcred _ (by decide)) (hcred _ (by decide)) (hcred _ (by decide)) rfl).1
      (fun hc => by cases hc) (fun hc => by cases hc) |>.2.1 [recordRedmond] rfl
  · exact ((C13_departments_first_truthy exampleHost exampleEnv
      (worldWithBody (JSVal.obj [])) 200 none (JSVal.obj [])
      (hcred _ (by decide)) (hcred _ (by decide)) (hcred _ (by decide)) rfl).1
      (fun hc => by cases hc) (fun hc => by cases hc)).2.2.2.1
      (fun v hv => by
        simp only [departmentFields, JSVal.field, List.lookup_nil, Option.getD_none,
          List.mem_cons, List.mem_singleton, List.not_mem_nil, or_false, or_self] at hv
        rw [hv]
        rfl) |>.2

/-! ## Claim C14 -/

theorem handler_of_departments (h : Host) (env : Env) (w : World)
    (departments : List JSVal) (mapped : List ClinicStatusRecord) (calls : List NetCall)
    (h1 : isSet env.EPIC_CSRF_TOKEN = true) (h2 : isSet env.EPIC_COOKIE = true)
    (h3 : isSet env.MAPBOX_TOKEN = true)
    (hdep : departmentsOf w = some departments)
    (hloop : mapLoop h w departments [] [NetCall.scheduling] = (Except.ok mapped, calls)) :
    handler h env w =
      ({ status := 200, headers := [("Cache-Control", "no-store")],
         body := ResponseBody.locations w.now (sortByName h mapped) }, calls) := by
  cases hepic : w.epic with
  | threw => simp [departmentsOf, hepic] at hdep
  | response ok status text json =>
    cases ok with
    | false => simp [departmentsOf, hepic] at hdep
    | true =>
      cases json with
      | none => simp [departmentsOf, hepic] at hdep
      | some epicJson =>
        cases hsel : (selectDepartments epicJson >>= iterate) with
        | error e => simp [departmentsOf, hepic, hsel] at hdep
        | ok ds =>
          simp only [departmentsOf, hepic, hsel, Option.some.injEq] at hdep
          rw [hdep] at hsel
          exact handler_success h env w status text epicJson departments mapped calls
            h1 h2 h3 hepic hsel hloop

/-- C14, counterexample: the element `null` of a department list makes the loop body throw
at `d.Name`, whatever the routing outcome, and the handler answers 500 "Server error". -/
theorem C14_counterexample :
    (∀ (w : World) (calls : List NetCall),
      loopBody exampleHost w calls JSVal.null = Except.error JSError.typeError) ∧
    handler exampleHost exampleEnv (worldWith [JSVal.null]) =
      ({ status := 500, headers := [],
         body := ResponseBody.serverError "Server error" JSError.typeError },
       [NetCall.scheduling]) := by
  refine ⟨fun w calls => rfl, ?_⟩
  decide!

/-- C14 (amended): for every element of the department list that is not `null` and whose
name, wait-time and range fields hold no object with an own property `toString` (nor an
array holding one), and for every routing outcome, processing the element either pushes one
ClinicStatusRecord or skips the element, without throwing; an element that is not an object
is skipped; and a department list of such elements never drives the handler into its 500
"Server error" branch: the answer is 200 with the records pushed, sorted. -/
theorem C14_normalization_returns (h : Host) (env : Env) (w : World)
    (departments : List JSVal)
    (h1 : ¬ missingOrEmpty env.EPIC_CSRF_TOKEN) (h2 : ¬ missingOrEmpty env.EPIC_COOKIE)
    (h3 : ¬ missingOrEmpty env.MAPBOX_TOKEN)
    (hdep : departmentsOf w = some departments) :
    (∀ (w2 : World) (calls : List NetCall) (d : JSVal), d.convertible = true →
      loopBody h w2 calls d = Except.ok none ∨
        ∃ r calls2, loopBody h w2 calls d = Except.ok (some (r, calls2))) ∧
    (∀ (w2 : World) (calls : List NetCall) (d : JSVal),
      d ≠ JSVal.null → d ≠ JSVal.undefined → (∀ fields, d ≠ JSVal.obj fields) →
      loopBody h w2 calls d = Except.ok none) ∧
    ((∀ d ∈ departments, d.convertible = true) →
      ∃ mapped calls,
        mapLoop h w departments [] [NetCall.scheduling] = (Except.ok mapped, calls) ∧
        handler h env w =
          ({ status := 200, headers := [("Cache-Control", "no-store")],
             body := ResponseBody.locations w.now (sortByName h mapped) }, calls)) := by
  refine ⟨fun w2 calls d hc => ?_, fun w2 calls d hn hu ho => ?_, fun hall => ?_⟩
  · obtain ⟨res, hres⟩ := loopBody_returns h w2 calls d hc
    cases res with
    | none => exact Or.inl hres
    | some p => exact Or.inr ⟨p.1, p.2, hres⟩
  · cases d with
    | undefined => exact absurd rfl hu
    | null => exact absurd rfl hn
    | bool b => rfl
    | num n => rfl
    | str s => rfl
    | arr xs => rfl
    | obj fields => exact absurd rfl (ho fields)
  · obtain ⟨mapped, calls, hloop⟩ := mapLoop_returns h w departments [] [NetCall.scheduling] hall
    exact ⟨mapped, calls, hloop, handler_of_departments h env w departments mapped calls
      ((isSet_true_iff _).mpr h1) ((isSet_true_iff _).mpr h2) ((isSet_true_iff _).mpr h3)
      hdep hloop⟩

/-- C14 (amended), on a department list that holds a string, a number, an array, the Redmond
record and a record without a name: the handler answers 200 with the Redmond record. -/
theorem C14_normalization_returns_witness :
    (∀ d ∈ mixedDepartments, d.convertible = true) ∧
    ∃ mapped calls,
      mapLoop exampleHost (worldWith mixedDepartments) mixedDepartments []
        [NetCall.scheduling] = (Except.ok mapped, calls) ∧
      handler exampleHost exampleEnv (worldWith mixedDepartments) =
        ({ status := 200, headers := [("Cache-Control", "no-store")],
           body := ResponseBody.locations "2024-01-01T00:00:00.000Z"
             (sortByName exampleHost mapped) }, calls) := by
  have hcred : ∀ s : String, s ≠ "" → ¬ missingOrEmpty (some s) := by
    intro s hs hm
    rcases hm with hm | hm
    · cases hm
    · exact hs (Option.some.inj hm)
  have hall : ∀ d ∈ mixedDepartments, d.convertible = true := by
    intro d hd
    simp only [mixedDepartments, List.mem_cons, List.mem_singleton, List.not_mem_nil,
      or_false] at hd
    rcases hd with rfl | rfl | rfl | rfl | rfl <;> decide!
  exact ⟨hall, (C14_normalization_returns exampleHost exampleEnv (worldWith mixedDepartments)
    mixedDepartments (hcred _ (by decide)) (hcred _ (by decide)) (hcred _ (by decide))
    rfl).2.2 hall⟩

/-! ## Claim C15 -/

/-- Where the five wait-time values convert to no finite number and there is no boolean open
flag, the record pushed has `minutes = null`, `waitText = "n/a"` and `isOpen = false`. -/
theorem no_estimate_closed (h : Host) (w : World) (calls : List NetCall)
    (fields : List (String × JSVal)) (r : ClinicStatusRecord) (calls2 : List NetCall)
    (hopen : ∀ b, (JSVal.obj fields).field "IsOpen" ≠ JSVal.bool b)
    (hnow : ∀ b, (JSVal.obj fields).field "IsOpenNow" ≠ JSVal.bool b)
    (hwait : ∀ v ∈ minuteFields (JSVal.obj fields), noEstimate h v)
    (hb : loopBody h w calls (JSVal.obj fields) = Except.ok (some (r, calls2))) :
    r.minutes = none ∧ r.waitText = "n/a" ∧ r.isOpen = false := by
  obtain ⟨name, minutes, range, isOpen, _, _, hm, _, ho, hrec, _⟩ :=
    (loopBody_some_iff h w calls _ r calls2).mp hb
  have hnone : getMinutesEstimate h (JSVal.obj fields) = Except.ok none := by
    rw [getMinutesEstimate_obj]
    have hskip := firstFinite_skip h (minuteFields (JSVal.obj fields)) [] hwait
    rw [List.append_nil] at hskip
    rw [hskip]
    rfl
  rw [hnone] at hm
  cases hm
  rw [getOpenStatus_fallback h fields hopen hnow, hnone] at ho
  cases ho
  rw [hrec]
  exact ⟨rfl, rfl, rfl⟩

/-- C15, on the failing input: the named record `{ Name: "A", WaitTime: null }` has no boolean
open flag and no number or numeric string in a wait-time field, yet `Number(null)` is `0`, a
finite number: minutes extraction returns `0`, the open status is `true`, and the record
emitted has `minutes = 0`, `waitText = "0 min"`, `range = "0–0 min"` and `isOpen = true`.
The record `{ Name: "A", WaitTime: "" }` is emitted the same way. -/
theorem C15_null_wait_time_reads_as_zero :
    getMinutesEstimate exampleHost recordNullWait = Except.ok (some (JSNum.fin 0)) ∧
    getOpenStatus exampleHost recordNullWait = Except.ok true ∧
    handler exampleHost exampleEnv (worldWith [recordNullWait]) =
      ({ status := 200, headers := [("Cache-Control", "no-store")],
         body := ResponseBody.locations "2024-01-01T00:00:00.000Z" [zeroWaitStatus] },
       [NetCall.scheduling]) ∧
    handler exampleHost exampleEnv (worldWith [recordEmptyWait]) =
      ({ status := 200, headers := [("Cache-Control", "no-store")],
         body := ResponseBody.locations "2024-01-01T00:00:00.000Z" [zeroWaitStatus] },
       [NetCall.scheduling]) := by
  decide!

/-- The record `{ Name: "A", WaitTime: "soon", EstWait: "n/a" }` is emitted with no estimate
and closed. -/
theorem no_estimate_closed_example :
    loopBody exampleHost (worldWith [recordTextWait]) [NetCall.scheduling] recordTextWait =
      Except.ok (some (noWaitStatus, [NetCall.scheduling])) := by
  decide!

/-! ## Claim C17 -/

theorem firstFinite_finite (h : Host) (cs : List JSVal) (r : Option JSNum)
    (hr : firstFinite h cs = Except.ok r) : nullOrFinite r = true := by
  induction cs with
  | nil =>
    rw [firstFinite_nil] at hr
    cases hr
    rfl
  | cons c cs ih =>
    cases hc : c.toNumber h with
    | error e =>
      rw [firstFinite_cons_error h c cs e hc] at hr
      cases hr
    | ok n =>
      rw [firstFinite_cons_ok h c cs n hc] at hr
      cases hfin : n.isFinite with
      | true =>
        rw [hfin] at hr
        simp only [if_true] at hr
        cases hr
        exact hfin
      | false =>
        rw [hfin] at hr
        simp only [Bool.false_eq_true, if_false] at hr
        exact ih hr

theorem getMinutesEstimate_finite (h : Host) (d : JSVal) (r : Option JSNum)
    (hr : getMinutesEstimate h d = Except.ok r) : nullOrFinite r = true := by
  simp only [getMinutesEstimate, bind, Except.bind] at hr
  cases hc : minuteCandidates d with
  | error e =>
    rw [hc] at hr
    cases hr
  | ok cs =>
    rw [hc] at hr
    exact firstFinite_finite h cs r hr

theorem append_min_ne (x : String) : x ++ " min" ≠ "n/a" := by
  intro hx
  have hlen := congrArg (fun s : String => s.data.length) hx
  simp only [String.data_append, List.length_append, List.length_cons, List.length_nil]
    at hlen
  omega

theorem loopBody_obj (h : Host) (w : World) (calls : List NetCall) (d : JSVal)
    (r : ClinicStatusRecord) (calls2 : List NetCall)
    (hb : loopBody h w calls d = Except.ok (some (r, calls2))) :
    ∃ fields, d = JSVal.obj fields := by
  cases d with
  | undefined => cases hb
  | null => cases hb
  | bool b =>
    have hskip : loopBody h w calls (JSVal.bool b) = Except.ok none := rfl
    rw [hskip] at hb
    cases hb
  | num n =>
    have hskip : loopBody h w calls (JSVal.num n) = Except.ok none := rfl
    rw [hskip] at hb
    cases hb
  | str s =>
    have hskip : loopBody h w calls (JSVal.str s) = Except.ok none := rfl
    rw [hskip] at hb
    cases hb
  | arr xs =>
    have hskip : loopBody h w calls (JSVal.arr xs) = Except.ok none := rfl
    rw [hskip] at hb
    cases hb
  | obj fields => exact ⟨fields, rfl⟩

/-- The two null tests agree on a record pushed by the loop body for an element without a
truthy range field. -/
theorem null_tests_agree (h : Host) (w : World) (calls : List NetCall) (d : JSVal)
    (r : ClinicStatusRecord) (calls2 : List NetCall)
    (hb : loopBody h w calls d = Except.ok (some (r, calls2)))
    (hnone : ∀ v ∈ rangeFields d, v.truthy = false) :
    nullOrFinite r.minutes = true ∧
    (r.range = "n/a" ↔ r.waitText = "n/a") ∧ (r.waitText = "n/a" ↔ r.minutes = none) := by
  obtain ⟨fields, hd⟩ := loopBody_obj h w calls d r calls2 hb
  subst hd
  obtain ⟨name, minutes, range, isOpen, _, _, hm, hr, _, hrec, _⟩ :=
    (loopBody_some_iff h w calls _ r calls2).mp hb
  have hfin := getMinutesEstimate_finite h _ minutes hm
  rw [getRangeString_obj, filter_truthy_nil _ hnone] at hr
  have hwait : r.waitText = waitTextOf h minutes := by rw [hrec]; rfl
  have hmin : r.minutes = minutes := by rw [hrec]; rfl
  have hrange : r.range = range := by rw [hrec]; rfl
  rw [hwait, hmin, hrange]
  cases minutes with
  | none =>
    simp only at hr
    cases hr
    exact ⟨rfl, Iff.rfl, by simp [waitTextOf]⟩
  | some m =>
    simp only [nullOrFinite] at hfin
    simp only [hfin, Bool.not_true, Bool.false_eq_true, if_false, Except.ok.injEq] at hr
    have h1 : range ≠ "n/a" := by
      rw [← hr]
      exact append_min_ne _
    have h2 : waitTextOf h (some m) ≠ "n/a" := append_min_ne _
    refine ⟨hfin, ⟨fun hx => absurd hx h1, fun hx => absurd hx h2⟩,
      ⟨fun hx => absurd hx h2, fun hx => by cases hx⟩⟩

/-- C17: `getMinutesEstimate` returns `null` or a finite number, never `NaN` or an infinity;
hence the two null tests used downstream (`Number.isFinite(minutes)` for the range,
`minutes != null` for the wait text) agree: every record of a 200 answer has `minutes` `null`
or finite and was pushed by the loop body for an element of the department list, and every
record pushed for an element without a truthy pre-formatted range field has
`range = "n/a"` if and only if `waitText = "n/a"` if and only if `minutes = null`. -/
theorem C17_null_tests_agree (h : Host) (env : Env) (w : World) (t : String)
    (locs : List ClinicStatusRecord)
    (hb : (handler h env w).1.body = ResponseBody.locations t locs) :
    (∀ d r, getMinutesEstimate h d = Except.ok r →
      r = none ∨ ∃ q : ℚ, r = some (JSNum.fin q)) ∧
    (∀ r ∈ locs,
      (r.minutes = none ∨ ∃ q : ℚ, r.minutes = some (JSNum.fin q)) ∧
      ∃ departments d calls calls2,
        departmentsOf w = some departments ∧ d ∈ departments ∧
        loopBody h w calls d = Except.ok (some (r, calls2)) ∧
        ((∀ v ∈ rangeFields d, v.truthy = false) →
          (r.range = "n/a" ↔ r.waitText = "n/a") ∧
          (r.waitText = "n/a" ↔ r.minutes = none))) ∧
    (∀ calls d r calls2, loopBody h w calls d = Except.ok (some (r, calls2)) →
      (∀ v ∈ rangeFields d, v.truthy = false) →
      (r.range = "n/a" ↔ r.waitText = "n/a") ∧
      (r.waitText = "n/a" ↔ r.minutes = none)) := by
  have hshape : ∀ r : Option JSNum, nullOrFinite r = true →
      r = none ∨ ∃ q : ℚ, r = some (JSNum.fin q) := by
    intro r hr
    cases r with
    | none => exact Or.inl rfl
    | some m =>
      cases m with
      | fin q => exact Or.inr ⟨q, rfl⟩
      | nan => cases hr
      | posInf => cases hr
      | negInf => cases hr
  refine ⟨fun d r hr => hshape r (getMinutesEstimate_finite h d r hr), fun r hr => ?_,
    fun calls d r calls2 hbody hnone => (null_tests_agree h w calls d r calls2 hbody hnone).2⟩
  obtain ⟨departments, d, calls, name, minutes, range, isOpen, hdep, hd, hn, hemp, hm, hrg,
    ho, hrec⟩ := emitted_record h env w t locs hb r hr
  have hbody : loopBody h w calls d =
      Except.ok (some (r, callsAfterDrive calls (lookupCoords name))) :=
    (loopBody_some_iff h w calls d r _).mpr
      ⟨name, minutes, range, isOpen, hn, hemp, hm, hrg, ho, hrec, rfl⟩
  have hmin : r.minutes = minutes := by rw [hrec]; rfl
  refine ⟨?_, departments, d, calls, _, hdep, hd, hbody,
    fun hnone => (null_tests_agree h w calls d r _ hbody hnone).2⟩
  rw [hmin]
  exact hshape minutes (getMinutesEstimate_finite h d minutes hm)

/-- C17, on the records emitted for `{ Name: "A", WaitTime: "soon", EstWait: "n/a" }`, where
the three are `"n/a"`, `"n/a"` and `null`, and for the Redmond record with 10 minutes, where
none is. -/
theorem C17_null_tests_agree_witness :
    ((noWaitStatus.range = "n/a" ↔ noWaitStatus.waitText = "n/a") ∧
      (noWaitStatus.waitText = "n/a" ↔ noWaitStatus.minutes = none)) ∧
    noWaitStatus.minutes = none ∧
    ((redmondStatus.range = "n/a" ↔ redmondStatus.waitText = "n/a") ∧
      (redmondStatus.waitText = "n/a" ↔ redmondStatus.minutes = none)) ∧
    redmondStatus.minutes = some (JSNum.fin 10) := by
  have hall := C17_null_tests_agree exampleHost exampleEnv
    (worldWith [recordTextWait, recordRedmond]) "2024-01-01T00:00:00.000Z"
    [noWaitStatus, redmondStatus] (by decide!)
  refine ⟨hall.2.2 [NetCall.scheduling] recordTextWait noWaitStatus [NetCall.scheduling]
    (by decide!) ?_, rfl, hall.2.2 [NetCall.scheduling] recordRedmond redmondStatus
    [NetCall.scheduling, NetCall.routing (lookupCoords redmondStatus.name).dest]
    (by decide!) ?_, rfl⟩
  · intro v hv
    simp only [rangeFields, List.mem_cons, List.mem_singleton, List.not_mem_nil,
      or_false] at hv
    rcases hv with rfl | rfl | rfl | rfl <;> decide!
  · intro v hv
    simp only [rangeFields, List.mem_cons, List.mem_singleton, List.not_mem_nil,
      or_false] at hv
    rcases hv with rfl | rfl | rfl | rfl <;> decide!

/-! ## The rounding to binary64: bounds and monotonicity -/

theorem pow2_eq_zpow (e : ℤ) : JSNum.pow2 e = (2 : ℚ) ^ e := by
  unfold JSNum.pow2
  split
  · next he =>
    have hcast : e = (e.toNat : ℤ) := (Int.toNat_of_nonneg he).symm
    conv_rhs => rw [hcast]
    rw [zpow_natCast]
    push_cast
    rfl
  · next he =>
    have hneg : 0 ≤ -e := by omega
    have hcast : e = -((-e).toNat : ℤ) := by rw [Int.toNat_of_nonneg hneg]; ring
    conv_rhs => rw [hcast]
    rw [zpow_neg, zpow_natCast]
    push_cast
    rw [one_div]

theorem pow2_pos (e : ℤ) : 0 < JSNum.pow2 e := by
  rw [pow2_eq_zpow]
  exact zpow_pos (by norm_num) e

theorem pow2_add (a b : ℤ) : JSNum.pow2 (a + b) = JSNum.pow2 a * JSNum.pow2 b := by
  rw [pow2_eq_zpow, pow2_eq_zpow, pow2_eq_zpow, zpow_add₀ (by norm_num)]

theorem pow2_le (a b : ℤ) (hab : a ≤ b) : JSNum.pow2 a ≤ JSNum.pow2 b := by
  rw [pow2_eq_zpow, pow2_eq_zpow]
  exact zpow_le_zpow_right₀ (by norm_num) hab

theorem pow2_lt (a b : ℤ) (hab : a < b) : JSNum.pow2 a < JSNum.pow2 b := by
  rw [pow2_eq_zpow, pow2_eq_zpow]
  exact zpow_lt_zpow_right₀ (by norm_num) hab

theorem pow2_natCast (n : ℕ) : JSNum.pow2 (n : ℤ) = ((2 ^ n : ℕ) : ℚ) := by
  rw [pow2_eq_zpow, zpow_natCast]
  push_cast
  rfl

theorem log2Fuel_spec : ∀ (fuel n : ℕ), n ≤ fuel → 0 < n →
    2 ^ JSNum.log2Fuel fuel n ≤ n ∧ n < 2 ^ (JSNum.log2Fuel fuel n + 1) := by
  intro fuel
  induction fuel with
  | zero => intro n hn hpos; omega
  | succ fuel ih =>
    intro n hn hpos
    rw [JSNum.log2Fuel]
    by_cases h2 : n < 2
    · simp only [h2, if_true, pow_zero, zero_add, pow_one]
      exact ⟨hpos, trivial⟩
    · simp only [h2, if_false]
      have hdiv : n / 2 ≤ fuel := by omega
      have hdpos : 0 < n / 2 := by omega
      obtain ⟨hlo, hhi⟩ := ih (n / 2) hdiv hdpos
      rw [pow_succ] at hhi ⊢
      constructor
      · omega
      · rw [pow_succ]
        omega

theorem natLog2_spec (n : ℕ) (hpos : 0 < n) :
    2 ^ JSNum.natLog2 n ≤ n ∧ n < 2 ^ (JSNum.natLog2 n + 1) :=
  log2Fuel_spec n n (le_refl n) hpos

theorem floorLog2_spec (a : ℚ) (ha : 0 < a) :
    JSNum.pow2 (JSNum.floorLog2 a) ≤ a ∧ a < JSNum.pow2 (JSNum.floorLog2 a + 1) := by
  have hnum : 0 < a.num := Rat.num_pos.mpr ha
  have hN : 0 < a.num.natAbs := Int.natAbs_pos.mpr (ne_of_gt hnum)
  have hD : 0 < a.den := a.den_pos
  obtain ⟨hn1, hn2⟩ := natLog2_spec _ hN
  obtain ⟨hd1, hd2⟩ := natLog2_spec _ hD
  generalize hln : JSNum.natLog2 a.num.natAbs = ln at hn1 hn2
  generalize hld : JSNum.natLog2 a.den = ld at hd1 hd2
  have hDq : (0 : ℚ) < (a.den : ℚ) := by exact_mod_cast hD
  have haeq : a = (a.num.natAbs : ℚ) / (a.den : ℚ) := by
    have hq : ((a.num.natAbs : ℕ) : ℚ) = (a.num : ℚ) := by
      rw [Nat.cast_natAbs, abs_of_pos hnum]
    rw [hq]
    exact (Rat.num_div_den a).symm
  have hn1q : JSNum.pow2 (ln : ℤ) ≤ (a.num.natAbs : ℚ) := by
    rw [pow2_natCast]
    exact_mod_cast hn1
  have hn2q : (a.num.natAbs : ℚ) < JSNum.pow2 ((ln : ℤ) + 1) := by
    have hp := pow2_natCast (ln + 1)
    push_cast at hp
    rw [hp]
    exact_mod_cast hn2
  have hd1q : JSNum.pow2 (ld : ℤ) ≤ (a.den : ℚ) := by
    rw [pow2_natCast]
    exact_mod_cast hd1
  have hd2q : (a.den : ℚ) < JSNum.pow2 ((ld : ℤ) + 1) := by
    have hp := pow2_natCast (ld + 1)
    push_cast at hp
    rw [hp]
    exact_mod_cast hd2
  have hlow : JSNum.pow2 ((ln : ℤ) - (ld : ℤ) - 1) < a := by
    rw [haeq, lt_div_iff₀ hDq]
    calc JSNum.pow2 ((ln : ℤ) - (ld : ℤ) - 1) * (a.den : ℚ)
        < JSNum.pow2 ((ln : ℤ) - (ld : ℤ) - 1) * JSNum.pow2 ((ld : ℤ) + 1) :=
          mul_lt_mul_of_pos_left hd2q (pow2_pos _)
      _ = JSNum.pow2 (ln : ℤ) := by
          rw [← pow2_add]
          congr 1
          ring
      _ ≤ (a.num.natAbs : ℚ) := hn1q
  have hhigh : a < JSNum.pow2 ((ln : ℤ) - (ld : ℤ) + 1) := by
    rw [haeq, div_lt_iff₀ hDq]
    calc (a.num.natAbs : ℚ) < JSNum.pow2 ((ln : ℤ) + 1) := hn2q
      _ = JSNum.pow2 ((ln : ℤ) - (ld : ℤ) + 1) * JSNum.pow2 (ld : ℤ) := by
          rw [← pow2_add]
          congr 1
          ring
      _ ≤ JSNum.pow2 ((ln : ℤ) - (ld : ℤ) + 1) * (a.den : ℚ) :=
          mul_le_mul_of_nonneg_left hd1q (pow2_pos _).le
  unfold JSNum.floorLog2
  simp only [hln, hld]
  split
  · next hlt =>
    refine ⟨hlow.le, ?_⟩
    have he : (ln : ℤ) - (ld : ℤ) - 1 + 1 = (ln : ℤ) - (ld : ℤ) := by ring
    rw [he]
    exact hlt
  · next hge => exact ⟨not_lt.mp hge, hhigh⟩

theorem floorLog2_mono (a b : ℚ) (ha : 0 < a) (hab : a ≤ b) :
    JSNum.floorLog2 a ≤ JSNum.floorLog2 b := by
  by_contra hlt
  have hlt2 : JSNum.floorLog2 b + 1 ≤ JSNum.floorLog2 a := by omega
  have h1 := (floorLog2_spec a ha).1
  have h2 := (floorLog2_spec b (lt_of_lt_of_le ha hab)).2
  have h3 := pow2_le _ _ hlt2
  linarith

theorem floorLog2_ge (a : ℚ) (e : ℤ) (ha : JSNum.pow2 e ≤ a) : e ≤ JSNum.floorLog2 a := by
  by_contra hlt
  have hlt2 : JSNum.floorLog2 a + 1 ≤ e := by omega
  have h2 := (floorLog2_spec a (lt_of_lt_of_le (pow2_pos e) ha)).2
  have h3 := pow2_le _ _ hlt2
  linarith

theorem floorLog2_lt (a : ℚ) (e : ℤ) (hpos : 0 < a) (ha : a < JSNum.pow2 e) :
    JSNum.floorLog2 a < e := by
  by_contra hge
  have hge2 : e ≤ JSNum.floorLog2 a := by omega
  have h1 := (floorLog2_spec a hpos).1
  have h3 := pow2_le _ _ hge2
  linarith

theorem roundHalfEven_le (x : ℚ) : (JSNum.roundHalfEven x : ℚ) ≤ x + 1 / 2 := by
  have h1 := Int.floor_le x
  unfold JSNum.roundHalfEven
  simp only
  split_ifs with ha hb hc
  · linarith
  · push_cast
    linarith
  · linarith
  · push_cast
    linarith

theorem roundHalfEven_ge (x : ℚ) : x - 1 / 2 ≤ (JSNum.roundHalfEven x : ℚ) := by
  have h2 := Int.lt_floor_add_one x
  unfold JSNum.roundHalfEven
  simp only
  split_ifs with ha hb hc
  · linarith
  · push_cast
    linarith
  · linarith
  · push_cast
    linarith

theorem roundHalfEven_intCast (z : ℤ) : JSNum.roundHalfEven (z : ℚ) = z := by
  unfold JSNum.roundHalfEven
  simp only [Int.floor_intCast, sub_self]
  norm_num

theorem roundHalfEven_mono (x y : ℚ) (hxy : x ≤ y) :
    JSNum.roundHalfEven x ≤ JSNum.roundHalfEven y := by
  have hf : ⌊x⌋ ≤ ⌊y⌋ := Int.floor_mono hxy
  have hx1 := Int.floor_le x
  have hx2 := Int.lt_floor_add_one x
  have hy1 := Int.floor_le y
  have hy2 := Int.lt_floor_add_one y
  have hcase : ⌊x⌋ < ⌊y⌋ ∨ (⌊x⌋ : ℚ) = (⌊y⌋ : ℚ) := by
    rcases lt_or_eq_of_le hf with hlt | heq
    · exact Or.inl hlt
    · exact Or.inr (by exact_mod_cast heq)
  unfold JSNum.roundHalfEven
  simp only
  split_ifs <;>
    first
    | omega
    | (rcases hcase with hlt | heq
       · omega
       · exfalso
         linarith)

theorem roundHalfEven_nonneg (x : ℚ) (hx : 0 ≤ x) : 0 ≤ JSNum.roundHalfEven x := by
  have h0 := roundHalfEven_mono 0 x hx
  have hz : JSNum.roundHalfEven ((0 : ℤ) : ℚ) = 0 := roundHalfEven_intCast 0
  rw [Int.cast_zero] at hz
  rw [hz] at h0
  exact h0

theorem pow2_53 : JSNum.pow2 53 = ((9007199254740992 : ℤ) : ℚ) := by
  rw [pow2_eq_zpow]
  norm_num

theorem pow2_52 : JSNum.pow2 52 = ((4503599627370496 : ℤ) : ℚ) := by
  rw [pow2_eq_zpow]
  norm_num

/-- Rounding at exponent `E` keeps a value that is at most `2^(E+1)` at most `2^(E+1)`. -/
theorem scaled_le (x : ℚ) (E : ℤ) (hx : x ≤ JSNum.pow2 (E + 1)) :
    (JSNum.roundHalfEven (x / JSNum.pow2 (E - 52)) : ℚ) * JSNum.pow2 (E - 52) ≤
      JSNum.pow2 (E + 1) := by
  have hu := pow2_pos (E - 52)
  have hsplit : JSNum.pow2 (E + 1) = JSNum.pow2 53 * JSNum.pow2 (E - 52) := by
    rw [← pow2_add]
    congr 1
    ring
  have hq : x / JSNum.pow2 (E - 52) ≤ ((9007199254740992 : ℤ) : ℚ) := by
    rw [div_le_iff₀ hu, ← pow2_53, ← hsplit]
    exact hx
  have hr := roundHalfEven_mono _ _ hq
  rw [roundHalfEven_intCast] at hr
  have hrq : (JSNum.roundHalfEven (x / JSNum.pow2 (E - 52)) : ℚ) ≤
      ((9007199254740992 : ℤ) : ℚ) := by exact_mod_cast hr
  rw [hsplit, pow2_53]
  exact mul_le_mul_of_nonneg_right hrq hu.le

/-- Rounding at exponent `E` keeps a value that is at least `2^E` at least `2^E`. -/
theorem scaled_ge (x : ℚ) (E : ℤ) (hx : JSNum.pow2 E ≤ x) :
    JSNum.pow2 E ≤
      (JSNum.roundHalfEven (x / JSNum.pow2 (E - 52)) : ℚ) * JSNum.pow2 (E - 52) := by
  have hu := pow2_pos (E - 52)
  have hsplit : JSNum.pow2 E = JSNum.pow2 52 * JSNum.pow2 (E - 52) := by
    rw [← pow2_add]
    congr 1
    ring
  have hq : ((4503599627370496 : ℤ) : ℚ) ≤ x / JSNum.pow2 (E - 52) := by
    rw [le_div_iff₀ hu, ← pow2_52, ← hsplit]
    exact hx
  have hr := roundHalfEven_mono _ _ hq
  rw [roundHalfEven_intCast] at hr
  have hrq : ((4503599627370496 : ℤ) : ℚ) ≤
      (JSNum.roundHalfEven (x / JSNum.pow2 (E - 52)) : ℚ) := by exact_mod_cast hr
  rw [hsplit, pow2_52]
  exact mul_le_mul_of_nonneg_right hrq hu.le

theorem nearest_mono (a b : ℚ) (ha : 0 < a) (hab : a ≤ b) :
    JSNum.nearest a ≤ JSNum.nearest b := by
  have hb : 0 < b := lt_of_lt_of_le ha hab
  have hfl := floorLog2_mono a b ha hab
  have hE : Max.max (JSNum.floorLog2 a) (-1022) ≤ Max.max (JSNum.floorLog2 b) (-1022) :=
    max_le_max hfl (le_refl _)
  unfold JSNum.nearest
  rcases lt_or_eq_of_le hE with hlt | heq
  · have ha2 : a ≤ JSNum.pow2 (Max.max (JSNum.floorLog2 a) (-1022) + 1) :=
      le_trans (floorLog2_spec a ha).2.le (pow2_le _ _ (by
        have := le_max_left (JSNum.floorLog2 a) (-1022)
        omega))
    have hnormal : Max.max (JSNum.floorLog2 b) (-1022) = JSNum.floorLog2 b := by
      have h1 := le_max_right (JSNum.floorLog2 a) (-1022)
      rcases max_cases (JSNum.floorLog2 b) (-1022) with ⟨h, _⟩ | ⟨h, _⟩
      · exact h
      · omega
    have hb2 : JSNum.pow2 (Max.max (JSNum.floorLog2 b) (-1022)) ≤ b := by
      rw [hnormal]
      exact (floorLog2_spec b hb).1
    calc _ ≤ JSNum.pow2 (Max.max (JSNum.floorLog2 a) (-1022) + 1) := scaled_le a _ ha2
      _ ≤ JSNum.pow2 (Max.max (JSNum.floorLog2 b) (-1022)) := pow2_le _ _ (by omega)
      _ ≤ _ := scaled_ge b _ hb2
  · rw [heq]
    have hu := pow2_pos (Max.max (JSNum.floorLog2 b) (-1022) - 52)
    have hq : a / JSNum.pow2 (Max.max (JSNum.floorLog2 b) (-1022) - 52) ≤
        b / JSNum.pow2 (Max.max (JSNum.floorLog2 b) (-1022) - 52) :=
      div_le_div_of_nonneg_right hab hu.le
    have hr := roundHalfEven_mono _ _ hq
    exact mul_le_mul_of_nonneg_right (by exact_mod_cast hr) hu.le

theorem binary64_pos (a : ℚ) (ha : 0 < a) :
    JSNum.binary64 a =
      if JSNum.pow2 1024 ≤ JSNum.nearest a then JSNum.posInf
      else JSNum.fin (JSNum.nearest a) := by
  have hne : a ≠ 0 := ne_of_gt ha
  have hnl : ¬ a < 0 := not_lt.mpr ha.le
  simp only [JSNum.binary64, hne, hnl, if_false, JSNum.nearest]

theorem binary64_neg (a : ℚ) (ha : 0 < a) :
    JSNum.binary64 (-a) =
      if JSNum.pow2 1024 ≤ JSNum.nearest a then JSNum.negInf
      else JSNum.fin (-JSNum.nearest a) := by
  have hne : -a ≠ 0 := by linarith
  have hnl : -a < 0 := by linarith
  simp only [JSNum.binary64, hne, hnl, if_false, if_true, neg_neg, JSNum.nearest]

theorem binary64_zero : JSNum.binary64 0 = JSNum.fin 0 := by
  simp only [JSNum.binary64, if_true]

theorem nearest_nonneg (a : ℚ) (ha : 0 < a) : 0 ≤ JSNum.nearest a := by
  unfold JSNum.nearest
  have hu := pow2_pos (Max.max (JSNum.floorLog2 a) (-1022) - 52)
  have hq : 0 ≤ a / JSNum.pow2 (Max.max (JSNum.floorLog2 a) (-1022) - 52) :=
    div_nonneg ha.le hu.le
  have hr : (0 : ℚ) ≤ (JSNum.roundHalfEven
      (a / JSNum.pow2 (Max.max (JSNum.floorLog2 a) (-1022) - 52)) : ℚ) := by
    exact_mod_cast roundHalfEven_nonneg _ hq
  exact mul_nonneg hr hu.le

/-- In the normal range the rounding error is at most `2^-53` of the value. -/
theorem nearest_rel (a : ℚ) (ha : JSNum.pow2 (-1022) ≤ a) :
    a * (1 - JSNum.pow2 (-53)) ≤ JSNum.nearest a ∧
    JSNum.nearest a ≤ a * (1 + JSNum.pow2 (-53)) := by
  have hpos : 0 < a := lt_of_lt_of_le (pow2_pos _) ha
  have hfl : -1022 ≤ JSNum.floorLog2 a := floorLog2_ge a _ ha
  have hE : Max.max (JSNum.floorLog2 a) (-1022) = JSNum.floorLog2 a := max_eq_left hfl
  unfold JSNum.nearest
  rw [hE]
  have hu := pow2_pos (JSNum.floorLog2 a - 52)
  have hulp : JSNum.pow2 (JSNum.floorLog2 a - 52) ≤ a * (2 * JSNum.pow2 (-53)) := by
    have hsplit : JSNum.pow2 (JSNum.floorLog2 a - 52) =
        JSNum.pow2 (JSNum.floorLog2 a) * (2 * JSNum.pow2 (-53)) := by
      have h2 : (2 : ℚ) = JSNum.pow2 1 := by
        rw [pow2_eq_zpow]
        norm_num
      rw [h2, ← pow2_add, ← pow2_add]
      congr 1
    rw [hsplit]
    exact mul_le_mul_of_nonneg_right (floorLog2_spec a hpos).1
      (mul_nonneg (by norm_num) (pow2_pos _).le)
  have hle := roundHalfEven_le (a / JSNum.pow2 (JSNum.floorLog2 a - 52))
  have hge := roundHalfEven_ge (a / JSNum.pow2 (JSNum.floorLog2 a - 52))
  have hcancel : a / JSNum.pow2 (JSNum.floorLog2 a - 52) *
      JSNum.pow2 (JSNum.floorLog2 a - 52) = a := div_mul_cancel₀ a (ne_of_gt hu)
  have h1 := mul_le_mul_of_nonneg_right hle hu.le
  have h2 := mul_le_mul_of_nonneg_right hge hu.le
  rw [add_mul, hcancel] at h1
  rw [sub_mul, hcancel] at h2
  constructor <;> nlinarith

/-- A positive integer below `2^53` is a binary64 value. -/
theorem nearest_int (z : ℤ) (hpos : 0 < z) (hlt : z < 9007199254740992) :
    JSNum.nearest (z : ℚ) = (z : ℚ) := by
  have hzq : (0 : ℚ) < (z : ℚ) := by exact_mod_cast hpos
  have h1 : JSNum.pow2 0 ≤ (z : ℚ) := by
    rw [pow2_eq_zpow, zpow_zero]
    exact_mod_cast hpos
  have hge : 0 ≤ JSNum.floorLog2 (z : ℚ) := floorLog2_ge _ _ h1
  have hlt53 : JSNum.floorLog2 (z : ℚ) < 53 := by
    apply floorLog2_lt _ _ hzq
    rw [pow2_53]
    exact_mod_cast hlt
  have hE : Max.max (JSNum.floorLog2 (z : ℚ)) (-1022) = JSNum.floorLog2 (z : ℚ) :=
    max_eq_left (by omega)
  unfold JSNum.nearest
  rw [hE]
  generalize JSNum.floorLog2 (z : ℚ) = e at hge hlt53
  have hn : (52 - e) = (((52 - e).toNat : ℕ) : ℤ) := (Int.toNat_of_nonneg (by omega)).symm
  have hinv : JSNum.pow2 (e - 52) * JSNum.pow2 (52 - e) = 1 := by
    rw [← pow2_add]
    have h0 : e - 52 + (52 - e) = 0 := by ring
    rw [h0, pow2_eq_zpow, zpow_zero]
  have hu := pow2_pos (e - 52)
  have hnat : JSNum.pow2 (52 - e) = (((2 ^ (52 - e).toNat : ℕ) : ℤ) : ℚ) := by
    conv_lhs => rw [hn]
    rw [pow2_natCast]
    norm_cast
  have hq : (z : ℚ) / JSNum.pow2 (e - 52) =
      ((z * ((2 ^ (52 - e).toNat : ℕ) : ℤ) : ℤ) : ℚ) := by
    rw [div_eq_iff (ne_of_gt hu)]
    push_cast
    rw [mul_assoc]
    have hnat2 : ((2 : ℚ) ^ (52 - e).toNat) = JSNum.pow2 (52 - e) := by
      rw [hnat]
      push_cast
      rfl
    rw [hnat2, mul_comm (JSNum.pow2 (52 - e)), hinv, mul_one]
  rw [hq, roundHalfEven_intCast, ← hq]
  exact div_mul_cancel₀ _ (ne_of_gt hu)

theorem le_of_fin (x y : ℚ) : JSNum.le (JSNum.fin x) (JSNum.fin y) = true ↔ x ≤ y := by
  simp [JSNum.le]

theorem le_posInf (x : JSNum) (hx : x ≠ JSNum.nan) : JSNum.le x JSNum.posInf = true := by
  cases x <;> simp [JSNum.le] at hx ⊢

theorem le_trans_num (x y z : JSNum) (hxy : JSNum.le x y = true) (hyz : JSNum.le y z = true) :
    JSNum.le x z = true := by
  cases x <;> cases y <;> cases z <;> simp [JSNum.le] at hxy hyz ⊢
  exact le_trans hxy hyz

theorem binary64_ne_nan (a : ℚ) : JSNum.binary64 a ≠ JSNum.nan := by
  unfold JSNum.binary64
  simp only
  split_ifs <;> simp

theorem binary64_nonneg (a : ℚ) (ha : 0 ≤ a) :
    JSNum.le (JSNum.fin 0) (JSNum.binary64 a) = true := by
  rcases eq_or_lt_of_le ha with h0 | hpos
  · rw [← h0, binary64_zero]
    simp [JSNum.le]
  · rw [binary64_pos a hpos]
    split_ifs
    · rfl
    · exact (le_of_fin _ _).mpr (nearest_nonneg a hpos)

theorem binary64_nonpos (a : ℚ) (ha : a ≤ 0) :
    JSNum.le (JSNum.binary64 a) (JSNum.fin 0) = true := by
  rcases eq_or_lt_of_le ha with h0 | hneg
  · rw [h0, binary64_zero]
    simp [JSNum.le]
  · have hpos : 0 < -a := by linarith
    have h := binary64_neg (-a) hpos
    rw [neg_neg] at h
    rw [h]
    split_ifs
    · rfl
    · apply (le_of_fin _ _).mpr
      have := nearest_nonneg (-a) hpos
      linarith

theorem binary64_mono (a b : ℚ) (ha : 0 ≤ a) (hab : a ≤ b) :
    JSNum.le (JSNum.binary64 a) (JSNum.binary64 b) = true := by
  rcases eq_or_lt_of_le ha with h0 | hpos
  · rw [← h0, binary64_zero]
    exact binary64_nonneg b (le_trans ha hab)
  · have hb : 0 < b := lt_of_lt_of_le hpos hab
    have hn := nearest_mono a b hpos hab
    rw [binary64_pos a hpos, binary64_pos b hb]
    by_cases hbo : JSNum.pow2 1024 ≤ JSNum.nearest b
    · simp only [hbo, if_true]
      apply le_posInf
      split_ifs <;> simp
    · have hao : ¬ JSNum.pow2 1024 ≤ JSNum.nearest a := fun hc => hbo (le_trans hc hn)
      simp only [hbo, hao, if_false]
      exact (le_of_fin _ _).mpr hn

theorem literal07_eq : JSNum.binary64 0.7 = JSNum.fin literal07 := by decide!

theorem literal13_eq : JSNum.binary64 1.3 = JSNum.fin literal13 := by decide!

theorem rangeMin_roundToFive (m : JSNum) :
    rangeMin m = JSNum.max (JSNum.fin 0) (roundToFive (JSNum.fin literal07) m) := by
  rw [rangeMin, literal07_eq, roundToFive]

theorem rangeMax_roundToFive (m : JSNum) :
    rangeMax m = JSNum.max (rangeMin m) (roundToFive (JSNum.fin literal13) m) := by
  rw [rangeMax, literal13_eq, roundToFive]

theorem nonneg_cases (x : JSNum) (hx : JSNum.le (JSNum.fin 0) x = true) :
    x = JSNum.posInf ∨ ∃ q : ℚ, x = JSNum.fin q ∧ 0 ≤ q := by
  cases x with
  | nan => simp [JSNum.le] at hx
  | posInf => exact Or.inl rfl
  | negInf => simp [JSNum.le] at hx
  | fin q => exact Or.inr ⟨q, rfl, (le_of_fin 0 q).mp hx⟩

theorem nonpos_cases (x : JSNum) (hx : JSNum.le x (JSNum.fin 0) = true) :
    x = JSNum.negInf ∨ ∃ q : ℚ, x = JSNum.fin q ∧ q ≤ 0 := by
  cases x with
  | nan => simp [JSNum.le] at hx
  | posInf => simp [JSNum.le] at hx
  | negInf => exact Or.inl rfl
  | fin q => exact Or.inr ⟨q, rfl, (le_of_fin q 0).mp hx⟩

theorem mul_posInf (c : ℚ) (hc : 0 < c) :
    JSNum.mul JSNum.posInf (JSNum.fin c) = JSNum.posInf := by
  simp [JSNum.mul, JSNum.sign, hc, JSNum.infOfSign]

theorem mul_negInf (c : ℚ) (hc : 0 < c) :
    JSNum.mul JSNum.negInf (JSNum.fin c) = JSNum.negInf := by
  simp [JSNum.mul, JSNum.sign, hc, JSNum.infOfSign]

theorem div_posInf (c : ℚ) (hc : 0 < c) :
    JSNum.div JSNum.posInf (JSNum.fin c) = JSNum.posInf := by
  simp [JSNum.div, JSNum.sign, not_lt.mpr hc.le, JSNum.infOfSign]

theorem div_negInf (c : ℚ) (hc : 0 < c) :
    JSNum.div JSNum.negInf (JSNum.fin c) = JSNum.negInf := by
  simp [JSNum.div, JSNum.sign, not_lt.mpr hc.le, JSNum.infOfSign]

theorem mul_fin (a c : ℚ) : JSNum.mul (JSNum.fin a) (JSNum.fin c) = JSNum.binary64 (a * c) :=
  rfl

theorem div_fin (a c : ℚ) (hc : 0 < c) :
    JSNum.div (JSNum.fin a) (JSNum.fin c) = JSNum.binary64 (a / c) := by
  simp [JSNum.div, ne_of_gt hc]

theorem mul_mono (c : ℚ) (hc : 0 < c) (x y : JSNum)
    (hx : JSNum.le (JSNum.fin 0) x = true) (hxy : JSNum.le x y = true) :
    JSNum.le (JSNum.mul x (JSNum.fin c)) (JSNum.mul y (JSNum.fin c)) = true ∧
    JSNum.le (JSNum.fin 0) (JSNum.mul x (JSNum.fin c)) = true := by
  rcases nonneg_cases x hx with rfl | ⟨a, rfl, ha⟩
  · have hy : y = JSNum.posInf := by
      cases y <;> simp [JSNum.le] at hxy ⊢
    subst hy
    rw [mul_posInf c hc]
    exact ⟨rfl, rfl⟩
  · have hnn := binary64_nonneg (a * c) (mul_nonneg ha hc.le)
    refine ⟨?_, hnn⟩
    rcases nonneg_cases y (le_trans_num _ _ _ hx hxy) with rfl | ⟨b, rfl, _⟩
    · rw [mul_posInf c hc, mul_fin]
      exact le_posInf _ (binary64_ne_nan _)
    · rw [mul_fin, mul_fin]
      exact binary64_mono _ _ (mul_nonneg ha hc.le)
        (mul_le_mul_of_nonneg_right ((le_of_fin a b).mp hxy) hc.le)

theorem div_mono (c : ℚ) (hc : 0 < c) (x y : JSNum)
    (hx : JSNum.le (JSNum.fin 0) x = true) (hxy : JSNum.le x y = true) :
    JSNum.le (JSNum.div x (JSNum.fin c)) (JSNum.div y (JSNum.fin c)) = true ∧
    JSNum.le (JSNum.fin 0) (JSNum.div x (JSNum.fin c)) = true := by
  rcases nonneg_cases x hx with rfl | ⟨a, rfl, ha⟩
  · have hy : y = JSNum.posInf := by
      cases y <;> simp [JSNum.le] at hxy ⊢
    subst hy
    rw [div_posInf c hc]
    exact ⟨rfl, rfl⟩
  · have hnn := binary64_nonneg (a / c) (div_nonneg ha hc.le)
    rw [div_fin a c hc]
    refine ⟨?_, hnn⟩
    rcases nonneg_cases y (le_trans_num _ _ _ hx hxy) with rfl | ⟨b, rfl, _⟩
    · rw [div_posInf c hc]
      exact le_posInf _ (binary64_ne_nan _)
    · rw [div_fin b c hc]
      exact binary64_mono _ _ (div_nonneg ha hc.le)
        (div_le_div_of_nonneg_right ((le_of_fin a b).mp hxy) hc.le)

theorem round_mono (x y : JSNum)
    (hx : JSNum.le (JSNum.fin 0) x = true) (hxy : JSNum.le x y = true) :
    JSNum.le (JSNum.round x) (JSNum.round y) = true ∧
    JSNum.le (JSNum.fin 0) (JSNum.round x) = true := by
  rcases nonneg_cases x hx with rfl | ⟨a, rfl, ha⟩
  · have hy : y = JSNum.posInf := by
      cases y <;> simp [JSNum.le] at hxy ⊢
    subst hy
    exact ⟨rfl, rfl⟩
  · have hfl : (0 : ℤ) ≤ ⌊a + 1 / 2⌋ := Int.floor_nonneg.mpr (by linarith)
    have hnn : JSNum.le (JSNum.fin 0) (JSNum.round (JSNum.fin a)) = true := by
      rw [JSNum.round, le_of_fin]
      exact_mod_cast hfl
    refine ⟨?_, hnn⟩
    rcases nonneg_cases y (le_trans_num _ _ _ hx hxy) with rfl | ⟨b, rfl, _⟩
    · exact le_posInf _ (by simp [JSNum.round])
    · rw [JSNum.round, JSNum.round, le_of_fin]
      have hab := (le_of_fin a b).mp hxy
      exact_mod_cast Int.floor_mono (by linarith : a + 1 / 2 ≤ b + 1 / 2)

theorem roundToFive_mono (c : ℚ) (hc : 0 < c) (x y : JSNum)
    (hx : JSNum.le (JSNum.fin 0) x = true) (hxy : JSNum.le x y = true) :
    JSNum.le (roundToFive (JSNum.fin c) x) (roundToFive (JSNum.fin c) y) = true ∧
    JSNum.le (JSNum.fin 0) (roundToFive (JSNum.fin c) x) = true := by
  obtain ⟨h1, h1n⟩ := mul_mono c hc x y hx hxy
  obtain ⟨h2, h2n⟩ := div_mono 5 (by norm_num) _ _ h1n h1
  obtain ⟨h3, h3n⟩ := round_mono _ _ h2n h2
  exact mul_mono 5 (by norm_num) _ _ h3n h3

/-! ## Claim C18: the bounds of the synthesized range -/

theorem mul_nonpos_num (c : ℚ) (hc : 0 < c) (x : JSNum)
    (hx : JSNum.le x (JSNum.fin 0) = true) :
    JSNum.le (JSNum.mul x (JSNum.fin c)) (JSNum.fin 0) = true := by
  rcases nonpos_cases x hx with rfl | ⟨a, rfl, ha⟩
  · rw [mul_negInf c hc]
    rfl
  · rw [mul_fin]
    exact binary64_nonpos _ (mul_nonpos_of_nonpos_of_nonneg ha hc.le)

theorem div_nonpos_num (c : ℚ) (hc : 0 < c) (x : JSNum)
    (hx : JSNum.le x (JSNum.fin 0) = true) :
    JSNum.le (JSNum.div x (JSNum.fin c)) (JSNum.fin 0) = true := by
  rcases nonpos_cases x hx with rfl | ⟨a, rfl, ha⟩
  · rw [div_negInf c hc]
    rfl
  · rw [div_fin a c hc]
    exact binary64_nonpos _ (div_nonpos_of_nonpos_of_nonneg ha hc.le)

theorem round_nonpos_num (x : JSNum) (hx : JSNum.le x (JSNum.fin 0) = true) :
    JSNum.le (JSNum.round x) (JSNum.fin 0) = true := by
  rcases nonpos_cases x hx with rfl | ⟨a, rfl, ha⟩
  · rfl
  · rw [JSNum.round, le_of_fin]
    have hfl : ⌊a + 1 / 2⌋ < 1 := Int.floor_lt.mpr (by push_cast; linarith)
    have hle : ⌊a + 1 / 2⌋ ≤ 0 := by omega
    exact_mod_cast hle

theorem roundToFive_nonpos (c : ℚ) (hc : 0 < c) (x : JSNum)
    (hx : JSNum.le x (JSNum.fin 0) = true) :
    JSNum.le (roundToFive (JSNum.fin c) x) (JSNum.fin 0) = true :=
  mul_nonpos_num 5 (by norm_num) _
    (round_nonpos_num _ (div_nonpos_num 5 (by norm_num) _ (mul_nonpos_num c hc x hx)))

theorem max_zero_nonpos (x : JSNum) (hx : JSNum.le x (JSNum.fin 0) = true) :
    JSNum.max (JSNum.fin 0) x = JSNum.fin 0 := by
  rcases nonpos_cases x hx with rfl | ⟨a, rfl, ha⟩
  · rfl
  · simp only [JSNum.max]
    split_ifs with h0
    · rw [le_antisymm ha h0]
    · rfl

theorem ne_nan_of_le_left (x y : JSNum) (hxy : JSNum.le x y = true) : x ≠ JSNum.nan := by
  cases x <;> simp [JSNum.le] at hxy ⊢

theorem ne_nan_of_le_right (x y : JSNum) (hxy : JSNum.le x y = true) : y ≠ JSNum.nan := by
  cases x <;> cases y <;> simp [JSNum.le] at hxy ⊢

theorem le_max_left_num (a b : JSNum) (ha : a ≠ JSNum.nan) (hb : b ≠ JSNum.nan) :
    JSNum.le a (JSNum.max a b) = true := by
  cases a <;> cases b <;> simp [JSNum.le, JSNum.max] at ha hb ⊢
  split_ifs with hab
  · exact hab
  · exact le_refl _

theorem le_max_right_num (a b : JSNum) (ha : a ≠ JSNum.nan) (hb : b ≠ JSNum.nan) :
    JSNum.le b (JSNum.max a b) = true := by
  cases a <;> cases b <;> simp [JSNum.le, JSNum.max] at ha hb ⊢
  split_ifs with hab
  · exact le_refl _
  · exact (not_le.mp hab).le

theorem max_mono_num (a b a2 b2 : JSNum) (ha : JSNum.le a a2 = true)
    (hb : JSNum.le b b2 = true) : JSNum.le (JSNum.max a b) (JSNum.max a2 b2) = true := by
  cases a <;> cases b <;> cases a2 <;> cases b2 <;>
    simp [JSNum.le, JSNum.max] at ha hb ⊢ <;>
    first
    | assumption
    | (split_ifs <;> linarith)

theorem roundToFive_ne_nan (c : ℚ) (hc : 0 < c) (m : ℚ) :
    roundToFive (JSNum.fin c) (JSNum.fin m) ≠ JSNum.nan := by
  rcases le_total 0 m with hm | hm
  · exact ne_nan_of_le_right _ _
      (roundToFive_mono c hc (JSNum.fin m) (JSNum.fin m) ((le_of_fin 0 m).mpr hm)
        ((le_of_fin m m).mpr (le_refl m))).2
  · exact ne_nan_of_le_left _ _ (roundToFive_nonpos c hc (JSNum.fin m) ((le_of_fin m 0).mpr hm))

theorem pow2_53_le_1024 : JSNum.pow2 53 ≤ JSNum.pow2 1024 := pow2_le _ _ (by norm_num)

theorem binary64_bounded (a : ℚ) (B : ℤ) (ha : 0 ≤ a) (hB : a ≤ (B : ℚ))
    (hB53 : B < 9007199254740992) :
    ∃ r : ℚ, JSNum.binary64 a = JSNum.fin r ∧ 0 ≤ r ∧ r ≤ (B : ℚ) := by
  rcases eq_or_lt_of_le ha with h0 | hpos
  · exact ⟨0, by rw [← h0, binary64_zero], le_refl 0, by rw [← h0] at hB; exact hB⟩
  · have hBpos : 0 < B := by
      have : (0 : ℚ) < (B : ℚ) := lt_of_lt_of_le hpos hB
      exact_mod_cast this
    have hn : JSNum.nearest a ≤ (B : ℚ) := by
      have := nearest_mono a (B : ℚ) hpos hB
      rwa [nearest_int B hBpos hB53] at this
    have hlt : (B : ℚ) < JSNum.pow2 1024 := by
      have h53 : (B : ℚ) < JSNum.pow2 53 := by
        rw [pow2_53]
        exact_mod_cast hB53
      exact lt_of_lt_of_le h53 pow2_53_le_1024
    refine ⟨JSNum.nearest a, ?_, nearest_nonneg a hpos, hn⟩
    rw [binary64_pos a hpos, if_neg (not_le.mpr (lt_of_le_of_lt hn hlt))]

theorem binary64_int_nonneg (k : ℤ) (hk : 0 ≤ k) (hlt : k < 9007199254740992) :
    JSNum.binary64 (k : ℚ) = JSNum.fin (k : ℚ) := by
  rcases eq_or_lt_of_le hk with h0 | hpos
  · rw [← h0, Int.cast_zero, binary64_zero]
  · have hq : (0 : ℚ) < (k : ℚ) := by exact_mod_cast hpos
    have hlt2 : (k : ℚ) < JSNum.pow2 1024 := by
      have h53 : (k : ℚ) < JSNum.pow2 53 := by
        rw [pow2_53]
        exact_mod_cast hlt
      exact lt_of_lt_of_le h53 pow2_53_le_1024
    rw [binary64_pos _ hq, nearest_int k hpos hlt, if_neg (not_le.mpr hlt2)]

/-- For minutes up to `10^15` the product `Math.round((minutes * c) / 5) * 5` is exact: five
times an integer. -/
theorem roundToFive_bounded (c : ℚ) (hc : 0 < c) (m : ℚ) (hm : 0 ≤ m)
    (hB : m * c ≤ 1300000000000001) :
    ∃ k : ℤ, 0 ≤ k ∧ roundToFive (JSNum.fin c) (JSNum.fin m) = JSNum.fin ((5 * k : ℤ) : ℚ) := by
  obtain ⟨p, hp, hp0, hpB⟩ := binary64_bounded (m * c) 1300000000000001
    (mul_nonneg hm hc.le) (by exact_mod_cast hB) (by norm_num)
  obtain ⟨q, hq, hq0, hqB⟩ := binary64_bounded (p / 5) 260000000000001
    (div_nonneg hp0 (by norm_num)) (by push_cast at hpB ⊢; linarith) (by norm_num)
  have hk0 : (0 : ℤ) ≤ ⌊q + 1 / 2⌋ := Int.floor_nonneg.mpr (by linarith)
  have hkB : ⌊q + 1 / 2⌋ < 260000000000002 :=
    Int.floor_lt.mpr (by push_cast at hqB ⊢; linarith)
  refine ⟨⌊q + 1 / 2⌋, hk0, ?_⟩
  rw [roundToFive, mul_fin, hp, div_fin p 5 (by norm_num), hq, JSNum.round, mul_fin]
  have hcast : ((⌊q + 1 / 2⌋ : ℤ) : ℚ) * 5 = ((5 * ⌊q + 1 / 2⌋ : ℤ) : ℚ) := by
    push_cast
    ring
  rw [hcast]
  exact binary64_int_nonneg _ (by omega) (by omega)

theorem isMultipleOf5_int (k : ℤ) :
    JSNum.isMultipleOf5 (JSNum.fin ((5 * k : ℤ) : ℚ)) = true := by
  simp only [JSNum.isMultipleOf5, Rat.intCast_den, Rat.intCast_num, Int.mul_emod_right,
    and_self, decide_True]

theorem zero_toJSString (shortest : ℚ → String) :
    (JSNum.fin 0).toJSString shortest = "0" := by
  have hz := toJSString_int shortest 0 (by decide)
  rw [Int.cast_zero] at hz
  rw [hz]
  rfl

theorem literal07_pos : 0 < literal07 := by
  unfold literal07
  norm_num

theorem literal13_pos : 0 < literal13 := by
  unfold literal13
  norm_num

theorem rangeMin_nonneg (m : ℚ) : JSNum.le (JSNum.fin 0) (rangeMin (JSNum.fin m)) = true := by
  rw [rangeMin_roundToFive]
  exact le_max_left_num _ _ (by simp) (roundToFive_ne_nan _ literal07_pos m)

theorem rangeMin_le_rangeMax (m : ℚ) :
    JSNum.le (rangeMin (JSNum.fin m)) (rangeMax (JSNum.fin m)) = true := by
  rw [rangeMax_roundToFive]
  exact le_max_left_num _ _ (ne_nan_of_le_right _ _ (rangeMin_nonneg m))
    (roundToFive_ne_nan _ literal13_pos m)

theorem range_nonpos (m : ℚ) (hm : m ≤ 0) :
    rangeMin (JSNum.fin m) = JSNum.fin 0 ∧ rangeMax (JSNum.fin m) = JSNum.fin 0 := by
  have hmin : rangeMin (JSNum.fin m) = JSNum.fin 0 := by
    rw [rangeMin_roundToFive]
    exact max_zero_nonpos _
      (roundToFive_nonpos _ literal07_pos _ ((le_of_fin m 0).mpr hm))
  refine ⟨hmin, ?_⟩
  rw [rangeMax_roundToFive, hmin]
  exact max_zero_nonpos _
    (roundToFive_nonpos _ literal13_pos _ ((le_of_fin m 0).mpr hm))

theorem range_mono (m m2 : ℚ) (hmm : m ≤ m2) :
    JSNum.le (rangeMin (JSNum.fin m)) (rangeMin (JSNum.fin m2)) = true ∧
    JSNum.le (rangeMax (JSNum.fin m)) (rangeMax (JSNum.fin m2)) = true := by
  rcases le_or_lt m 0 with hm | hm
  · obtain ⟨h1, h2⟩ := range_nonpos m hm
    rw [h1, h2]
    exact ⟨rangeMin_nonneg m2,
      le_trans_num _ _ _ (rangeMin_nonneg m2) (rangeMin_le_rangeMax m2)⟩
  · have hx : JSNum.le (JSNum.fin 0) (JSNum.fin m) = true := (le_of_fin 0 m).mpr hm.le
    have hxy : JSNum.le (JSNum.fin m) (JSNum.fin m2) = true := (le_of_fin m m2).mpr hmm
    have hmin : JSNum.le (rangeMin (JSNum.fin m)) (rangeMin (JSNum.fin m2)) = true := by
      rw [rangeMin_roundToFive, rangeMin_roundToFive]
      exact max_mono_num _ _ _ _ ((le_of_fin 0 0).mpr (le_refl 0))
        (roundToFive_mono _ literal07_pos _ _ hx hxy).1
    refine ⟨hmin, ?_⟩
    rw [rangeMax_roundToFive, rangeMax_roundToFive]
    exact max_mono_num _ _ _ _ hmin (roundToFive_mono _ literal13_pos _ _ hx hxy).1

theorem range_multiples (m : ℚ) (hm : m ≤ 1000000000000000) :
    (rangeMin (JSNum.fin m)).isMultipleOf5 = true ∧
    (rangeMax (JSNum.fin m)).isMultipleOf5 = true := by
  have hzero : JSNum.isMultipleOf5 (JSNum.fin 0) = true := by
    have := isMultipleOf5_int 0
    simpa using this
  rcases le_or_lt m 0 with hneg | hpos
  · obtain ⟨h1, h2⟩ := range_nonpos m hneg
    rw [h1, h2]
    exact ⟨hzero, hzero⟩
  · obtain ⟨k1, hk1, hr1⟩ := roundToFive_bounded literal07 literal07_pos m hpos.le (by
      unfold literal07
      linarith)
    obtain ⟨k2, hk2, hr2⟩ := roundToFive_bounded literal13 literal13_pos m hpos.le (by
      unfold literal13
      linarith)
    have hmin : rangeMin (JSNum.fin m) = JSNum.fin ((5 * k1 : ℤ) : ℚ) := by
      rw [rangeMin_roundToFive, hr1]
      simp only [JSNum.max]
      rw [if_pos (by exact_mod_cast (by omega : (0 : ℤ) ≤ 5 * k1))]
    refine ⟨by rw [hmin]; exact isMultipleOf5_int k1, ?_⟩
    rw [rangeMax_roundToFive, hmin, hr2]
    simp only [JSNum.max]
    split_ifs
    · exact isMultipleOf5_int k2
    · exact isMultipleOf5_int k1

/-- C18, counterexample: for the finite value `m = 7 * 2^1021` (about `1.57e308`) the product
`m * 1.3` overflows and the upper bound is `+Infinity`; for `m = 10^17` the lower bound is
the binary64 number 69999999999999992.  Neither is an integer multiple of 5.  Both values
of `m` are binary64 numbers. -/
theorem C18_counterexample :
    JSNum.binary64 (7 * 2 ^ 1021) = JSNum.fin (7 * 2 ^ 1021) ∧
    JSNum.binary64 (10 ^ 17) = JSNum.fin (10 ^ 17) ∧
    rangeMax (JSNum.fin (7 * 2 ^ 1021)) = JSNum.posInf ∧
    (rangeMax (JSNum.fin (7 * 2 ^ 1021))).isMultipleOf5 = false ∧
    rangeMin (JSNum.fin (10 ^ 17)) = JSNum.fin 69999999999999992 ∧
    (rangeMin (JSNum.fin (10 ^ 17))).isMultipleOf5 = false := by
  decide!

/-- C18 (amended): for every finite minutes value `m` (negative and fractional values
included) the bounds synthesized by `getRangeString` satisfy `0 ≤ lower ≤ upper`, where
`upper` may be `+Infinity`; for every `m ≤ 10^15` both bounds are integer multiples of 5; for
every `m ≤ 0` both bounds are `0` and the result is `"0–0 min"`; and both bounds are monotone
non-decreasing in `m`. -/
theorem C18_range_bounds (h : Host) (m : ℚ) :
    (∀ fields, (∀ c ∈ rangeFields (JSVal.obj fields), c.truthy = false) →
      getRangeString h (JSVal.obj fields) (some (JSNum.fin m)) =
        Except.ok ((rangeMin (JSNum.fin m)).toJSString h.shortest ++ "–" ++
          (rangeMax (JSNum.fin m)).toJSString h.shortest ++ " min")) ∧
    JSNum.le (JSNum.fin 0) (rangeMin (JSNum.fin m)) = true ∧
    JSNum.le (rangeMin (JSNum.fin m)) (rangeMax (JSNum.fin m)) = true ∧
    (m ≤ 1000000000000000 →
      (rangeMin (JSNum.fin m)).isMultipleOf5 = true ∧
      (rangeMax (JSNum.fin m)).isMultipleOf5 = true) ∧
    (m ≤ 0 →
      rangeMin (JSNum.fin m) = JSNum.fin 0 ∧ rangeMax (JSNum.fin m) = JSNum.fin 0 ∧
      ∀ fields, (∀ c ∈ rangeFields (JSVal.obj fields), c.truthy = false) →
        getRangeString h (JSVal.obj fields) (some (JSNum.fin m)) = Except.ok "0–0 min") ∧
    (∀ m2 : ℚ, m ≤ m2 →
      JSNum.le (rangeMin (JSNum.fin m)) (rangeMin (JSNum.fin m2)) = true ∧
      JSNum.le (rangeMax (JSNum.fin m)) (rangeMax (JSNum.fin m2)) = true) := by
  have hstr : ∀ fields, (∀ c ∈ rangeFields (JSVal.obj fields), c.truthy = false) →
      getRangeString h (JSVal.obj fields) (some (JSNum.fin m)) =
        Except.ok ((rangeMin (JSNum.fin m)).toJSString h.shortest ++ "–" ++
          (rangeMax (JSNum.fin m)).toJSString h.shortest ++ " min") := by
    intro fields hnone
    rw [getRangeString_synth h fields m hnone]
  refine ⟨hstr, rangeMin_nonneg m, rangeMin_le_rangeMax m, range_multiples m, fun hm => ?_,
    fun m2 hmm => range_mono m m2 hmm⟩
  obtain ⟨h1, h2⟩ := range_nonpos m hm
  refine ⟨h1, h2, fun fields hnone => ?_⟩
  rw [hstr fields hnone, h1, h2, zero_toJSString]
  rfl

/-- C18 (amended), at `m = -3`, where the range is `"0–0 min"`, at `m = 10`, whose bounds 5
and 15 are multiples of 5, and from `m = 10` to `m = 175`. -/
theorem C18_range_bounds_witness :
    getRangeString exampleHost (JSVal.obj []) (some (JSNum.fin (-3))) = Except.ok "0–0 min" ∧
    ((rangeMin (JSNum.fin 10)).isMultipleOf5 = true ∧
      (rangeMax (JSNum.fin 10)).isMultipleOf5 = true) ∧
    (JSNum.le (rangeMin (JSNum.fin 10)) (rangeMin (JSNum.fin 175)) = true ∧
      JSNum.le (rangeMax (JSNum.fin 10)) (rangeMax (JSNum.fin 175)) = true) :=
  ⟨((C18_range_bounds exampleHost (-3)).2.2.2.2.1 (by norm_num)).2.2 []
      (fun c hc => by
        simp only [rangeFields, JSVal.field, List.lookup_nil, Option.getD_none,
          List.mem_cons, List.mem_singleton, List.not_mem_nil, or_false, or_self] at hc
        rw [hc]
        rfl),
    (C18_range_bounds exampleHost 10).2.2.2.1 (by norm_num),
    (C18_range_bounds exampleHost 10).2.2.2.2.2 175 (by norm_num)⟩

/-! ## Claim C16 -/

theorem pow2_neg53 : JSNum.pow2 (-53) = 1 / 9007199254740992 := by
  rw [pow2_eq_zpow]
  norm_num

theorem pow2_neg1022_le_one : JSNum.pow2 (-1022) ≤ 1 := by
  have h := pow2_le (-1022) 0 (by norm_num)
  rwa [pow2_eq_zpow 0, zpow_zero] at h

/-- A value from 1 on is rounded with a relative error of at most `2^-53`, or overflows. -/
theorem binary64_normal (a : ℚ) (ha : 1 ≤ a) :
    JSNum.binary64 a = JSNum.posInf ∨
    ∃ r : ℚ, JSNum.binary64 a = JSNum.fin r ∧
      a * (1 - 1 / 9007199254740992) ≤ r ∧ r ≤ a * (1 + 1 / 9007199254740992) := by
  have hpos : 0 < a := by linarith
  obtain ⟨h1, h2⟩ := nearest_rel a (le_trans pow2_neg1022_le_one ha)
  rw [pow2_neg53] at h1 h2
  rw [binary64_pos a hpos]
  split_ifs
  · exact Or.inl rfl
  · exact Or.inr ⟨_, rfl, h1, h2⟩

/-- A value from 1 on whose rounding stays below `2^1024` is rounded to a finite number. -/
theorem binary64_normal_fin (a : ℚ) (ha : 1 ≤ a)
    (hlt : a * (1 + 1 / 9007199254740992) < JSNum.pow2 1024) :
    ∃ r : ℚ, JSNum.binary64 a = JSNum.fin r ∧
      a * (1 - 1 / 9007199254740992) ≤ r ∧ r ≤ a * (1 + 1 / 9007199254740992) := by
  have hpos : 0 < a := by linarith
  obtain ⟨h1, h2⟩ := nearest_rel a (le_trans pow2_neg1022_le_one ha)
  rw [pow2_neg53] at h1 h2
  rw [binary64_pos a hpos, if_neg (not_le.mpr (lt_of_le_of_lt h2 hlt))]
  exact ⟨_, rfl, h1, h2⟩

/-- From 10 minutes on the lower bound is at most the estimate. -/
theorem rangeMin_le_of_ge_ten (m : ℚ) (hm : 10 ≤ m) (hfin : m < JSNum.pow2 1024) :
    JSNum.le (rangeMin (JSNum.fin m)) (JSNum.fin m) = true := by
  obtain ⟨p, hp, hp1, hp2⟩ := binary64_normal_fin (m * literal07)
    (by unfold literal07; linarith) (by unfold literal07; linarith)
  unfold literal07 at hp1 hp2
  obtain ⟨q, hq, hq1, hq2⟩ := binary64_normal_fin (p / 5) (by linarith) (by linarith)
  have hk1 : ((⌊q + 1 / 2⌋ : ℤ) : ℚ) ≤ q + 1 / 2 := Int.floor_le _
  have hk0 : (1 : ℤ) ≤ ⌊q + 1 / 2⌋ := Int.le_floor.mpr (by push_cast; linarith)
  have hk0q : (1 : ℚ) ≤ ((⌊q + 1 / 2⌋ : ℤ) : ℚ) := by exact_mod_cast hk0
  obtain ⟨l, hl, hl1, hl2⟩ := binary64_normal_fin (((⌊q + 1 / 2⌋ : ℤ) : ℚ) * 5)
    (by linarith) (by linarith)
  rw [rangeMin_roundToFive, roundToFive, mul_fin, hp, div_fin p 5 (by norm_num), hq,
    JSNum.round, mul_fin, hl]
  simp only [JSNum.max]
  rw [le_of_fin]
  split_ifs <;> linarith

/-- From 10 minutes on the upper bound is at least the estimate. -/
theorem rangeMax_ge_of_ge_ten (m : ℚ) (hm : 10 ≤ m) :
    JSNum.le (JSNum.fin m) (rangeMax (JSNum.fin m)) = true := by
  have hmin := ne_nan_of_le_right _ _ (rangeMin_nonneg m)
  have hround : JSNum.round JSNum.posInf = JSNum.posInf := rfl
  have hkey : JSNum.le (JSNum.fin m) (roundToFive (JSNum.fin literal13) (JSNum.fin m)) =
      true := by
    rw [roundToFive, mul_fin]
    rcases binary64_normal (m * literal13) (by unfold literal13; linarith) with
      hp | ⟨p, hp, hp1, hp2⟩
    · rw [hp, div_posInf 5 (by norm_num), hround, mul_posInf 5 (by norm_num)]
      rfl
    · unfold literal13 at hp1 hp2
      rw [hp, div_fin p 5 (by norm_num)]
      rcases binary64_normal (p / 5) (by linarith) with hq | ⟨q, hq, hq1, hq2⟩
      · rw [hq, hround, mul_posInf 5 (by norm_num)]
        rfl
      · rw [hq, JSNum.round, mul_fin]
        have hk1 : q + 1 / 2 < ((⌊q + 1 / 2⌋ : ℤ) : ℚ) + 1 := Int.lt_floor_add_one _
        have hk0 : (1 : ℤ) ≤ ⌊q + 1 / 2⌋ := Int.le_floor.mpr (by push_cast; linarith)
        have hk0q : (1 : ℚ) ≤ ((⌊q + 1 / 2⌋ : ℤ) : ℚ) := by exact_mod_cast hk0
        rcases binary64_normal (((⌊q + 1 / 2⌋ : ℤ) : ℚ) * 5) (by linarith) with
          hl | ⟨l, hl, hl1, hl2⟩
        · rw [hl]
          rfl
        · rw [hl, le_of_fin]
          linarith
  rw [rangeMax_roundToFive]
  exact le_trans_num _ _ _ hkey
    (le_max_right_num _ _ hmin (ne_nan_of_le_right _ _ hkey))

theorem range_grid :
    rangeMin (JSNum.fin (7 / 2)) = JSNum.fin 0 ∧ rangeMax (JSNum.fin 2) = JSNum.fin 5 ∧
    rangeMin (JSNum.fin 5) = JSNum.fin 5 ∧ rangeMax (JSNum.fin 5) = JSNum.fin 5 ∧
    rangeMin (JSNum.fin 10) = JSNum.fin 5 ∧ rangeMax (JSNum.fin 6) = JSNum.fin 10 := by
  decide!

/-- C16, counterexample: for `m = 1` the range is `"0–0 min"`, whose upper bound 0 is below
the estimate, and for `m = 4` it is `"5–5 min"`, whose lower bound 5 is above it. -/
theorem C16_counterexample :
    getRangeString exampleHost (JSVal.obj [("WaitTime", JSVal.num (JSNum.fin 1))])
      (some (JSNum.fin 1)) = Except.ok "0–0 min" ∧
    rangeMax (JSNum.fin 1) = JSNum.fin 0 ∧
    JSNum.le (JSNum.fin 1) (rangeMax (JSNum.fin 1)) = false ∧
    getRangeString exampleHost (JSVal.obj [("WaitTime", JSVal.num (JSNum.fin 4))])
      (some (JSNum.fin 4)) = Except.ok "5–5 min" ∧
    rangeMin (JSNum.fin 4) = JSNum.fin 5 ∧
    JSNum.le (rangeMin (JSNum.fin 4)) (JSNum.fin 4) = false := by
  decide!

/-- C16 (amended): for every record whose range is synthesized from a finite non-negative
minutes value `m` (no truthy pre-formatted range field) with `m = 0`, `2 ≤ m ≤ 3.5`, `m = 5`
or `m ≥ 6` - every non-negative integer other than 1 and 4 is one - the rendered bounds
enclose the estimate: `lower ≤ m ≤ upper`, where `upper` is `+Infinity` when `m * 1.3`
overflows.  A finite number is below `2^1024`. -/
theorem C16_range_encloses (h : Host) (m : ℚ) (hfin : m < JSNum.pow2 1024)
    (hm : m = 0 ∨ (2 ≤ m ∧ m ≤ 7 / 2) ∨ m = 5 ∨ 6 ≤ m) :
    (∀ fields, (∀ c ∈ rangeFields (JSVal.obj fields), c.truthy = false) →
      getRangeString h (JSVal.obj fields) (some (JSNum.fin m)) =
        Except.ok ((rangeMin (JSNum.fin m)).toJSString h.shortest ++ "–" ++
          (rangeMax (JSNum.fin m)).toJSString h.shortest ++ " min")) ∧
    JSNum.le (rangeMin (JSNum.fin m)) (JSNum.fin m) = true ∧
    JSNum.le (JSNum.fin m) (rangeMax (JSNum.fin m)) = true := by
  obtain ⟨g1, g2, g3, g4, g5, g6⟩ := range_grid
  refine ⟨fun fields hnone => ?_, ?_⟩
  · rw [getRangeString_synth h fields m hnone]
  rcases hm with h0 | ⟨h2, h35⟩ | h5 | h6
  · subst h0
    obtain ⟨hmin, hmax⟩ := range_nonpos 0 (le_refl 0)
    rw [hmin, hmax]
    exact ⟨(le_of_fin 0 0).mpr (le_refl 0), (le_of_fin 0 0).mpr (le_refl 0)⟩
  · constructor
    · have hmono := (range_mono m (7 / 2) h35).1
      rw [g1] at hmono
      exact le_trans_num _ _ _ hmono ((le_of_fin 0 m).mpr (by linarith))
    · have hmono := (range_mono 2 m h2).2
      rw [g2] at hmono
      exact le_trans_num _ _ _ ((le_of_fin m 5).mpr (by linarith)) hmono
  · subst h5
    rw [g3, g4]
    exact ⟨(le_of_fin 5 5).mpr (le_refl 5), (le_of_fin 5 5).mpr (le_refl 5)⟩
  · rcases le_total m 10 with h10 | h10
    · constructor
      · have hmono := (range_mono m 10 h10).1
        rw [g5] at hmono
        exact le_trans_num _ _ _ hmono ((le_of_fin 5 m).mpr (by linarith))
      · have hmono := (range_mono 6 m h6).2
        rw [g6] at hmono
        exact le_trans_num _ _ _ ((le_of_fin m 10).mpr h10) hmono
    · exact ⟨rangeMin_le_of_ge_ten m h10 hfin, rangeMax_ge_of_ge_ten m h10⟩

/-- C16 (amended), at `m = 10`, where the range is `"5–15 min"`, and at `m = 175`, where the
bounds are 120 and 230. -/
theorem C16_range_encloses_witness :
    getRangeString exampleHost (JSVal.obj []) (some (JSNum.fin 10)) =
      Except.ok "5–15 min" ∧
    (JSNum.le (rangeMin (JSNum.fin 10)) (JSNum.fin 10) = true ∧
      JSNum.le (JSNum.fin 10) (rangeMax (JSNum.fin 10)) = true) ∧
    (JSNum.le (rangeMin (JSNum.fin 175)) (JSNum.fin 175) = true ∧
      JSNum.le (JSNum.fin 175) (rangeMax (JSNum.fin 175)) = true) := by
  have hlt : ∀ q : ℚ, q ≤ 1000 → q < JSNum.pow2 1024 := by
    intro q hq
    have h53 : (1000 : ℚ) < JSNum.pow2 53 := by
      rw [pow2_53]
      norm_num
    exact lt_of_le_of_lt hq (lt_of_lt_of_le h53 pow2_53_le_1024)
  refine ⟨by decide!,
    (C16_range_encloses exampleHost 10 (hlt 10 (by norm_num))
      (Or.inr (Or.inr (Or.inr (by norm_num))))).2,
    (C16_range_encloses exampleHost 175 (hlt 175 (by norm_num))
      (Or.inr (Or.inr (Or.inr (by norm_num))))).2⟩

/-! ## Claim C3: the synthesized range against the exact formula -/

theorem pow2_neg1022_le_sixteenth : JSNum.pow2 (-1022) ≤ 1 / 16 := by
  have h := pow2_le (-1022) (-4) (by norm_num)
  have h4 : JSNum.pow2 (-4) = 1 / 16 := by
    rw [pow2_eq_zpow]
    norm_num
  rwa [h4] at h

theorem lt_pow2_1024 (t : ℚ) (ht : t < 9007199254740992) : t < JSNum.pow2 1024 := by
  have h53 : t < JSNum.pow2 53 := by
    rw [pow2_53]
    exact_mod_cast ht
  exact lt_of_lt_of_le h53 pow2_53_le_1024

/-- A value between a sixteenth and `2^53` is rounded to a finite number with a relative
error of at most `2^-53`. -/
theorem binary64_rel (a : ℚ) (ha : 1 / 16 ≤ a) (hB : a ≤ 4503599627370496) :
    ∃ r : ℚ, JSNum.binary64 a = JSNum.fin r ∧
      a * (1 - 1 / 9007199254740992) ≤ r ∧ r ≤ a * (1 + 1 / 9007199254740992) := by
  have hpos : 0 < a := by linarith
  obtain ⟨h1, h2⟩ := nearest_rel a (le_trans pow2_neg1022_le_sixteenth ha)
  rw [pow2_neg53] at h1 h2
  have hlt : JSNum.nearest a < JSNum.pow2 1024 := lt_pow2_1024 _ (by linarith)
  rw [binary64_pos a hpos, if_neg (not_le.mpr hlt)]
  exact ⟨_, rfl, h1, h2⟩

/-- Where the exact quotient `m * c / 5` keeps clear of a tie, the binary64 computation of
`Math.round((m * c) / 5) * 5` is five times the nearest integer. -/
theorem roundToFive_of_margin (c m : ℚ) (K : ℤ) (hK0 : 0 ≤ K) (hKB : K < 1000000000000000)
    (hx : 1 / 2 ≤ m * c) (hxB : m * c ≤ 10000000000000)
    (hlo : (K : ℚ) - 1 / 2 ≤ m * c / 5 * (1 - 1 / 1000000000000000))
    (hhi : m * c / 5 * (1 + 1 / 1000000000000000) < (K : ℚ) + 1 / 2) :
    roundToFive (JSNum.fin c) (JSNum.fin m) = JSNum.fin ((5 * K : ℤ) : ℚ) := by
  rw [roundToFive, mul_fin]
  generalize m * c = x at hx hxB hlo hhi
  obtain ⟨p, hp, hp1, hp2⟩ := binary64_rel x (by linarith) (by linarith)
  obtain ⟨q, hq, hq1, hq2⟩ := binary64_rel (p / 5) (by linarith) (by linarith)
  have hfloor : ⌊q + 1 / 2⌋ = K := by
    rw [Int.floor_eq_iff]
    constructor
    · linarith
    · linarith
  rw [hp, div_fin p 5 (by norm_num), hq, JSNum.round, hfloor, mul_fin]
  have hcast : (K : ℚ) * 5 = ((5 * K : ℤ) : ℚ) := by
    push_cast
    ring
  rw [hcast]
  exact binary64_int_nonneg _ (by omega) (by omega)

theorem roundToFive_at_one :
    roundToFive (JSNum.fin literal07) (JSNum.fin 1) = JSNum.fin 0 ∧
    roundToFive (JSNum.fin literal13) (JSNum.fin 1) = JSNum.fin 0 := by
  decide!

/-- Up to one minute both bounds computed are 0. -/
theorem range_small (m : ℚ) (hm : m ≤ 1) :
    rangeMin (JSNum.fin m) = JSNum.fin 0 ∧ rangeMax (JSNum.fin m) = JSNum.fin 0 := by
  have hnonpos : ∀ c : ℚ, 0 < c → roundToFive (JSNum.fin c) (JSNum.fin 1) = JSNum.fin 0 →
      JSNum.le (roundToFive (JSNum.fin c) (JSNum.fin m)) (JSNum.fin 0) = true := by
    intro c hc hone
    rcases le_or_lt m 0 with hneg | hpos
    · exact roundToFive_nonpos c hc _ ((le_of_fin m 0).mpr hneg)
    · have hmono := (roundToFive_mono c hc (JSNum.fin m) (JSNum.fin 1)
        ((le_of_fin 0 m).mpr hpos.le) ((le_of_fin m 1).mpr hm)).1
      rwa [hone] at hmono
  have hmin : rangeMin (JSNum.fin m) = JSNum.fin 0 := by
    rw [rangeMin_roundToFive]
    exact max_zero_nonpos _ (hnonpos _ literal07_pos roundToFive_at_one.1)
  refine ⟨hmin, ?_⟩
  rw [rangeMax_roundToFive, hmin]
  exact max_zero_nonpos _ (hnonpos _ literal13_pos roundToFive_at_one.2)

/-- Up to one minute both bounds of the exact formula are 0. -/
theorem spec_small (m : ℚ) (hm : m ≤ 1) : specLower m = 0 ∧ specUpper m = 0 := by
  have h07 : (0.7 : ℚ) = 7 / 10 := by norm_num
  have h13 : (1.3 : ℚ) = 13 / 10 := by norm_num
  have h1 : specRound (0.7 * m / 5) ≤ 0 := by
    have hlt : specRound (0.7 * m / 5) < 1 := by
      rw [specRound, Int.floor_lt, h07]
      push_cast
      linarith
    omega
  have h2 : specRound (1.3 * m / 5) ≤ 0 := by
    have hlt : specRound (1.3 * m / 5) < 1 := by
      rw [specRound, Int.floor_lt, h13]
      push_cast
      linarith
    omega
  have hl : specLower m = 0 := by
    rw [specLower]
    exact max_eq_left (by omega)
  refine ⟨hl, ?_⟩
  rw [specUpper, hl]
  exact max_eq_left (by omega)

/-- Away from the rounding ties and up to `10^12` minutes, the bounds computed in binary64
are those of the exact formula. -/
theorem range_exact (m : ℚ) (hB : m ≤ 1000000000000) (hm : m ≤ 1 ∨ farFromTie m = true) :
    rangeMin (JSNum.fin m) = JSNum.fin ((specLower m : ℤ) : ℚ) ∧
    rangeMax (JSNum.fin m) = JSNum.fin ((specUpper m : ℤ) : ℚ) := by
  rcases le_or_lt m 1 with hsmall | hbig
  · obtain ⟨h1, h2⟩ := range_small m hsmall
    obtain ⟨h3, h4⟩ := spec_small m hsmall
    rw [h1, h2, h3, h4, Int.cast_zero]
    exact ⟨rfl, rfl⟩
  · have hfar : farFromTie m = true := by
      rcases hm with hle | hfar
      · linarith
      · exact hfar
    have h07 : (0.7 : ℚ) = 7 / 10 := by norm_num
    have h13 : (1.3 : ℚ) = 13 / 10 := by norm_num
    simp only [farFromTie, decide_eq_true_eq, abs_le] at hfar
    obtain ⟨⟨ha1, ha2⟩, ⟨hb1, hb2⟩⟩ := hfar
    have hfl1 : ((specRound (0.7 * m / 5) : ℤ) : ℚ) ≤ 0.7 * m / 5 + 1 / 2 := Int.floor_le _
    have hfl2 : ((specRound (1.3 * m / 5) : ℤ) : ℚ) ≤ 1.3 * m / 5 + 1 / 2 := Int.floor_le _
    have hK1 : (0 : ℤ) ≤ specRound (0.7 * m / 5) := by
      rw [specRound, h07]
      exact Int.floor_nonneg.mpr (by linarith)
    have hK2 : (0 : ℤ) ≤ specRound (1.3 * m / 5) := by
      rw [specRound, h13]
      exact Int.floor_nonneg.mpr (by linarith)
    rw [h07] at ha1 ha2 hfl1
    rw [h13] at hb1 hb2 hfl2
    generalize hk1 : specRound (7 / 10 * m / 5) = K1 at ha1 ha2 hfl1
    generalize hk2 : specRound (13 / 10 * m / 5) = K2 at hb1 hb2 hfl2
    rw [h07] at hK1
    rw [h13] at hK2
    rw [hk1] at hK1
    rw [hk2] at hK2
    have hK1B : K1 < 1000000000000000 := by
      have : (K1 : ℚ) < 1000000000000000 := by linarith
      exact_mod_cast this
    have hK2B : K2 < 1000000000000000 := by
      have : (K2 : ℚ) < 1000000000000000 := by linarith
      exact_mod_cast this
    have hr1 := roundToFive_of_margin literal07 m K1 hK1 hK1B
      (by unfold literal07; linarith) (by unfold literal07; linarith)
      (by unfold literal07; linarith) (by unfold literal07; linarith)
    have hr2 := roundToFive_of_margin literal13 m K2 hK2 hK2B
      (by unfold literal13; linarith) (by unfold literal13; linarith)
      (by unfold literal13; linarith) (by unfold literal13; linarith)
    have hl : specLower m = 5 * K1 := by
      rw [specLower, h07, hk1]
      exact max_eq_right (by omega)
    have hmin : rangeMin (JSNum.fin m) = JSNum.fin ((5 * K1 : ℤ) : ℚ) := by
      rw [rangeMin_roundToFive, hr1]
      simp only [JSNum.max]
      rw [if_pos (by exact_mod_cast (by omega : (0 : ℤ) ≤ 5 * K1))]
    refine ⟨by rw [hmin, hl], ?_⟩
    rw [rangeMax_roundToFive, hmin, hr2, specUpper, hl, h13, hk2]
    simp only [JSNum.max]
    rcases le_total (5 * K1) (5 * K2) with hle | hle
    · rw [if_pos (by exact_mod_cast hle), max_eq_right hle]
    · rcases eq_or_lt_of_le hle with heq | hlt
      · rw [if_pos (by exact_mod_cast heq.ge), max_eq_left hle, heq]
      · rw [if_neg (by
          intro hc
          have hc2 : 5 * K1 ≤ 5 * K2 := by exact_mod_cast hc
          omega), max_eq_left hle]

/-- An integer number of minutes that is not 25 more than a multiple of 50 is far from the
ties. -/
theorem farFromTie_int (z : ℤ) (hz : z % 50 ≠ 25) : farFromTie (z : ℚ) = true := by
  have h07 : (0.7 : ℚ) = 7 / 10 := by norm_num
  have h13 : (1.3 : ℚ) = 13 / 10 := by norm_num
  simp only [farFromTie, decide_eq_true_eq, abs_le, specRound, h07, h13]
  have ha1 : ((⌊7 / 10 * (z : ℚ) / 5 + 1 / 2⌋ : ℤ) : ℚ) ≤ 7 / 10 * (z : ℚ) / 5 + 1 / 2 :=
    Int.floor_le _
  have ha2 : 7 / 10 * (z : ℚ) / 5 + 1 / 2 < ((⌊7 / 10 * (z : ℚ) / 5 + 1 / 2⌋ : ℤ) : ℚ) + 1 :=
    Int.lt_floor_add_one _
  have hb1 : ((⌊13 / 10 * (z : ℚ) / 5 + 1 / 2⌋ : ℤ) : ℚ) ≤ 13 / 10 * (z : ℚ) / 5 + 1 / 2 :=
    Int.floor_le _
  have hb2 : 13 / 10 * (z : ℚ) / 5 + 1 / 2 <
      ((⌊13 / 10 * (z : ℚ) / 5 + 1 / 2⌋ : ℤ) : ℚ) + 1 := Int.lt_floor_add_one _
  generalize ⌊7 / 10 * (z : ℚ) / 5 + 1 / 2⌋ = K1 at ha1 ha2
  generalize ⌊13 / 10 * (z : ℚ) / 5 + 1 / 2⌋ = K2 at hb1 hb2
  have ia1 : 50 * K1 ≤ 7 * z + 25 := by
    have : ((50 * K1 : ℤ) : ℚ) ≤ ((7 * z + 25 : ℤ) : ℚ) := by
      push_cast
      linarith
    exact_mod_cast this
  have ia2 : 7 * z + 25 < 50 * K1 + 50 := by
    have : ((7 * z + 25 : ℤ) : ℚ) < ((50 * K1 + 50 : ℤ) : ℚ) := by
      push_cast
      linarith
    exact_mod_cast this
  have ib1 : 50 * K2 ≤ 13 * z + 25 := by
    have : ((50 * K2 : ℤ) : ℚ) ≤ ((13 * z + 25 : ℤ) : ℚ) := by
      push_cast
      linarith
    exact_mod_cast this
  have ib2 : 13 * z + 25 < 50 * K2 + 50 := by
    have : ((13 * z + 25 : ℤ) : ℚ) < ((50 * K2 + 50 : ℤ) : ℚ) := by
      push_cast
      linarith
    exact_mod_cast this
  have ja1 : 50 * K1 + 1 ≤ 7 * z + 25 := by omega
  have jb1 : 50 * K2 + 1 ≤ 13 * z + 25 := by omega
  have ja1q : ((50 * K1 + 1 : ℤ) : ℚ) ≤ ((7 * z + 25 : ℤ) : ℚ) := by exact_mod_cast ja1
  have jb1q : ((50 * K2 + 1 : ℤ) : ℚ) ≤ ((13 * z + 25 : ℤ) : ℚ) := by exact_mod_cast jb1
  have ia2' : 7 * z + 25 ≤ 50 * K1 + 49 := by omega
  have ib2' : 13 * z + 25 ≤ 50 * K2 + 49 := by omega
  have ia2q : ((7 * z + 25 : ℤ) : ℚ) ≤ ((50 * K1 + 49 : ℤ) : ℚ) := by exact_mod_cast ia2'
  have ib2q : ((13 * z + 25 : ℤ) : ℚ) ≤ ((50 * K2 + 49 : ℤ) : ℚ) := by exact_mod_cast ib2'
  push_cast at ja1q jb1q ia2q ib2q
  refine ⟨⟨by linarith, by linarith⟩, ⟨by linarith, by linarith⟩⟩

theorem spec_bounds (m : ℚ) (hB : m ≤ 1000000000000) :
    0 ≤ specLower m ∧ specLower m ≤ 10000000000000 ∧
    0 ≤ specUpper m ∧ specUpper m ≤ 10000000000000 := by
  have h07 : (0.7 : ℚ) = 7 / 10 := by norm_num
  have h13 : (1.3 : ℚ) = 13 / 10 := by norm_num
  have h1 : specRound (0.7 * m / 5) < 1000000000000 := by
    rw [specRound, Int.floor_lt, h07]
    push_cast
    linarith
  have h2 : specRound (1.3 * m / 5) < 1000000000000 := by
    rw [specRound, Int.floor_lt, h13]
    push_cast
    linarith
  have hl0 : 0 ≤ specLower m := le_max_left _ _
  have hlB : specLower m ≤ 10000000000000 := max_le (by norm_num) (by omega)
  exact ⟨hl0, hlB, le_trans hl0 (le_max_left _ _), max_le hlB (by omega)⟩

/-- C3, counterexample: for `m = 175` the formula gives `lower = 5·round(24.5) = 125`, but
`175 * 0.7` is `122.49999999999999` in binary64 and `getRangeString` returns
`"120–230 min"`; for `m = 10^17`, where no tie is involved, the formula gives
`lower = 7·10^16` and the code computes 69999999999999992. -/
theorem C3_counterexample :
    specLower 175 = 125 ∧ specUpper 175 = 230 ∧
    rangeMin (JSNum.fin 175) = JSNum.fin 120 ∧
    getRangeString exampleHost (JSVal.obj []) (some (JSNum.fin 175)) =
      Except.ok "120–230 min" ∧
    specLower (10 ^ 17) = 70000000000000000 ∧
    rangeMin (JSNum.fin (10 ^ 17)) = JSNum.fin 69999999999999992 := by
  decide!

/-- C3 (amended): for every record with no truthy pre-formatted range field and every finite
minutes value `m ≤ 10^12` that is at most 1 or such that neither `0.7·m / 5` nor `1.3·m / 5`
is within a thousandth of a rounding tie - as is every integer `m` that is not 25 more than a
multiple of 50 - `getRangeString` returns the string `"{lower}–{upper} min"` (en-dash) where
`lower = max(0, 5·round(0.7·m / 5))` and `upper = max(lower, 5·round(1.3·m / 5))` in exact
arithmetic, `round` being round-to-nearest-integer.  In particular `m = 20` gives
`"15–25 min"` and `m = 0` gives `"0–0 min"`. -/
theorem C3_getRangeString_synthesized (h : Host) (fields : List (String × JSVal)) (m : ℚ)
    (hnone : ∀ c ∈ rangeFields (JSVal.obj fields), c.truthy = false)
    (hB : m ≤ 1000000000000) (hm : m ≤ 1 ∨ farFromTie m = true) :
    rangeMin (JSNum.fin m) = JSNum.fin ((specLower m : ℤ) : ℚ) ∧
    rangeMax (JSNum.fin m) = JSNum.fin ((specUpper m : ℤ) : ℚ) ∧
    getRangeString h (JSVal.obj fields) (some (JSNum.fin m)) =
      Except.ok (toString (specLower m) ++ "–" ++ toString (specUpper m) ++ " min") ∧
    (∀ z : ℤ, z % 50 ≠ 25 → farFromTie (z : ℚ) = true) ∧
    getRangeString h (JSVal.obj fields) (some (JSNum.fin 20)) = Except.ok "15–25 min" ∧
    getRangeString h (JSVal.obj fields) (some (JSNum.fin 0)) = Except.ok "0–0 min" := by
  obtain ⟨hmin, hmax⟩ := range_exact m hB hm
  obtain ⟨hl0, hlB, hu0, huB⟩ := spec_bounds m hB
  refine ⟨hmin, hmax, ?_, farFromTie_int, ?_, ?_⟩
  · rw [getRangeString_synth h fields m hnone, hmin, hmax,
      toJSString_int h.shortest (specLower m) (by
        have hb : (specLower m).natAbs ≤ 10000000000000 := by omega
        exact le_trans hb (by decide)),
      toJSString_int h.shortest (specUpper m) (by
        have hb : (specUpper m).natAbs ≤ 10000000000000 := by omega
        exact le_trans hb (by decide))]
  · rw [getRangeString_synth h fields 20 hnone]
    have hl : rangeMin (JSNum.fin 20) = JSNum.fin 15 := by decide!
    have hu : rangeMax (JSNum.fin 20) = JSNum.fin 25 := by decide!
    rw [hl, hu]
    with_unfolding_all rfl
  · rw [getRangeString_synth h fields 0 hnone]
    have hl : rangeMin (JSNum.fin 0) = JSNum.fin 0 := by decide!
    have hu : rangeMax (JSNum.fin 0) = JSNum.fin 0 := by decide!
    rw [hl, hu]
    with_unfolding_all rfl

/-- C3 (amended), on the record `{ Name: "A" }` with minutes 20: the formula gives 15 and 25
and the range is `"15–25 min"`. -/
theorem C3_getRangeString_synthesized_witness :
    farFromTie 20 = true ∧ specLower 20 = 15 ∧ specUpper 20 = 25 ∧
    getRangeString exampleHost (JSVal.obj [("Name", JSVal.str "A")]) (some (JSNum.fin 20)) =
      Except.ok "15–25 min" := by
  have hfar : farFromTie 20 = true := by decide!
  have hs : toString (specLower 20) ++ "–" ++ toString (specUpper 20) ++ " min" =
      "15–25 min" := by decide!
  have hmain := (C3_getRangeString_synthesized exampleHost [("Name", JSVal.str "A")] 20
    (by
      intro c hc
      simp only [rangeFields, JSVal.field, List.lookup, List.mem_cons, List.mem_nil_iff,
        or_false] at hc
      rcases hc with rfl | rfl | rfl | rfl <;> rfl)
    (by norm_num) (Or.inr hfar)).2.2.1
  rw [hs] at hmain
  exact ⟨hfar, by decide!, by decide!, hmain⟩

end Evergreen
